import Mathlib

/-!
Loan lifecycle: a shallow embedding of the Go sources

The Go packages `internal/domain`, `internal/repository/postgres`,
`internal/service` and, for creating and listing loans and for the mapping of
errors, `internal/handler` are embedded as Lean functions with explicit state
passing.

* Go `int64` is the type `Int64`: an integer together with the proof that it
  lies in `[-2^63, 2^63)`; `+` and `-` wrap modulo `2^64` as in Go.
* `LoanState` is a Go string type, so a state is any string; the four
  constants are the strings of the source.
* A method with a pointer receiver that returns `error` becomes a function
  that returns the receiver after the call together with `Option Error`
  (`none` is Go's `nil`).
* `time.Now()` and `uuid.New()` are inputs of the functions that call them
  (`Env`), and so is the behaviour of the database driver (`Driver`): which
  statement fails, and with which message.
* The Postgres tables are lists of rows (`Tables`); no key constraint is
  assumed. A transaction works on a copy of the tables which replaces the
  committed tables on commit. `SELECT ... FOR UPDATE` serialises the calls
  on one loan, so a service call is one step on the committed tables.
* The row of a loan is what `SELECT ... WHERE id = $1` yields
  (`Tables.stored`).
* `CreateLoan` and `AddInvestment` are embedded a second time together with
  the list of the gateway calls they make, in order (`GatewayCall`); the
  functions with the log return what the functions without it return.
* A call through an interface whose implementation is outside the embedding
  (`EmailService`, `GetInvestorsByLoanID`) is an input: what the call
  returns. What `notifyInvestors` does is the list of its sends and log
  lines, in order.
-/

/-! ## Machine integers -/

/-- Two's-complement wraparound of an exact integer into the `int64` range. -/
def wrap64 (x : Int) : Int :=
  (x + 9223372036854775808) % 18446744073709551616 - 9223372036854775808

theorem wrap64_lo (x : Int) : -9223372036854775808 ≤ wrap64 x := by
  unfold wrap64; omega

theorem wrap64_hi (x : Int) : wrap64 x ≤ 9223372036854775807 := by
  unfold wrap64; omega

theorem wrap64_id (x : Int) (h1 : -9223372036854775808 ≤ x)
    (h2 : x ≤ 9223372036854775807) : wrap64 x = x := by
  unfold wrap64; omega

/-- Go `int64`. -/
structure Int64 where
  val : Int
  lo : -9223372036854775808 ≤ val
  hi : val ≤ 9223372036854775807
deriving DecidableEq

namespace Int64

/-- Conversion of an integer constant to `int64` (wrapping). -/
def ofInt (x : Int) : Int64 := ⟨wrap64 x, wrap64_lo x, wrap64_hi x⟩

/-- Go `a + b` on `int64`. -/
def add (a b : Int64) : Int64 := ofInt (a.val + b.val)

/-- Go `a - b` on `int64`. -/
def sub (a b : Int64) : Int64 := ofInt (a.val - b.val)

instance : Add Int64 := ⟨add⟩
instance : Sub Int64 := ⟨sub⟩
instance (n : Nat) : OfNat Int64 n := ⟨ofInt n⟩
instance : LE Int64 := ⟨fun a b => a.val ≤ b.val⟩
instance : LT Int64 := ⟨fun a b => a.val < b.val⟩
instance (a b : Int64) : Decidable (a ≤ b) := inferInstanceAs (Decidable (a.val ≤ b.val))
instance (a b : Int64) : Decidable (a < b) := inferInstanceAs (Decidable (a.val < b.val))

end Int64

/-! ## package domain -/

namespace domain

/-- Go `uuid.UUID`. -/
abbrev UUID := Nat

/-- Go `time.Time`. -/
abbrev Time := Nat

/-- Go `float64` values of `Rate` and `ROI`; the code only stores them. -/
abbrev Float64 := Rat

/-- Go `type LoanState string`. -/
abbrev LoanState := String

def LoanStateProposed : LoanState := "proposed"
def LoanStateApproved : LoanState := "approved"
def LoanStateInvested : LoanState := "invested"
def LoanStateDisbursed : LoanState := "disbursed"

/-- Go `error` values: the sentinels of `errors.go`, errors coming from the
storage driver, and the results of `fmt.Errorf`. -/
inductive Error where
  | ErrLoanNotFound
  | ErrInvalidStateTransition
  | ErrInvestmentExceedsLimit
  | ErrLoanNotApproved
  | ErrLoanNotInvested
  | ErrLoanAlreadyApproved
  | ErrLoanAlreadyDisbursed
  | ErrInvalidAmount
  | ErrApprovalNotFound
  | ErrDisbursementNotFound
  /-- an error returned by the database driver -/
  | driver (msg : String)
  /-- the error built by fmt.Errorf with a %w verb, the format text before
  the verb being pfx: it wraps its cause -/
  | wrapf (pfx : String) (cause : Error)
  /-- the error built by fmt.Errorf with %v verbs only: a new error with the
  formatted message, wrapping nothing -/
  | errorf (msg : String)
deriving DecidableEq, Repr

/-- Go `err.Error()`: the message of an error. -/
def Error.message : Error → String
  | .ErrLoanNotFound => "loan not found"
  | .ErrInvalidStateTransition => "invalid state transition"
  | .ErrInvestmentExceedsLimit => "investment amount exceeds remaining principal"
  | .ErrLoanNotApproved => "loan must be in approved state to accept investments"
  | .ErrLoanNotInvested => "loan must be in invested state to disburse"
  | .ErrLoanAlreadyApproved => "loan is already approved"
  | .ErrLoanAlreadyDisbursed => "loan is already disbursed"
  | .ErrInvalidAmount => "invalid amount"
  | .ErrApprovalNotFound => "approval not found"
  | .ErrDisbursementNotFound => "disbursement not found"
  | .driver msg => msg
  | .wrapf pfx cause => pfx ++ cause.message
  | .errorf msg => msg

/-- Go `errors.Is(err, target)`: `err` or an error it wraps, directly or
through a chain of `%w`, is `target`. Go compares error values by identity;
the targets the code and the theorems below pass are the sentinels of
`errors.go`, each a single value, for which comparing the constructors is
the same. -/
def Error.Is : Error → Error → Bool
  | .wrapf pfx cause, target =>
    (Error.wrapf pfx cause == target) || cause.Is target
  | err, target => err == target

/-- The map `ValidTransitions`. -/
def ValidTransitions : List (LoanState × LoanState) :=
  [ (LoanStateProposed, LoanStateApproved),
    (LoanStateApproved, LoanStateInvested),
    (LoanStateInvested, LoanStateDisbursed) ]

/-- Go `v, ok := m[k]` on a `map[LoanState]LoanState`: the zero value `""`
and `false` when the key is absent. -/
def mapIndex (m : List (LoanState × LoanState)) (k : LoanState) : LoanState × Bool :=
  match m.lookup k with
  | some v => (v, true)
  | none => ("", false)

structure Loan where
  ID : UUID
  BorrowerID : String
  PrincipalAmount : Int64
  Rate : Float64
  ROI : Float64
  State : LoanState
  AgreementLetterURL : Option String
  TotalInvested : Int64
  CreatedAt : Time
  UpdatedAt : Time
deriving DecidableEq

/-- `NewLoan`; `id` is the result of `uuid.New()`, `now` of `time.Now()`. -/
def NewLoan (id : UUID) (now : Time) (borrowerID : String) (principalAmount : Int64)
    (rate roi : Float64) : Loan :=
  { ID := id
    BorrowerID := borrowerID
    PrincipalAmount := principalAmount
    Rate := rate
    ROI := roi
    State := LoanStateProposed
    AgreementLetterURL := none
    TotalInvested := 0
    CreatedAt := now
    UpdatedAt := now }

namespace Loan

def CanTransitionTo (l : Loan) (newState : LoanState) : Bool :=
  let r := mapIndex ValidTransitions l.State
  r.2 && r.1 == newState

/-- `TransitionTo`: the loan after the call and the returned error. -/
def TransitionTo (l : Loan) (newState : LoanState) (now : Time) : Loan × Option Error :=
  if !l.CanTransitionTo newState then
    (l, some Error.ErrInvalidStateTransition)
  else
    ({ l with State := newState, UpdatedAt := now }, none)

def RemainingAmount (l : Loan) : Int64 :=
  l.PrincipalAmount - l.TotalInvested

def IsFullyInvested (l : Loan) : Bool :=
  decide (l.TotalInvested ≥ l.PrincipalAmount)

def CanAcceptInvestment (l : Loan) : Bool :=
  l.State == LoanStateApproved

/-- `AddInvestment`: the loan after the call and the returned error. -/
def AddInvestment (l : Loan) (amount : Int64) (now : Time) : Loan × Option Error :=
  if !l.CanAcceptInvestment then
    (l, some Error.ErrLoanNotApproved)
  else if amount > l.RemainingAmount then
    (l, some Error.ErrInvestmentExceedsLimit)
  else
    ({ l with TotalInvested := l.TotalInvested + amount, UpdatedAt := now }, none)

end Loan

/-- The successor relation of the chain proposed, approved, invested,
disbursed. -/
def IsNext (s s1 : LoanState) : Prop :=
  (s = LoanStateProposed ∧ s1 = LoanStateApproved) ∨
  (s = LoanStateApproved ∧ s1 = LoanStateInvested) ∨
  (s = LoanStateInvested ∧ s1 = LoanStateDisbursed)

instance (s s1 : LoanState) : Decidable (IsNext s s1) := by
  unfold IsNext; exact inferInstance

/-- The bounds of the data model on one loan: `0 ≤ TotalInvested ≤
PrincipalAmount`, as exact integers. -/
def Loan.Bounded (l : Loan) : Prop :=
  0 ≤ l.TotalInvested.val ∧ l.TotalInvested.val ≤ l.PrincipalAmount.val

instance (l : Loan) : Decidable l.Bounded := by
  unfold Loan.Bounded; exact inferInstance

/-- How a service call may change a loan row: `l` is the row it reads and
`l1` the loan it writes back. Identity, creation time and principal are kept,
the state stays or moves to its successor, and the bounds are kept. -/
def Loan.Written (l l1 : Loan) : Prop :=
  l1.ID = l.ID ∧ l1.CreatedAt = l.CreatedAt ∧ l1.PrincipalAmount = l.PrincipalAmount ∧
  (l1.State = l.State ∨ IsNext l.State l1.State) ∧ (l.Bounded → l1.Bounded)

/-- Row of the `approvals` table. -/
structure Approval where
  ID : UUID
  LoanID : UUID
  FieldValidatorID : String
  PictureProofURL : String
  ApprovedAt : Time
deriving DecidableEq

def NewApproval (id : UUID) (now : Time) (loanID : UUID)
    (fieldValidatorID pictureProofURL : String) : Approval :=
  { ID := id
    LoanID := loanID
    FieldValidatorID := fieldValidatorID
    PictureProofURL := pictureProofURL
    ApprovedAt := now }

/-- Row of the `disbursements` table. -/
structure Disbursement where
  ID : UUID
  LoanID : UUID
  FieldOfficerID : String
  SignedAgreementURL : String
  DisbursedAt : Time
deriving DecidableEq

def NewDisbursement (id : UUID) (now : Time) (loanID : UUID)
    (fieldOfficerID signedAgreementURL : String) : Disbursement :=
  { ID := id
    LoanID := loanID
    FieldOfficerID := fieldOfficerID
    SignedAgreementURL := signedAgreementURL
    DisbursedAt := now }

/-- Row of the `investments` table. -/
structure Investment where
  ID : UUID
  LoanID : UUID
  InvestorID : String
  Amount : Int64
  CreatedAt : Time
deriving DecidableEq

def NewInvestment (id : UUID) (now : Time) (loanID : UUID) (investorID : String)
    (amount : Int64) : Investment :=
  { ID := id
    LoanID := loanID
    InvestorID := investorID
    Amount := amount
    CreatedAt := now }

end domain

/-! ## package postgres -/

namespace postgres

open domain

/-- The contents of the four tables. -/
structure Tables where
  loans : List Loan
  approvals : List Approval
  investments : List Investment
  disbursements : List Disbursement
deriving DecidableEq

/-- The database with no rows. -/
def Tables.empty : Tables := ⟨[], [], [], []⟩

/-- The committed row of the loan `id`: the row `SELECT ... WHERE id = $1`
yields. -/
def Tables.stored (t : Tables) (id : UUID) : Option Loan :=
  t.loans.find? (fun r => r.ID == id)

/-- What the driver does during one service call apart from reading and
writing rows: for each kind of statement, the error it fails with, if any.
A service call issues at most one statement of each kind. -/
structure Driver where
  /-- pool.Begin -/
  beginErr : Option String
  /-- QueryRow/Scan of a loan row, an error other than pgx.ErrNoRows -/
  scanErr : Option String
  /-- Exec of an INSERT -/
  insertErr : Option String
  /-- Exec of the UPDATE of a loan row -/
  updateErr : Option String
  /-- tx.Commit -/
  commitErr : Option String
  /-- tx.Rollback -/
  rollbackErr : Option String
deriving DecidableEq

/-- The driver with every statement succeeding. -/
def Driver.ok : Driver := ⟨none, none, none, none, none, none⟩

/-- `DB.WithTransaction`. `t` is the committed database, `v` the variables of
the enclosing function that the closure `fn` assigns. `fn` works on the
transaction's copy of the tables; the result is the committed database after
the call, the captured variables, and the returned error. -/
def WithTransaction {σ : Type} (d : Driver) (t : Tables) (v : σ)
    (fn : Tables → σ → Tables × σ × Option Error) : Tables × σ × Option Error :=
  match d.beginErr with
  | some m => (t, v, some (Error.wrapf "failed to begin transaction: " (Error.driver m)))
  | none =>
    match fn t v with
    | (_, v1, some err) =>
      match d.rollbackErr with
      | some rb =>
        (t, v1, some (Error.errorf ("tx err: " ++ err.message ++ ", rollback err: " ++ rb)))
      | none => (t, v1, some err)
    | (t1, v1, none) =>
      match d.commitErr with
      | some m => (t, v1, some (Error.wrapf "failed to commit transaction: " (Error.driver m)))
      | none => (t1, v1, none)

namespace LoanRepository

/-- `INSERT INTO loans`. -/
def Create (d : Driver) (t : Tables) (loan : Loan) : Tables × Option Error :=
  match d.insertErr with
  | some m => (t, some (Error.wrapf "failed to create loan: " (Error.driver m)))
  | none => ({ t with loans := t.loans ++ [loan] }, none)

/-- `scanLoan` on the row of `SELECT ... FROM loans WHERE id = $1`. -/
def scanLoan (d : Driver) (row : Option Loan) : Except Error Loan :=
  match d.scanErr with
  | some m => .error (Error.wrapf "failed to scan loan: " (Error.driver m))
  | none =>
    match row with
    | none => .error Error.ErrLoanNotFound
    | some loan => .ok loan

def GetByID (d : Driver) (t : Tables) (id : UUID) : Except Error Loan :=
  scanLoan d (t.stored id)

/-- `SELECT ... FOR UPDATE`: the same row; the lock makes the service calls on
one loan run one after the other. -/
def GetByIDForUpdate (d : Driver) (t : Tables) (id : UUID) : Except Error Loan :=
  scanLoan d (t.stored id)

/-- The `SET` clause of `Update` applied to the row `r`: every column but
`id` and `created_at` takes the value of `loan`. -/
def setColumns (r loan : Loan) : Loan :=
  { r with
    BorrowerID := loan.BorrowerID
    PrincipalAmount := loan.PrincipalAmount
    Rate := loan.Rate
    ROI := loan.ROI
    State := loan.State
    AgreementLetterURL := loan.AgreementLetterURL
    TotalInvested := loan.TotalInvested
    UpdatedAt := loan.UpdatedAt }

/-- `UPDATE loans SET ... WHERE id = $1`. -/
def Update (d : Driver) (t : Tables) (loan : Loan) : Tables × Option Error :=
  match d.updateErr with
  | some m => (t, some (Error.wrapf "failed to update loan: " (Error.driver m)))
  | none =>
    ({ t with loans := t.loans.map (fun r =>
        if r.ID == loan.ID then setColumns r loan else r) }, none)

end LoanRepository

namespace ApprovalRepository

/-- `INSERT INTO approvals`. -/
def Create (d : Driver) (t : Tables) (approval : Approval) : Tables × Option Error :=
  match d.insertErr with
  | some m => (t, some (Error.wrapf "failed to create approval: " (Error.driver m)))
  | none => ({ t with approvals := t.approvals ++ [approval] }, none)

end ApprovalRepository

namespace InvestmentRepository

/-- `INSERT INTO investments`. -/
def Create (d : Driver) (t : Tables) (investment : Investment) : Tables × Option Error :=
  match d.insertErr with
  | some m => (t, some (Error.wrapf "failed to create investment: " (Error.driver m)))
  | none => ({ t with investments := t.investments ++ [investment] }, none)

end InvestmentRepository

namespace DisbursementRepository

/-- `INSERT INTO disbursements`. -/
def Create (d : Driver) (t : Tables) (disbursement : Disbursement) : Tables × Option Error :=
  match d.insertErr with
  | some m => (t, some (Error.wrapf "failed to create disbursement: " (Error.driver m)))
  | none => ({ t with disbursements := t.disbursements ++ [disbursement] }, none)

end DisbursementRepository

end postgres

/-! ## package service -/

namespace service

open domain postgres

/-- The inputs of one service call that the caller does not choose: how the
driver behaves, the identifier `uuid.New()` returns (each call draws at most
one), and the readings of `time.Now()` in the order they are taken. -/
structure Env where
  driver : Driver
  newID : UUID
  now : Nat → Time

/-- What one service call leaves behind: the committed database, the returned
loan, investment and error, and the arguments `(loanID, agreementURL)` of the
`notifyInvestors` goroutine when the call starts one. Logging is left out. -/
structure Outcome where
  tables : Tables
  loan : Option Loan
  investment : Option Investment
  err : Option Error
  spawned : Option (UUID × String)
deriving DecidableEq

namespace LoanService

def CreateLoan (env : Env) (t : Tables) (borrowerID : String) (principalAmount : Int64)
    (rate roi : Float64) : Outcome :=
  if principalAmount ≤ 0 then
    ⟨t, none, none, some Error.ErrInvalidAmount, none⟩
  else
    let loan := NewLoan env.newID (env.now 0) borrowerID principalAmount rate roi
    match LoanRepository.Create env.driver t loan with
    | (t1, some err) => ⟨t1, none, none, some (Error.wrapf "failed to create loan: " err), none⟩
    | (t1, none) => ⟨t1, some loan, none, none, none⟩

/-- `GetLoan`: a read outside any transaction. -/
def GetLoan (env : Env) (t : Tables) (id : UUID) : Except Error Loan :=
  LoanRepository.GetByID env.driver t id

/-- The closure `ApproveLoan` passes to `WithTransaction`; the captured
variable is `loan`. -/
def ApproveLoan.fn (env : Env) (loanID : UUID) (fieldValidatorID pictureProofURL : String)
    (tx : Tables) (_ : Option Loan) : Tables × Option Loan × Option Error :=
  match LoanRepository.GetByIDForUpdate env.driver tx loanID with
  | .error err => (tx, none, some err)
  | .ok loan =>
    if loan.State != LoanStateProposed then
      (tx, some loan, some Error.ErrLoanAlreadyApproved)
    else
      match loan.TransitionTo LoanStateApproved (env.now 0) with
      | (loan1, some err) => (tx, some loan1, some err)
      | (loan1, none) =>
        match LoanRepository.Update env.driver tx loan1 with
        | (tx1, some err) => (tx1, some loan1, some err)
        | (tx1, none) =>
          let approval := NewApproval env.newID (env.now 1) loanID fieldValidatorID pictureProofURL
          match ApprovalRepository.Create env.driver tx1 approval with
          | (tx2, some err) => (tx2, some loan1, some err)
          | (tx2, none) => (tx2, some loan1, none)

def ApproveLoan (env : Env) (t : Tables) (loanID : UUID)
    (fieldValidatorID pictureProofURL : String) : Outcome :=
  match WithTransaction env.driver t none
      (ApproveLoan.fn env loanID fieldValidatorID pictureProofURL) with
  | (t1, _, some err) => ⟨t1, none, none, some err, none⟩
  | (t1, loan, none) => ⟨t1, loan, none, none, none⟩

/-- The closure `AddInvestment` passes to `WithTransaction`; the captured
variables are `loan` and `investment`. -/
def AddInvestment.fn (env : Env) (loanID : UUID) (investorID : String) (amount : Int64)
    (tx : Tables) (v : Option Loan × Option Investment) :
    Tables × (Option Loan × Option Investment) × Option Error :=
  match LoanRepository.GetByIDForUpdate env.driver tx loanID with
  | .error err => (tx, (none, v.2), some err)
  | .ok loan =>
    match loan.AddInvestment amount (env.now 0) with
    | (loan1, some err) => (tx, (some loan1, v.2), some err)
    | (loan1, none) =>
      let investment := NewInvestment env.newID (env.now 1) loanID investorID amount
      match InvestmentRepository.Create env.driver tx investment with
      | (tx1, some err) => (tx1, (some loan1, some investment), some err)
      | (tx1, none) =>
        -- Auto-transition to invested if fully funded
        match (if loan1.IsFullyInvested then loan1.TransitionTo LoanStateInvested (env.now 2)
               else (loan1, none)) with
        | (loan2, some err) => (tx1, (some loan2, some investment), some err)
        | (loan2, none) =>
          match LoanRepository.Update env.driver tx1 loan2 with
          | (tx2, some err) => (tx2, (some loan2, some investment), some err)
          | (tx2, none) => (tx2, (some loan2, some investment), none)

def AddInvestment (env : Env) (t : Tables) (loanID : UUID) (investorID : String)
    (amount : Int64) : Outcome :=
  if amount ≤ 0 then
    ⟨t, none, none, some Error.ErrInvalidAmount, none⟩
  else
    match WithTransaction env.driver t (none, none)
        (AddInvestment.fn env loanID investorID amount) with
    | (t1, _, some err) => ⟨t1, none, none, some err, none⟩
    | (t1, (some loan, investment), none) =>
      -- Send emails to all investors if fully invested (async)
      ⟨t1, some loan, investment, none,
        if loan.IsFullyInvested then loan.AgreementLetterURL.map (fun url => (loanID, url))
        else none⟩
    | (t1, (none, investment), none) =>
      -- not reached: the closure returns nil only after assigning loan
      ⟨t1, none, investment, none, none⟩

/-- The closure `DisburseLoan` passes to `WithTransaction`; the captured
variable is `loan`. -/
def DisburseLoan.fn (env : Env) (loanID : UUID) (fieldOfficerID signedAgreementURL : String)
    (tx : Tables) (_ : Option Loan) : Tables × Option Loan × Option Error :=
  match LoanRepository.GetByIDForUpdate env.driver tx loanID with
  | .error err => (tx, none, some err)
  | .ok loan =>
    if loan.State != LoanStateInvested then
      if loan.State == LoanStateDisbursed then
        (tx, some loan, some Error.ErrLoanAlreadyDisbursed)
      else
        (tx, some loan, some Error.ErrLoanNotInvested)
    else
      match loan.TransitionTo LoanStateDisbursed (env.now 0) with
      | (loan1, some err) => (tx, some loan1, some err)
      | (loan1, none) =>
        let loan2 := { loan1 with AgreementLetterURL := some signedAgreementURL }
        match LoanRepository.Update env.driver tx loan2 with
        | (tx1, some err) => (tx1, some loan2, some err)
        | (tx1, none) =>
          let disbursement :=
            NewDisbursement env.newID (env.now 1) loanID fieldOfficerID signedAgreementURL
          match DisbursementRepository.Create env.driver tx1 disbursement with
          | (tx2, some err) => (tx2, some loan2, some err)
          | (tx2, none) => (tx2, some loan2, none)

def DisburseLoan (env : Env) (t : Tables) (loanID : UUID)
    (fieldOfficerID signedAgreementURL : String) : Outcome :=
  match WithTransaction env.driver t none
      (DisburseLoan.fn env loanID fieldOfficerID signedAgreementURL) with
  | (t1, _, some err) => ⟨t1, none, none, some err, none⟩
  | (t1, loan, none) =>
    -- Notify all investors about disbursement with the signed agreement
    ⟨t1, loan, none, none, some (loanID, signedAgreementURL)⟩

end LoanService

/-- The loan the closure of `AddInvestment` writes back for the row `l`: the
amount added and, when that funds the loan fully, the state moved to
invested. -/
def fundedLoan (env : Env) (l : Loan) (amount : Int64) : Loan :=
  let l1 : Loan := { l with TotalInvested := l.TotalInvested + amount, UpdatedAt := env.now 0 }
  if l1.IsFullyInvested then { l1 with State := LoanStateInvested, UpdatedAt := env.now 2 }
  else l1

/-- One call of a mutating `LoanService` operation with its arguments. -/
inductive Call where
  | CreateLoan (borrowerID : String) (principalAmount : Int64) (rate roi : Float64)
  | ApproveLoan (loanID : UUID) (fieldValidatorID pictureProofURL : String)
  | AddInvestment (loanID : UUID) (investorID : String) (amount : Int64)
  | DisburseLoan (loanID : UUID) (fieldOfficerID signedAgreementURL : String)

/-- Performs one call on the committed database `t`. -/
def exec (env : Env) (t : Tables) : Call → Outcome
  | .CreateLoan b p rate roi => LoanService.CreateLoan env t b p rate roi
  | .ApproveLoan id v u => LoanService.ApproveLoan env t id v u
  | .AddInvestment id i a => LoanService.AddInvestment env t id i a
  | .DisburseLoan id o u => LoanService.DisburseLoan env t id o u

/-- The committed database after a sequence of calls, each with its own
environment, performed one after the other. -/
def run (t : Tables) : List (Env × Call) → Tables
  | [] => t
  | (env, c) :: rest => run (exec env t c).tables rest

/-- Two `AddInvestment` calls on the same loan, performed one after the other
as the row lock orders them: the second runs on the database the first has
committed. -/
def twoInvestments (env1 env2 : Env) (t : Tables) (loanID : UUID)
    (investor1 : String) (a : Int64) (investor2 : String) (b : Int64) : Outcome × Outcome :=
  let o1 := LoanService.AddInvestment env1 t loanID investor1 a
  (o1, LoanService.AddInvestment env2 o1.tables loanID investor2 b)

/-- A concrete environment: the driver succeeds, `uuid.New()` yields `i`, the
clock reads `10 * i + k` at the `k`-th reading. -/
def sampleEnv (i : Nat) : Env := ⟨Driver.ok, i, fun k => 10 * i + k⟩

/-- The loan with id 1 and principal 100, as created. -/
def sampleProposed : Tables :=
  run Tables.empty [(sampleEnv 1, .CreateLoan "borrower" 100 0 0)]

/-- The loan with id 1 and principal 100, created and approved. -/
def sampleApproved : Tables :=
  run sampleProposed [(sampleEnv 2, .ApproveLoan 1 "validator" "proof.jpg")]

/-- The loan with id 1 and principal 100, created, approved and fully funded. -/
def sampleInvested : Tables :=
  run sampleApproved [(sampleEnv 3, .AddInvestment 1 "investor" 100)]

/-- The calls of the first sample history: create with principal 100,
approve, invest 60, invest 50 (rejected), invest 40. -/
def sampleCalls : List (Env × Call) :=
  [ (sampleEnv 1, .CreateLoan "borrower" 100 0 0),
    (sampleEnv 2, .ApproveLoan 1 "validator" "proof.jpg"),
    (sampleEnv 3, .AddInvestment 1 "x" 60),
    (sampleEnv 4, .AddInvestment 1 "y" 50),
    (sampleEnv 5, .AddInvestment 1 "y" 40) ]

/-- The loan row after `sampleCalls`. -/
def sampleFunded : Loan :=
  { NewLoan 1 10 "borrower" 100 0 0 with
    State := LoanStateInvested
    TotalInvested := 100
    UpdatedAt := 52 }

/-- The loan row of `sampleInvested`. -/
def sampleFunded32 : Loan :=
  { NewLoan 1 10 "borrower" 100 0 0 with
    State := LoanStateInvested
    TotalInvested := 100
    UpdatedAt := 32 }

/-- The loan row of `sampleApproved`. -/
def sampleApprovedLoan : Loan :=
  { NewLoan 1 10 "borrower" 100 0 0 with
    State := LoanStateApproved
    UpdatedAt := 20 }

end service

/-! ## package handler -/

namespace handler

open domain postgres service

/-- `dto.CreateLoanRequest`, the decoded JSON body of a create request. -/
structure CreateLoanRequest where
  BorrowerID : String
  PrincipalAmount : Int64
  Rate : Float64
  ROI : Float64
deriving DecidableEq

/-- What a handler writes: the HTTP status, the envelope's `success` flag,
the loan of `data` (`dto.WriteJSON`) or the code and message of `error`
(`dto.WriteError`). -/
structure Response where
  status : Nat
  success : Bool
  loan : Option Loan
  code : Option String
  message : Option String
deriving DecidableEq

/-- `dto.WriteError`. -/
def WriteError (status : Nat) (code message : String) : Response :=
  ⟨status, false, none, some code, some message⟩

/-- `dto.WriteJSON` with a loan as data. -/
def WriteJSON (status : Nat) (loan : Loan) : Response :=
  ⟨status, decide (status ≥ 200 ∧ status < 300), some loan, none, none⟩

/-- `handleServiceError`: the first case of the switch whose `errors.Is`
holds. -/
def handleServiceError (err : Error) : Response :=
  if err.Is Error.ErrLoanNotFound then
    WriteError 404 "NOT_FOUND" "Loan not found"
  else if err.Is Error.ErrInvalidStateTransition then
    WriteError 422 "INVALID_STATE_TRANSITION" "Invalid state transition"
  else if err.Is Error.ErrInvestmentExceedsLimit then
    WriteError 422 "INVESTMENT_EXCEEDS_LIMIT" "Investment amount exceeds remaining principal"
  else if err.Is Error.ErrLoanNotApproved then
    WriteError 422 "LOAN_NOT_APPROVED" "Loan must be in approved state to accept investments"
  else if err.Is Error.ErrLoanNotInvested then
    WriteError 422 "LOAN_NOT_INVESTED" "Loan must be in invested state to disburse"
  else if err.Is Error.ErrLoanAlreadyApproved then
    WriteError 422 "LOAN_ALREADY_APPROVED" "Loan is already approved"
  else if err.Is Error.ErrLoanAlreadyDisbursed then
    WriteError 422 "LOAN_ALREADY_DISBURSED" "Loan is already disbursed"
  else if err.Is Error.ErrInvalidAmount then
    WriteError 400 "INVALID_AMOUNT" "Amount must be greater than zero"
  else
    WriteError 500 "INTERNAL_ERROR" "An internal error occurred"

/-- `h.validator.Struct(req)` on a `CreateLoanRequest`: the names of the
fields that fail their `validate` tag, in the order of the struct. The tags
are those of the source; their meaning is that of the validator library the
handler calls: `required` fails on the zero value of the type, `gt=0` on a
number not above zero, `gte=0` on a number below zero. -/
def validateCreateLoanRequest (req : CreateLoanRequest) : List String :=
  -- BorrowerID: validate:"required"
  (if req.BorrowerID = "" then ["BorrowerID"] else []) ++
  -- PrincipalAmount: validate:"required,gt=0"
  (if req.PrincipalAmount.val = 0 ∨ ¬ req.PrincipalAmount.val > 0 then ["PrincipalAmount"]
   else []) ++
  -- Rate: validate:"required,gte=0"
  (if req.Rate = 0 ∨ ¬ req.Rate ≥ 0 then ["Rate"] else []) ++
  -- ROI: validate:"required,gte=0"
  (if req.ROI = 0 ∨ ¬ req.ROI ≥ 0 then ["ROI"] else [])

/-- `formatValidationError` on the validation errors of the given fields. -/
def formatValidationError (fields : List String) : String :=
  ", ".intercalate (fields.map (fun f => f ++ " is invalid"))

/-- `LoanHandler.CreateLoan`. `body` is the result of decoding the JSON body
(`none` when decoding fails). The result is the response written and the
committed database after the request. -/
def CreateLoan (env : Env) (t : Tables) (body : Option CreateLoanRequest) :
    Response × Tables :=
  match body with
  | none => (WriteError 400 "INVALID_JSON" "Invalid JSON request body", t)
  | some req =>
    if validateCreateLoanRequest req ≠ [] then
      (WriteError 400 "VALIDATION_ERROR"
        (formatValidationError (validateCreateLoanRequest req)), t)
    else
      match LoanService.CreateLoan env t req.BorrowerID req.PrincipalAmount req.Rate
          req.ROI with
      | ⟨t1, some loan, _, none, _⟩ => (WriteJSON 201 loan, t1)
      | ⟨t1, none, _, none, _⟩ =>
        -- not reached: the service returns a loan whenever it returns no error
        (WriteError 500 "INTERNAL_SERVER_ERROR" "An unexpected error occurred", t1)
      | ⟨t1, _, _, some err, _⟩ => (handleServiceError err, t1)

end handler

/-! ## Further definitions and concrete inputs -/

namespace service

open domain postgres

/-- On the row `l` the agreement reference is present exactly when the state
is disbursed. -/
def AgreementIffDisbursed (l : Loan) : Prop :=
  l.AgreementLetterURL ≠ none ↔ l.State = LoanStateDisbursed

/-- The approval rows of the loan `id`. -/
def approvalsOf (t : Tables) (id : UUID) : List Approval :=
  t.approvals.filter (fun a => a.LoanID == id)

/-- The disbursement rows of the loan `id`. -/
def disbursementsOf (t : Tables) (id : UUID) : List Disbursement :=
  t.disbursements.filter (fun a => a.LoanID == id)

/-- Every loan id has at most one approval row, and then its loan is stored
and no longer proposed; and at most one disbursement row, and then its loan
is stored and disbursed. -/
def OneRecordEach (t : Tables) : Prop :=
  ∀ id : UUID,
    ((approvalsOf t id).length ≤ 1 ∧
      (approvalsOf t id ≠ [] → ∃ l, t.stored id = some l ∧ l.State ≠ LoanStateProposed)) ∧
    ((disbursementsOf t id).length ≤ 1 ∧
      (disbursementsOf t id ≠ [] →
        ∃ l, t.stored id = some l ∧ l.State = LoanStateDisbursed))

/-- A driver that fails every statement. -/
def failingDriver : Driver :=
  ⟨some "down", some "down", some "down", some "down", some "down", some "down"⟩

/-- An environment whose driver fails every statement. -/
def failingEnv : Env := ⟨failingDriver, 9, fun k => 90 + k⟩

/-- A driver whose `UPDATE` fails and whose other statements succeed. -/
def updateFailingDriver : Driver := ⟨none, none, none, some "update failed", none, none⟩

/-- A driver whose rollback fails and whose other statements succeed. -/
def rollbackFailingDriver : Driver := ⟨none, none, none, none, none, some "connection lost"⟩

/-- The environment `sampleEnv i` with another driver. -/
def sampleEnvWith (d : Driver) (i : Nat) : Env := ⟨d, i, fun k => 10 * i + k⟩

/-- An approved loan with 50 of 100 invested. -/
def sampleHalfFunded : Loan :=
  { NewLoan 1 10 "borrower" 100 0 0 with
    State := LoanStateApproved
    TotalInvested := 50 }

/-- An approved loan outside the bounds of the data model: the principal is
the least `int64` and the total invested the greatest. -/
def sampleOutOfBounds : Loan :=
  { NewLoan 1 10 "borrower" (Int64.ofInt (-9223372036854775808)) 0 0 with
    State := LoanStateApproved
    TotalInvested := Int64.ofInt 9223372036854775807 }

end service

/-! ## Listing, lookups and notification -/

namespace domain

/-- Go `id.String()` on a `uuid.UUID`: the text form of the identifier (in
this embedding the decimal digits of the number that stands for it). -/
def UUID.String (id : UUID) : String := toString id

end domain

namespace repository

open domain

/-- `repository.LoanFilter`. `Limit` and `Offset` are Go `int`, 64 bits wide
on the platforms of the service; the code compares and passes them on, it
does no arithmetic on them. -/
structure LoanFilter where
  State : Option LoanState
  Limit : Int64
  Offset : Int64
deriving DecidableEq

end repository

namespace postgres

open domain repository

/-- What the driver does during `LoanRepository.List` apart from reading
rows: the error, if any, of the count query and of the call of `Query`, the
number of rows delivered before the page statement fails while it runs, if
it does, and the error, if any, of scanning a row of the page. -/
structure ListDriver where
  /-- QueryRow/Scan of SELECT COUNT(*) -/
  countErr : Option String
  /-- Query of the page returns an error -/
  queryErr : Option String
  /-- rows.Next ends the loop after this many rows, with the error in rows.Err -/
  rowsErr : Option Nat
  /-- rows.Scan of a row of the page -/
  scanErr : Option String
deriving DecidableEq

/-- The driver with every statement of `List` succeeding. -/
def ListDriver.ok : ListDriver := ⟨none, none, none, none⟩

/-- `LoanRepository.List`: the number of rows that match the state filter, and
the page `ORDER BY created_at DESC LIMIT $n OFFSET $m` of them. Rows with the
same `created_at` are kept in table order, one of the orders the query
allows. An error raised while the page statement runs ends the loop over
`rows.Next()`; the function never looks at `rows.Err()`, so it returns the
rows read so far and no error. Postgres raises such an error for a negative
`LIMIT` or `OFFSET`, before any row. -/
def LoanRepository.List (d : ListDriver) (t : Tables) (filter : LoanFilter) :
    Except Error (List Loan × Int64) :=
  let rows := match filter.State with
    | some s => t.loans.filter (fun r : Loan => r.State == s)
    | none => t.loans
  match d.countErr with
  | some m => .error (Error.wrapf "failed to count loans: " (Error.driver m))
  | none =>
    let total := Int64.ofInt rows.length
    match d.queryErr with
    | some m => .error (Error.wrapf "failed to list loans: " (Error.driver m))
    | none =>
      let page :=
        if filter.Limit < 0 ∨ filter.Offset < 0 then []
        else ((rows.insertionSort (fun a b : Loan => a.CreatedAt ≥ b.CreatedAt)).drop
          filter.Offset.val.toNat).take filter.Limit.val.toNat
      let read := match d.rowsErr with
        | some k => page.take k
        | none => page
      match d.scanErr, read with
      | some m, _ :: _ => .error (Error.wrapf "failed to scan loan: " (Error.driver m))
      | _, _ => .ok (read, total)

/-- `ApprovalRepository.GetByLoanID`: the row `QueryRow` yields for
`WHERE loan_id = $1`, `ErrApprovalNotFound` when there is none. The driver's
`scanErr` is the error of this `QueryRow`/`Scan` other than `pgx.ErrNoRows`. -/
def ApprovalRepository.GetByLoanID (d : Driver) (t : Tables) (loanID : UUID) :
    Except Error Approval :=
  match d.scanErr with
  | some m => .error (Error.wrapf "failed to get approval: " (Error.driver m))
  | none =>
    match t.approvals.find? (fun a => a.LoanID == loanID) with
    | none => .error Error.ErrApprovalNotFound
    | some approval => .ok approval

/-- `DisbursementRepository.GetByLoanID`: the row `QueryRow` yields for
`WHERE loan_id = $1`, `ErrDisbursementNotFound` when there is none. -/
def DisbursementRepository.GetByLoanID (d : Driver) (t : Tables) (loanID : UUID) :
    Except Error Disbursement :=
  match d.scanErr with
  | some m => .error (Error.wrapf "failed to get disbursement: " (Error.driver m))
  | none =>
    match t.disbursements.find? (fun a => a.LoanID == loanID) with
    | none => .error Error.ErrDisbursementNotFound
    | some disbursement => .ok disbursement

end postgres

namespace service

open domain postgres repository

/-- The filter `ListLoans` passes to the repository: its parameter, a copy of
the caller's filter, after the two assignments to `Limit`. -/
def LoanService.ListLoans.filter (filter : LoanFilter) : LoanFilter :=
  let filter := if filter.Limit ≤ 0 then { filter with Limit := 10 } else filter
  if filter.Limit > 100 then { filter with Limit := 100 } else filter

/-- `ListLoans`: a read outside any transaction. -/
def LoanService.ListLoans (d : ListDriver) (t : Tables) (filter : LoanFilter) :
    Except Error (List Loan × Int64) :=
  LoanRepository.List d t (LoanService.ListLoans.filter filter)

def LoanService.GetApproval (env : Env) (t : Tables) (loanID : UUID) :
    Except Error Approval :=
  ApprovalRepository.GetByLoanID env.driver t loanID

def LoanService.GetDisbursement (env : Env) (t : Tables) (loanID : UUID) :
    Except Error Disbursement :=
  DisbursementRepository.GetByLoanID env.driver t loanID

/-- The behaviour of an `EmailService`: what the `k`-th call of
`SendAgreementEmail` (counting from 0) returns on the arguments `investorID`,
`loanID` and `agreementURL`; `none` is Go's `nil`. -/
abbrev EmailService := Nat → String → String → String → Option Error

/-- `MockEmailService`: every send succeeds. -/
def MockEmailService : EmailService := fun _ _ _ _ => none

/-- What `notifyInvestors` does that is visible outside it: a call of
`SendAgreementEmail` with its arguments, or a line of the error log with its
message and error. -/
inductive Effect where
  | send (investorID loanID agreementURL : String)
  | logError (msg : String) (err : Error)
deriving DecidableEq

/-- The `for` loop of `notifyInvestors` over the investors left, `k` sends
having been made before. -/
def LoanService.notifyInvestors.loop (email : EmailService) (loanID : UUID)
    (agreementURL : String) : Nat → List String → List Effect
  | _, [] => []
  | k, investorID :: rest =>
    Effect.send investorID (UUID.String loanID) agreementURL ::
      ((match email k investorID (UUID.String loanID) agreementURL with
        | some err => [Effect.logError "failed to send email to investor" err]
        | none => []) ++
        LoanService.notifyInvestors.loop email loanID agreementURL (k + 1) rest)

/-- `notifyInvestors`. `investors` is what
`s.investmentRepo.GetInvestorsByLoanID(ctx, loanID)` returns. The result is
what the call does, in order. -/
def LoanService.notifyInvestors (investors : Except Error (List String))
    (email : EmailService) (loanID : UUID) (agreementURL : String) : List Effect :=
  match investors with
  | .error err => [Effect.logError "failed to get investors for notification" err]
  | .ok investors => LoanService.notifyInvestors.loop email loanID agreementURL 0 investors

/-- The calls of `SendAgreementEmail` among the effects, in order, each with
its arguments `(investorID, loanID, agreementURL)`. -/
def sends (es : List Effect) : List (String × String × String) :=
  es.filterMap (fun e =>
    match e with
    | .send i l u => some (i, l, u)
    | .logError _ _ => none)

/-- The errors logged among the effects, in order. -/
def logged (es : List Effect) : List Error :=
  es.filterMap (fun e =>
    match e with
    | .send _ _ _ => none
    | .logError _ err => some err)

end service

namespace handler

open domain postgres repository service

/-- An integer query parameter as the handler sees it: `Query().Get` yields
`""` (the parameter is absent or empty), or a text `strconv.Atoi` rejects, or
a text it parses to the given `int`. -/
inductive IntParam where
  | absent
  | malformed
  | value (n : Int64)
deriving DecidableEq

/-- The query string of a list request: the parameters `limit` and `offset`
and the text of `state` (`""` when absent). -/
structure ListLoansQuery where
  limit : IntParam
  offset : IntParam
  state : String
deriving DecidableEq

/-- `dto.PaginationMeta`. -/
structure PaginationMeta where
  Total : Int64
  Limit : Int64
  Offset : Int64
deriving DecidableEq

/-- What `dto.WriteJSONPaginated` writes: the HTTP status and the fields of
`dto.PaginatedResponse`, the data being the loans. -/
structure PaginatedResponse where
  status : Nat
  Success : Bool
  Data : List Loan
  Meta : PaginationMeta
deriving DecidableEq

/-- `dto.WriteJSONPaginated` with loans as data. -/
def WriteJSONPaginated (status : Nat) (data : List Loan) (total limit offset : Int64) :
    PaginatedResponse :=
  ⟨status, true, data, ⟨total, limit, offset⟩⟩

/-- The variable `filter` of the handler `ListLoans` when it calls the
service. -/
def ListLoans.filter (q : ListLoansQuery) : LoanFilter :=
  let filter : LoanFilter := { State := none, Limit := 10, Offset := 0 }
  let filter :=
    match q.limit with
    | .value limit => if limit > 0 then { filter with Limit := limit } else filter
    | _ => filter
  let filter :=
    match q.offset with
    | .value offset => if offset ≥ 0 then { filter with Offset := offset } else filter
    | _ => filter
  if q.state ≠ "" then { filter with State := some q.state } else filter

/-- `LoanHandler.ListLoans`: the response written, an error envelope or the
paginated list. The service receives a copy of `filter`; the metadata is
written from the handler's own `filter`. -/
def ListLoans (d : ListDriver) (t : Tables) (q : ListLoansQuery) :
    Response ⊕ PaginatedResponse :=
  let filter := ListLoans.filter q
  match LoanService.ListLoans d t filter with
  | .error err => .inl (handleServiceError err)
  | .ok (loans, total) =>
    .inr (WriteJSONPaginated 200 loans total filter.Limit filter.Offset)

end handler

namespace service

open domain postgres

/-- An email service whose first two sends fail. -/
def failingFirstTwo : EmailService :=
  fun k _ _ _ => if k < 2 then some (Error.driver "smtp down") else none

/-- A table of 101 proposed loans, the loan `i` created at time `i`. -/
def manyLoans : Tables :=
  ⟨(List.range 101).map (fun i => NewLoan i i "borrower" 100 0 0), [], [], []⟩

/-- On the row `l` the state and the funding level agree: a proposed loan has
nothing invested (and a positive principal), an approved loan is funded below
its principal, an invested or disbursed loan is funded in full. -/
def FundingAgrees (l : Loan) : Prop :=
  (l.State = LoanStateProposed ∧ l.TotalInvested.val = 0 ∧ 0 < l.PrincipalAmount.val) ∨
  (l.State = LoanStateApproved ∧ 0 ≤ l.TotalInvested.val ∧
    l.TotalInvested.val < l.PrincipalAmount.val) ∨
  ((l.State = LoanStateInvested ∨ l.State = LoanStateDisbursed) ∧
    l.TotalInvested.val = l.PrincipalAmount.val)

/-- The investment rows of the loan `id`. -/
def investmentsOf (t : Tables) (id : UUID) : List Investment :=
  t.investments.filter (fun i => i.LoanID == id)

/-- The exact sum of the amounts of the investment rows of the loan `id`. -/
def investedSum (t : Tables) (id : UUID) : Int :=
  ((investmentsOf t id).map (fun i => i.Amount.val)).sum

/-- The total of every stored loan is the exact sum of its investment rows,
investment rows exist only for stored loans, and every investment row has a
positive amount. -/
def FundsConserved (t : Tables) : Prop :=
  (∀ (id : UUID) (l : Loan), t.stored id = some l → l.TotalInvested.val = investedSum t id) ∧
  (∀ id : UUID, t.stored id = none → investmentsOf t id = []) ∧
  (∀ i ∈ t.investments, 0 < i.Amount)

end service

/-! ## The gateway calls of `CreateLoan` and `AddInvestment` -/

namespace postgres

open domain

/-- A call to the persistence gateway made by `CreateLoan` or
`AddInvestment`: a statement of the transaction manager or a repository
method with its argument. -/
inductive GatewayCall where
  | begin
  | rollback
  | commit
  | loanCreate (loan : Loan)
  | loanGetByIDForUpdate (id : UUID)
  | loanUpdate (loan : Loan)
  | investmentCreate (investment : Investment)
deriving DecidableEq

/-- `DB.WithTransaction` together with the gateway calls it makes, in order:
`pool.Begin`, the calls of the closure, and `tx.Rollback` or `tx.Commit`. -/
def WithTransaction.logged {σ : Type} (d : Driver) (t : Tables) (v : σ)
    (fn : Tables → σ → (Tables × σ × Option Error) × List GatewayCall) :
    (Tables × σ × Option Error) × List GatewayCall :=
  match d.beginErr with
  | some m =>
    ((t, v, some (Error.wrapf "failed to begin transaction: " (Error.driver m))),
      [GatewayCall.begin])
  | none =>
    match fn t v with
    | ((_, v1, some err), calls) =>
      match d.rollbackErr with
      | some rb =>
        ((t, v1, some (Error.errorf ("tx err: " ++ err.message ++ ", rollback err: " ++ rb))),
          GatewayCall.begin :: calls ++ [GatewayCall.rollback])
      | none => ((t, v1, some err), GatewayCall.begin :: calls ++ [GatewayCall.rollback])
    | ((t1, v1, none), calls) =>
      match d.commitErr with
      | some m =>
        ((t, v1, some (Error.wrapf "failed to commit transaction: " (Error.driver m))),
          GatewayCall.begin :: calls ++ [GatewayCall.commit])
      | none => ((t1, v1, none), GatewayCall.begin :: calls ++ [GatewayCall.commit])

end postgres

namespace service

open domain postgres

/-- `CreateLoan` together with the gateway calls it makes. -/
def LoanService.CreateLoan.logged (env : Env) (t : Tables) (borrowerID : String)
    (principalAmount : Int64) (rate roi : Float64) : Outcome × List GatewayCall :=
  if principalAmount ≤ 0 then
    (⟨t, none, none, some Error.ErrInvalidAmount, none⟩, [])
  else
    let loan := NewLoan env.newID (env.now 0) borrowerID principalAmount rate roi
    match LoanRepository.Create env.driver t loan with
    | (t1, some err) =>
      (⟨t1, none, none, some (Error.wrapf "failed to create loan: " err), none⟩,
        [GatewayCall.loanCreate loan])
    | (t1, none) => (⟨t1, some loan, none, none, none⟩, [GatewayCall.loanCreate loan])

/-- The closure `AddInvestment` passes to `WithTransaction` together with the
gateway calls it makes. -/
def LoanService.AddInvestment.fn.logged (env : Env) (loanID : UUID) (investorID : String)
    (amount : Int64) (tx : Tables) (v : Option Loan × Option Investment) :
    (Tables × (Option Loan × Option Investment) × Option Error) × List GatewayCall :=
  match LoanRepository.GetByIDForUpdate env.driver tx loanID with
  | .error err => ((tx, (none, v.2), some err), [GatewayCall.loanGetByIDForUpdate loanID])
  | .ok loan =>
    match loan.AddInvestment amount (env.now 0) with
    | (loan1, some err) =>
      ((tx, (some loan1, v.2), some err), [GatewayCall.loanGetByIDForUpdate loanID])
    | (loan1, none) =>
      let investment := NewInvestment env.newID (env.now 1) loanID investorID amount
      match InvestmentRepository.Create env.driver tx investment with
      | (tx1, some err) =>
        ((tx1, (some loan1, some investment), some err),
          [GatewayCall.loanGetByIDForUpdate loanID, GatewayCall.investmentCreate investment])
      | (tx1, none) =>
        match (if loan1.IsFullyInvested then loan1.TransitionTo LoanStateInvested (env.now 2)
               else (loan1, none)) with
        | (loan2, some err) =>
          ((tx1, (some loan2, some investment), some err),
            [GatewayCall.loanGetByIDForUpdate loanID, GatewayCall.investmentCreate investment])
        | (loan2, none) =>
          match LoanRepository.Update env.driver tx1 loan2 with
          | (tx2, some err) =>
            ((tx2, (some loan2, some investment), some err),
              [GatewayCall.loanGetByIDForUpdate loanID,
                GatewayCall.investmentCreate investment, GatewayCall.loanUpdate loan2])
          | (tx2, none) =>
            ((tx2, (some loan2, some investment), none),
              [GatewayCall.loanGetByIDForUpdate loanID,
                GatewayCall.investmentCreate investment, GatewayCall.loanUpdate loan2])

/-- `AddInvestment` together with the gateway calls it makes. -/
def LoanService.AddInvestment.logged (env : Env) (t : Tables) (loanID : UUID)
    (investorID : String) (amount : Int64) : Outcome × List GatewayCall :=
  if amount ≤ 0 then
    (⟨t, none, none, some Error.ErrInvalidAmount, none⟩, [])
  else
    match WithTransaction.logged env.driver t (none, none)
        (LoanService.AddInvestment.fn.logged env loanID investorID amount) with
    | ((t1, _, some err), calls) => (⟨t1, none, none, some err, none⟩, calls)
    | ((t1, (some loan, investment), none), calls) =>
      (⟨t1, some loan, investment, none,
        if loan.IsFullyInvested then loan.AgreementLetterURL.map (fun url => (loanID, url))
        else none⟩, calls)
    | ((t1, (none, investment), none), calls) => (⟨t1, none, investment, none, none⟩, calls)

/-- A database whose only loan, 1, is approved, has principal 100, nothing
invested, and an agreement reference already set. -/
def sampleWithAgreement : Tables :=
  ⟨[{ sampleApprovedLoan with AgreementLetterURL := some "early.pdf" }], [], [], []⟩

end service

/-! ## Basic facts -/

namespace Int64

theorem le_iff (a b : Int64) : a ≤ b ↔ a.val ≤ b.val := Iff.rfl

theorem lt_iff (a b : Int64) : a < b ↔ a.val < b.val := Iff.rfl

theorem add_val (a b : Int64) : (a + b).val = wrap64 (a.val + b.val) := rfl

theorem sub_val (a b : Int64) : (a - b).val = wrap64 (a.val - b.val) := rfl

theorem zero_val : (0 : Int64).val = 0 := by decide

theorem eq_of_val_eq {a b : Int64} (h : a.val = b.val) : a = b := by
  cases a; cases b; simp only [Int64.mk.injEq]; exact h

end Int64

namespace domain

open Loan

theorem mapIndex_validTransitions (s : LoanState) :
    mapIndex ValidTransitions s =
      if s = LoanStateProposed then (LoanStateApproved, true)
      else if s = LoanStateApproved then (LoanStateInvested, true)
      else if s = LoanStateInvested then (LoanStateDisbursed, true)
      else ("", false) := by
  unfold mapIndex ValidTransitions
  simp only [List.lookup]
  by_cases h1 : s = LoanStateProposed
  · subst h1; rfl
  · by_cases h2 : s = LoanStateApproved
    · subst h2; rfl
    · by_cases h3 : s = LoanStateInvested
      · subst h3; rfl
      · have e1 : (s == LoanStateProposed) = false := by simpa using h1
        have e2 : (s == LoanStateApproved) = false := by simpa using h2
        have e3 : (s == LoanStateInvested) = false := by simpa using h3
        simp only [e1, e2, e3, if_neg h1, if_neg h2, if_neg h3]

theorem canTransitionTo_iff (l : Loan) (target : LoanState) :
    l.CanTransitionTo target = true ↔ IsNext l.State target := by
  unfold CanTransitionTo IsNext
  simp only [mapIndex_validTransitions]
  by_cases h1 : l.State = LoanStateProposed
  · rw [if_pos h1]
    have : LoanStateProposed ≠ LoanStateApproved := by decide
    have : LoanStateProposed ≠ LoanStateInvested := by decide
    simp [h1, *]
    exact eq_comm
  · by_cases h2 : l.State = LoanStateApproved
    · rw [if_neg h1, if_pos h2]
      have : LoanStateApproved ≠ LoanStateProposed := by decide
      have : LoanStateApproved ≠ LoanStateInvested := by decide
      simp [h2, *]
      exact eq_comm
    · by_cases h3 : l.State = LoanStateInvested
      · rw [if_neg h1, if_neg h2, if_pos h3]
        have : LoanStateInvested ≠ LoanStateProposed := by decide
        have : LoanStateInvested ≠ LoanStateApproved := by decide
        simp [h3, *]
        exact eq_comm
      · rw [if_neg h1, if_neg h2, if_neg h3]
        simp [h1, h2, h3]

end domain

/-! ## Facts about the gateway -/

namespace postgres

open domain

theorem withTransaction_cases {σ : Type} (d : Driver) (t : Tables) (v : σ)
    (fn : Tables → σ → Tables × σ × Option Error) :
    ((WithTransaction d t v fn).2.2 ≠ none ∧ (WithTransaction d t v fn).1 = t) ∨
    ((fn t v).2.2 = none ∧ d.beginErr = none ∧ d.commitErr = none ∧
      WithTransaction d t v fn = ((fn t v).1, (fn t v).2.1, none)) := by
  unfold WithTransaction
  cases hb : d.beginErr with
  | some m => left; simp
  | none =>
    rcases hfn : fn t v with ⟨t1, v1, e1⟩
    cases e1 with
    | some err =>
      left
      cases hr : d.rollbackErr <;> simp
    | none =>
      cases hc : d.commitErr with
      | some m => left; simp
      | none => right; simp

theorem withTransaction_fails {σ : Type} (d : Driver) (t : Tables) (v : σ)
    (fn : Tables → σ → Tables × σ × Option Error) (e : Error)
    (hb : d.beginErr = none) (hr : d.rollbackErr = none) (h : (fn t v).2.2 = some e) :
    WithTransaction d t v fn = (t, (fn t v).2.1, some e) := by
  unfold WithTransaction
  rcases hfn : fn t v with ⟨t1, v1, e1⟩
  rw [hfn] at h
  simp only at h
  subst h
  simp [hb, hr]

theorem withTransaction_commits {σ : Type} (d : Driver) (t : Tables) (v : σ)
    (fn : Tables → σ → Tables × σ × Option Error)
    (hb : d.beginErr = none) (hc : d.commitErr = none) (h : (fn t v).2.2 = none) :
    WithTransaction d t v fn = ((fn t v).1, (fn t v).2.1, none) := by
  unfold WithTransaction
  rcases hfn : fn t v with ⟨t1, v1, e1⟩
  rw [hfn] at h
  simp only at h
  subst h
  simp [hb, hc]

theorem stored_id {t : Tables} {id : UUID} {l : Loan} (h : t.stored id = some l) :
    l.ID = id := by
  unfold Tables.stored at h
  have := List.find?_some h
  simpa using this

theorem stored_mem {t : Tables} {id : UUID} {l : Loan} (h : t.stored id = some l) :
    l ∈ t.loans := by
  unfold Tables.stored at h
  exact List.mem_of_find?_eq_some h

theorem getByIDForUpdate_ok {d : Driver} {t : Tables} {id : UUID} {l : Loan}
    (h : LoanRepository.GetByIDForUpdate d t id = .ok l) :
    d.scanErr = none ∧ t.stored id = some l := by
  unfold LoanRepository.GetByIDForUpdate LoanRepository.scanLoan at h
  cases hs : d.scanErr with
  | some m => rw [hs] at h; simp at h
  | none =>
    rw [hs] at h
    cases hr : t.stored id with
    | none => rw [hr] at h; simp at h
    | some r => rw [hr] at h; simp at h; simp [h]

theorem getByIDForUpdate_of_stored {d : Driver} {t : Tables} {id : UUID} {l : Loan}
    (hs : d.scanErr = none) (h : t.stored id = some l) :
    LoanRepository.GetByIDForUpdate d t id = .ok l := by
  unfold LoanRepository.GetByIDForUpdate LoanRepository.scanLoan
  rw [hs, h]

/-- What `Update` does to the row a later `SELECT ... WHERE id = $1` yields. -/
theorem stored_update (d : Driver) (t : Tables) (loan : Loan) (id : UUID) :
    (LoanRepository.Update d t loan).1.stored id =
      if d.updateErr = none ∧ id = loan.ID then
        (t.stored id).map (fun r => LoanRepository.setColumns r loan)
      else t.stored id := by
  unfold LoanRepository.Update
  cases hu : d.updateErr with
  | some m => simp
  | none =>
    simp only [Tables.stored, List.find?_map, true_and]
    have hcomp : ((fun r : Loan => r.ID == id) ∘ fun r : Loan =>
        if (r.ID == loan.ID) = true then LoanRepository.setColumns r loan else r) =
        fun r : Loan => r.ID == id := by
      funext r
      simp only [Function.comp]
      split <;> rfl
    rw [hcomp]
    cases hf : List.find? (fun r : Loan => r.ID == id) t.loans with
    | none => simp
    | some r =>
      have hid : r.ID = id := by simpa using List.find?_some hf
      by_cases hl : id = loan.ID
      · simp [hl, hid ▸ hl]
      · have : ¬ r.ID = loan.ID := fun h => hl (hid.symm.trans h)
        simp [hl, this]

theorem update_loans_bounded (d : Driver) (t : Tables) (loan : Loan)
    (ht : ∀ l ∈ t.loans, l.Bounded) (hl : loan.Bounded) :
    ∀ l ∈ (LoanRepository.Update d t loan).1.loans, l.Bounded := by
  unfold LoanRepository.Update
  cases hu : d.updateErr with
  | some m => simpa using ht
  | none =>
    intro l hmem
    simp only [List.mem_map] at hmem
    obtain ⟨r, hr, rfl⟩ := hmem
    split
    · exact hl
    · exact ht r hr

theorem update_other (d : Driver) (t : Tables) (loan : Loan) :
    (LoanRepository.Update d t loan).1.approvals = t.approvals ∧
    (LoanRepository.Update d t loan).1.investments = t.investments ∧
    (LoanRepository.Update d t loan).1.disbursements = t.disbursements := by
  unfold LoanRepository.Update
  cases d.updateErr <;> simp

theorem setColumns_self {r loan : Loan} (h1 : loan.ID = r.ID)
    (h2 : loan.CreatedAt = r.CreatedAt) : LoanRepository.setColumns r loan = loan := by
  cases r; cases loan
  simp only [LoanRepository.setColumns] at *
  simp [h1, h2]

end postgres

/-! ## Facts about the domain methods -/

namespace domain

open Loan

theorem transitionTo_ok {l l1 : Loan} {s : LoanState} {now : Time}
    (h : l.TransitionTo s now = (l1, none)) :
    IsNext l.State s ∧ l1 = { l with State := s, UpdatedAt := now } := by
  unfold TransitionTo at h
  cases hc : l.CanTransitionTo s with
  | false => rw [hc] at h; simp at h
  | true =>
    rw [hc] at h
    simp at h
    exact ⟨(canTransitionTo_iff l s).1 hc, h.symm⟩

theorem addInvestment_ok {l l1 : Loan} {amount : Int64} {now : Time}
    (h : l.AddInvestment amount now = (l1, none)) :
    l.State = LoanStateApproved ∧ amount ≤ l.PrincipalAmount - l.TotalInvested ∧
    l1 = { l with TotalInvested := l.TotalInvested + amount, UpdatedAt := now } := by
  unfold AddInvestment at h
  cases hc : l.CanAcceptInvestment with
  | false => simp [hc] at h
  | true =>
    have hs : l.State = LoanStateApproved := by
      unfold CanAcceptInvestment at hc; simpa using hc
    by_cases ha : amount > l.RemainingAmount
    · simp [hc, ha] at h
    · simp [hc, ha] at h
      refine ⟨hs, ?_, h.symm⟩
      unfold RemainingAmount at ha
      rw [Int64.le_iff]
      rw [gt_iff_lt, Int64.lt_iff] at ha
      omega

theorem transitionTo_eq (l : Loan) (target : LoanState) (now : Time) :
    (l.CanTransitionTo target = true →
      l.TransitionTo target now = ({ l with State := target, UpdatedAt := now }, none)) ∧
    (l.CanTransitionTo target = false →
      l.TransitionTo target now = (l, some Error.ErrInvalidStateTransition)) := by
  unfold TransitionTo
  cases h : l.CanTransitionTo target <;> simp

theorem addInvestment_aux (l : Loan) (amount : Int64) (now : Time) :
    (l.AddInvestment amount now).2 ≠ none → (l.AddInvestment amount now).1 = l := by
  unfold AddInvestment
  split
  · intro _; rfl
  · split
    · intro _; rfl
    · intro h; exact absurd rfl h

/-- Under the bounds an accepted positive amount is added without
wraparound and keeps the bounds. -/
theorem add_val_exact {l : Loan} {amount : Int64} (hb : l.Bounded)
    (ha : amount ≤ l.PrincipalAmount - l.TotalInvested) :
    (l.PrincipalAmount - l.TotalInvested).val = l.PrincipalAmount.val - l.TotalInvested.val ∧
    (l.TotalInvested + amount).val = l.TotalInvested.val + amount.val := by
  obtain ⟨h0, h1⟩ := hb
  have hP := l.PrincipalAmount.hi
  have hA := amount.lo
  have hsub : (l.PrincipalAmount - l.TotalInvested).val =
      l.PrincipalAmount.val - l.TotalInvested.val := by
    rw [Int64.sub_val]; exact wrap64_id _ (by omega) (by omega)
  rw [Int64.le_iff, hsub] at ha
  refine ⟨hsub, ?_⟩
  rw [Int64.add_val]; exact wrap64_id _ (by omega) (by omega)

theorem transitionTo_cases (l : Loan) (s : LoanState) (now : Time) :
    l.TransitionTo s now = (l, some Error.ErrInvalidStateTransition) ∨
    (IsNext l.State s ∧
      l.TransitionTo s now = ({ l with State := s, UpdatedAt := now }, none)) := by
  cases hc : l.CanTransitionTo s with
  | false => left; exact (transitionTo_eq l s now).2 hc
  | true =>
    right
    exact ⟨(canTransitionTo_iff l s).1 hc, (transitionTo_eq l s now).1 hc⟩

theorem addInvestment_cases (l : Loan) (amount : Int64) (now : Time) :
    (∃ e, l.AddInvestment amount now = (l, some e)) ∨
    (l.State = LoanStateApproved ∧ amount ≤ l.PrincipalAmount - l.TotalInvested ∧
      l.AddInvestment amount now =
        ({ l with TotalInvested := l.TotalInvested + amount, UpdatedAt := now }, none)) := by
  rcases h : l.AddInvestment amount now with ⟨l1, e⟩
  cases e with
  | some e =>
    left
    have := (addInvestment_aux l amount now)
    rw [h] at this
    simp at this
    exact ⟨e, by rw [this]⟩
  | none =>
    right
    obtain ⟨h1, h2, h3⟩ := addInvestment_ok h
    exact ⟨h1, h2, by rw [h3]⟩

theorem addInvestment_accept {l : Loan} {amount : Int64} (now : Time)
    (hs : l.State = LoanStateApproved) (ha : amount ≤ l.PrincipalAmount - l.TotalInvested) :
    l.AddInvestment amount now =
      ({ l with TotalInvested := l.TotalInvested + amount, UpdatedAt := now }, none) := by
  rcases addInvestment_cases l amount now with ⟨e, h⟩ | ⟨_, _, h⟩
  · exfalso
    unfold Loan.AddInvestment Loan.CanAcceptInvestment Loan.RemainingAmount at h
    have hc : (l.State == LoanStateApproved) = true := by simpa using hs
    have hna : ¬ amount > l.PrincipalAmount - l.TotalInvested := by
      rw [gt_iff_lt, Int64.lt_iff]; rw [Int64.le_iff] at ha; omega
    simp [hc, hna] at h
  · exact h

theorem addInvestment_reject_state {l : Loan} (amount : Int64) (now : Time)
    (hs : l.State ≠ LoanStateApproved) :
    l.AddInvestment amount now = (l, some Error.ErrLoanNotApproved) := by
  unfold Loan.AddInvestment Loan.CanAcceptInvestment
  have hc : (l.State == LoanStateApproved) = false := by simpa using hs
  simp [hc]

theorem addInvestment_reject_limit {l : Loan} {amount : Int64} (now : Time)
    (hs : l.State = LoanStateApproved) (ha : amount > l.PrincipalAmount - l.TotalInvested) :
    l.AddInvestment amount now = (l, some Error.ErrInvestmentExceedsLimit) := by
  unfold Loan.AddInvestment Loan.CanAcceptInvestment Loan.RemainingAmount
  have hc : (l.State == LoanStateApproved) = true := by simpa using hs
  simp [hc, ha]

end domain

/-! ## Facts about the service -/

namespace service

open domain postgres

theorem written_of_transition {l : Loan} {s : LoanState} {now : Time}
    (h : IsNext l.State s) :
    l.Written { l with State := s, UpdatedAt := now } :=
  ⟨rfl, rfl, rfl, Or.inr h, fun hb => hb⟩

theorem update_cases (d : Driver) (t : Tables) (loan : Loan) :
    (∃ e, LoanRepository.Update d t loan = (t, some e)) ∨
    LoanRepository.Update d t loan = ((LoanRepository.Update Driver.ok t loan).1, none) := by
  unfold LoanRepository.Update
  cases d.updateErr with
  | some m => left; exact ⟨_, rfl⟩
  | none => right; rfl

theorem approval_create_cases (d : Driver) (t : Tables) (a : Approval) :
    (∃ e, ApprovalRepository.Create d t a = (t, some e)) ∨
    ApprovalRepository.Create d t a = ({ t with approvals := t.approvals ++ [a] }, none) := by
  unfold ApprovalRepository.Create
  cases d.insertErr with
  | some m => left; exact ⟨_, rfl⟩
  | none => right; rfl

theorem investment_create_cases (d : Driver) (t : Tables) (a : Investment) :
    (∃ e, InvestmentRepository.Create d t a = (t, some e)) ∨
    InvestmentRepository.Create d t a =
      ({ t with investments := t.investments ++ [a] }, none) := by
  unfold InvestmentRepository.Create
  cases d.insertErr with
  | some m => left; exact ⟨_, rfl⟩
  | none => right; rfl

theorem disbursement_create_cases (d : Driver) (t : Tables) (a : Disbursement) :
    (∃ e, DisbursementRepository.Create d t a = (t, some e)) ∨
    DisbursementRepository.Create d t a =
      ({ t with disbursements := t.disbursements ++ [a] }, none) := by
  unfold DisbursementRepository.Create
  cases d.insertErr with
  | some m => left; exact ⟨_, rfl⟩
  | none => right; rfl

theorem getByIDForUpdate_cases (d : Driver) (t : Tables) (id : UUID) :
    (∃ e, LoanRepository.GetByIDForUpdate d t id = .error e) ∨
    ∃ l, LoanRepository.GetByIDForUpdate d t id = .ok l ∧ t.stored id = some l := by
  cases h : LoanRepository.GetByIDForUpdate d t id with
  | error e => left; exact ⟨e, rfl⟩
  | ok l => right; exact ⟨l, rfl, (getByIDForUpdate_ok h).2⟩

/-- The loans table after the closure of `ApproveLoan`: untouched, or the
`UPDATE` of the row read, moved from proposed to approved. -/
theorem approveLoan_fn_loans (env : Env) (loanID : UUID) (fv pp : String) (tx : Tables)
    (v : Option Loan) :
    (LoanService.ApproveLoan.fn env loanID fv pp tx v).1.loans = tx.loans ∨
    ∃ l l1, tx.stored loanID = some l ∧ l.Written l1 ∧
      (LoanService.ApproveLoan.fn env loanID fv pp tx v).1.loans =
        (LoanRepository.Update Driver.ok tx l1).1.loans := by
  unfold LoanService.ApproveLoan.fn
  rcases getByIDForUpdate_cases env.driver tx loanID with ⟨e, hg⟩ | ⟨l, hg, hst⟩
  · rw [hg]; left; rfl
  · rw [hg]
    simp only
    split
    · left; rfl
    · rcases transitionTo_cases l LoanStateApproved (env.now 0) with htr | ⟨hnext, htr⟩
      · rw [htr]; left; rfl
      · rw [htr]
        simp only
        rcases update_cases env.driver tx
          { l with State := LoanStateApproved, UpdatedAt := env.now 0 } with ⟨e, hu⟩ | hu
        · rw [hu]; left; rfl
        · rw [hu]
          simp only
          right
          refine ⟨l, { l with State := LoanStateApproved, UpdatedAt := env.now 0 }, hst,
            written_of_transition hnext, ?_⟩
          rcases approval_create_cases env.driver
            (LoanRepository.Update Driver.ok tx
              { l with State := LoanStateApproved, UpdatedAt := env.now 0 }).1
            (NewApproval env.newID (env.now 1) loanID fv pp) with ⟨e, hc⟩ | hc
          · rw [hc]
          · rw [hc]

theorem written_of_add (l : Loan) (amount : Int64) (now : Time)
    (hpos : 0 < amount) (ha : amount ≤ l.PrincipalAmount - l.TotalInvested) :
    l.Written { l with TotalInvested := l.TotalInvested + amount, UpdatedAt := now } := by
  refine ⟨rfl, rfl, rfl, Or.inl rfl, fun hb => ?_⟩
  obtain ⟨h1, h2⟩ := add_val_exact hb ha
  rw [Int64.le_iff, h1] at ha
  rw [Int64.lt_iff, Int64.zero_val] at hpos
  unfold Loan.Bounded
  simp only [h2]
  have := hb.1
  omega

theorem written_then_transition {l l1 : Loan} {s : LoanState} {now : Time}
    (hw : l.Written l1) (hs : l1.State = l.State) (h : IsNext l1.State s) :
    l.Written { l1 with State := s, UpdatedAt := now } := by
  obtain ⟨h1, h2, h3, _, h5⟩ := hw
  exact ⟨h1, h2, h3, Or.inr (hs ▸ h), h5⟩

/-- The loans table after the closure of `AddInvestment` for a positive
amount: untouched, or the `UPDATE` of the row read. -/
theorem addInvestment_fn_loans (env : Env) (loanID : UUID) (inv : String) (amount : Int64)
    (tx : Tables) (v : Option Loan × Option Investment) (hpos : 0 < amount) :
    (LoanService.AddInvestment.fn env loanID inv amount tx v).1.loans = tx.loans ∨
    ∃ l l1, tx.stored loanID = some l ∧ l.Written l1 ∧
      (LoanService.AddInvestment.fn env loanID inv amount tx v).1.loans =
        (LoanRepository.Update Driver.ok tx l1).1.loans := by
  unfold LoanService.AddInvestment.fn
  rcases getByIDForUpdate_cases env.driver tx loanID with ⟨e, hg⟩ | ⟨l, hg, hst⟩
  · rw [hg]; left; rfl
  · rw [hg]
    simp only
    rcases addInvestment_cases l amount (env.now 0) with ⟨e, hadd⟩ | ⟨hs, ha, hadd⟩
    · rw [hadd]; left; rfl
    · rw [hadd]
      simp only
      have hw := written_of_add l amount (env.now 0) hpos ha
      have hs1 : ({ l with
          TotalInvested := l.TotalInvested + amount
          UpdatedAt := env.now 0 } : Loan).State = l.State := rfl
      generalize ({ l with
          TotalInvested := l.TotalInvested + amount
          UpdatedAt := env.now 0 } : Loan) = l1 at hw hs1
      rcases investment_create_cases env.driver tx
        (NewInvestment env.newID (env.now 1) loanID inv amount) with ⟨e, hc⟩ | hc
      · rw [hc]; left; rfl
      · rw [hc]
        simp only
        by_cases hfull : l1.IsFullyInvested = true
        · rw [if_pos hfull]
          rcases transitionTo_cases l1 LoanStateInvested (env.now 2) with htr | ⟨hnext, htr⟩
          · rw [htr]; left; rfl
          · rw [htr]
            simp only
            rcases update_cases env.driver
              { tx with investments := tx.investments ++
                  [NewInvestment env.newID (env.now 1) loanID inv amount] }
              { l1 with State := LoanStateInvested, UpdatedAt := env.now 2 } with ⟨e, hu⟩ | hu
            · rw [hu]; left; rfl
            · rw [hu]
              right
              exact ⟨l, _, hst, written_then_transition hw hs1 hnext, rfl⟩
        · rw [if_neg hfull]
          simp only
          rcases update_cases env.driver
            { tx with investments := tx.investments ++
                [NewInvestment env.newID (env.now 1) loanID inv amount] } l1 with ⟨e, hu⟩ | hu
          · rw [hu]; left; rfl
          · rw [hu]
            right
            exact ⟨l, _, hst, hw, rfl⟩

/-- The loans table after the closure of `DisburseLoan`: untouched, or the
`UPDATE` of the row read, moved from invested to disbursed. -/
theorem disburseLoan_fn_loans (env : Env) (loanID : UUID) (fo url : String) (tx : Tables)
    (v : Option Loan) :
    (LoanService.DisburseLoan.fn env loanID fo url tx v).1.loans = tx.loans ∨
    ∃ l l1, tx.stored loanID = some l ∧ l.Written l1 ∧
      (LoanService.DisburseLoan.fn env loanID fo url tx v).1.loans =
        (LoanRepository.Update Driver.ok tx l1).1.loans := by
  unfold LoanService.DisburseLoan.fn
  rcases getByIDForUpdate_cases env.driver tx loanID with ⟨e, hg⟩ | ⟨l, hg, hst⟩
  · rw [hg]; left; rfl
  · rw [hg]
    simp only
    split
    · split <;> (left; rfl)
    · rcases transitionTo_cases l LoanStateDisbursed (env.now 0) with htr | ⟨hnext, htr⟩
      · rw [htr]; left; rfl
      · rw [htr]
        simp only
        have hw : l.Written { l with
            State := LoanStateDisbursed
            UpdatedAt := env.now 0
            AgreementLetterURL := some url } := ⟨rfl, rfl, rfl, Or.inr hnext, fun hb => hb⟩
        generalize ({ l with
            State := LoanStateDisbursed
            UpdatedAt := env.now 0
            AgreementLetterURL := some url } : Loan) = l2 at hw
        rcases update_cases env.driver tx l2 with ⟨e, hu⟩ | hu
        · rw [hu]; left; rfl
        · rw [hu]
          simp only
          right
          refine ⟨l, l2, hst, hw, ?_⟩
          rcases disbursement_create_cases env.driver
            (LoanRepository.Update Driver.ok tx l2).1
            (NewDisbursement env.newID (env.now 1) loanID fo url) with ⟨e, hc⟩ | hc
          · rw [hc]
          · rw [hc]

theorem approveLoan_tables (env : Env) (t : Tables) (id : UUID) (fv pp : String) :
    (LoanService.ApproveLoan env t id fv pp).tables =
      (WithTransaction env.driver t none (LoanService.ApproveLoan.fn env id fv pp)).1 := by
  unfold LoanService.ApproveLoan
  generalize WithTransaction env.driver t none (LoanService.ApproveLoan.fn env id fv pp) = x
  rcases x with ⟨t1, v1, _ | e⟩ <;> rfl

theorem disburseLoan_tables (env : Env) (t : Tables) (id : UUID) (fo url : String) :
    (LoanService.DisburseLoan env t id fo url).tables =
      (WithTransaction env.driver t none (LoanService.DisburseLoan.fn env id fo url)).1 := by
  unfold LoanService.DisburseLoan
  generalize WithTransaction env.driver t none (LoanService.DisburseLoan.fn env id fo url) = x
  rcases x with ⟨t1, v1, _ | e⟩ <;> rfl

theorem addInvestment_tables (env : Env) (t : Tables) (id : UUID) (inv : String)
    (amount : Int64) (hpos : 0 < amount) :
    (LoanService.AddInvestment env t id inv amount).tables =
      (WithTransaction env.driver t (none, none)
        (LoanService.AddInvestment.fn env id inv amount)).1 := by
  unfold LoanService.AddInvestment
  have hp : ¬ amount ≤ 0 := by
    rw [Int64.lt_iff] at hpos
    rw [Int64.le_iff]
    exact not_le.mpr hpos
  rw [if_neg hp]
  generalize WithTransaction env.driver t (none, none)
    (LoanService.AddInvestment.fn env id inv amount) = x
  rcases x with ⟨t1, ⟨_ | l, i⟩, _ | e⟩ <;> rfl

/-- The loans table after one call: untouched, one row for a positive
principal appended, or the `UPDATE` of one row read. -/
theorem exec_loans (env : Env) (t : Tables) (c : Call) :
    (exec env t c).tables.loans = t.loans ∨
    (∃ l, 0 < l.PrincipalAmount ∧ l.TotalInvested = 0 ∧
      (exec env t c).tables.loans = t.loans ++ [l]) ∨
    ∃ id l l1, t.stored id = some l ∧ l.Written l1 ∧
      (exec env t c).tables.loans = (LoanRepository.Update Driver.ok t l1).1.loans := by
  cases c with
  | CreateLoan b p rate roi =>
    simp only [exec, LoanService.CreateLoan]
    split
    · left; rfl
    · rename_i hp
      unfold LoanRepository.Create
      cases env.driver.insertErr with
      | some m => left; rfl
      | none =>
        right; left
        refine ⟨NewLoan env.newID (env.now 0) b p rate roi, ?_, rfl, rfl⟩
        rw [Int64.le_iff] at hp
        rw [Int64.lt_iff]
        exact not_le.mp hp
  | ApproveLoan id fv pp =>
    simp only [exec]
    rw [approveLoan_tables]
    rcases withTransaction_cases env.driver t none
      (LoanService.ApproveLoan.fn env id fv pp) with ⟨_, h⟩ | ⟨_, _, _, h⟩
    · left; rw [h]
    · rw [h]
      rcases approveLoan_fn_loans env id fv pp t none with h1 | ⟨l, l1, h1, h2, h3⟩
      · left; exact h1
      · right; right; exact ⟨id, l, l1, h1, h2, h3⟩
  | AddInvestment id inv amount =>
    by_cases hp : amount ≤ 0
    · left
      simp only [exec, LoanService.AddInvestment, if_pos hp]
    · have hpos : 0 < amount := by
        rw [Int64.le_iff] at hp
        rw [Int64.lt_iff]
        exact not_le.mp hp
      simp only [exec]
      rw [addInvestment_tables env t id inv amount hpos]
      rcases withTransaction_cases env.driver t (none, none)
        (LoanService.AddInvestment.fn env id inv amount) with ⟨_, h⟩ | ⟨_, _, _, h⟩
      · left; rw [h]
      · rw [h]
        rcases addInvestment_fn_loans env id inv amount t (none, none) hpos
          with h1 | ⟨l, l1, h1, h2, h3⟩
        · left; exact h1
        · right; right; exact ⟨id, l, l1, h1, h2, h3⟩
  | DisburseLoan id fo url =>
    simp only [exec]
    rw [disburseLoan_tables]
    rcases withTransaction_cases env.driver t none
      (LoanService.DisburseLoan.fn env id fo url) with ⟨_, h⟩ | ⟨_, _, _, h⟩
    · left; rw [h]
    · rw [h]
      rcases disburseLoan_fn_loans env id fo url t none with h1 | ⟨l, l1, h1, h2, h3⟩
      · left; exact h1
      · right; right; exact ⟨id, l, l1, h1, h2, h3⟩

theorem stored_congr {t1 t2 : Tables} (h : t1.loans = t2.loans) (id : UUID) :
    t1.stored id = t2.stored id := by
  unfold Tables.stored; rw [h]

theorem exec_bounded (env : Env) (t : Tables) (c : Call)
    (h : ∀ l ∈ t.loans, l.Bounded) : ∀ l ∈ (exec env t c).tables.loans, l.Bounded := by
  rcases exec_loans env t c with h1 | ⟨l0, hp, hz, h1⟩ | ⟨id, l0, l1, hst, hw, h1⟩
  · rw [h1]; exact h
  · rw [h1]
    intro l hl
    rcases List.mem_append.1 hl with hl | hl
    · exact h l hl
    · rw [List.mem_singleton] at hl
      subst hl
      rw [Int64.lt_iff, Int64.zero_val] at hp
      unfold Loan.Bounded
      rw [hz, Int64.zero_val]
      omega
  · rw [h1]
    exact update_loans_bounded Driver.ok t l1 h (hw.2.2.2.2 (h l0 (stored_mem hst)))

theorem run_bounded (calls : List (Env × Call)) :
    ∀ t : Tables, (∀ l ∈ t.loans, l.Bounded) → ∀ l ∈ (run t calls).loans, l.Bounded := by
  induction calls with
  | nil => intro t h; exact h
  | cons ec rest ih =>
    intro t h
    obtain ⟨env, c⟩ := ec
    exact ih _ (exec_bounded env t c h)

theorem exec_state (env : Env) (t : Tables) (c : Call) (id : UUID) (l : Loan)
    (h : t.stored id = some l) :
    ∃ l1, (exec env t c).tables.stored id = some l1 ∧
      (l1.State = l.State ∨ IsNext l.State l1.State) := by
  rcases exec_loans env t c with h1 | ⟨l0, _, _, h1⟩ | ⟨id0, l0, l1, hst, hw, h1⟩
  · exact ⟨l, (stored_congr h1 id).trans h, Or.inl rfl⟩
  · refine ⟨l, ?_, Or.inl rfl⟩
    unfold Tables.stored at h ⊢
    rw [h1, List.find?_append, h]
    rfl
  · have e : (exec env t c).tables.stored id = (LoanRepository.Update Driver.ok t l1).1.stored id :=
      stored_congr h1 id
    rw [e, stored_update]
    by_cases hid : id = l1.ID
    · have hid0 : id = id0 := by rw [hid, hw.1, stored_id hst]
      subst hid0
      rw [h] at hst
      cases hst
      refine ⟨LoanRepository.setColumns l l1, ?_, hw.2.2.2.1⟩
      rw [if_pos ⟨rfl, hid⟩, h]
      rfl
    · refine ⟨l, ?_, Or.inl rfl⟩
      rw [if_neg (fun hh => hid hh.2), h]

theorem not_isNext_disbursed (s : LoanState) : ¬ IsNext LoanStateDisbursed s := by
  unfold IsNext
  rintro (⟨h, _⟩ | ⟨h, _⟩ | ⟨h, _⟩) <;> revert h <;> decide

theorem run_disbursed (calls : List (Env × Call)) :
    ∀ (t : Tables) (id : UUID) (l : Loan), t.stored id = some l →
      l.State = LoanStateDisbursed →
      ∃ l1, (run t calls).stored id = some l1 ∧ l1.State = LoanStateDisbursed := by
  induction calls with
  | nil => intro t id l h hs; exact ⟨l, h, hs⟩
  | cons ec rest ih =>
    intro t id l h hs
    obtain ⟨env, c⟩ := ec
    obtain ⟨l1, h1, h2⟩ := exec_state env t c id l h
    have hs1 : l1.State = LoanStateDisbursed := by
      rcases h2 with h2 | h2
      · rw [h2, hs]
      · rw [hs] at h2; exact absurd h2 (not_isNext_disbursed _)
    exact ih _ id l1 h1 hs1

theorem stored_update_self {t : Tables} {id : UUID} {l : Loan} (l1 : Loan)
    (hst : t.stored id = some l) (h1 : l1.ID = l.ID) (h2 : l1.CreatedAt = l.CreatedAt) :
    (LoanRepository.Update Driver.ok t l1).1.stored id = some l1 := by
  rw [stored_update, if_pos ⟨rfl, by rw [h1, stored_id hst]⟩, hst]
  simp only [Option.map_some']
  rw [setColumns_self h1 h2]

theorem canTransitionTo_of_next {l : Loan} {s : LoanState} (h : IsNext l.State s) :
    l.CanTransitionTo s = true := (canTransitionTo_iff l s).2 h

/-- A closure of `AddInvestment` that returns nil has read an approved loan,
accepted the amount, inserted the investment and written `fundedLoan` back. -/
theorem addInvestment_fn_none {env : Env} {id : UUID} {inv : String} {amount : Int64}
    {tx : Tables} {v : Option Loan × Option Investment} {l : Loan}
    (hst : tx.stored id = some l)
    (h : (LoanService.AddInvestment.fn env id inv amount tx v).2.2 = none) :
    l.State = LoanStateApproved ∧ amount ≤ l.PrincipalAmount - l.TotalInvested ∧
    LoanService.AddInvestment.fn env id inv amount tx v =
      ((LoanRepository.Update Driver.ok
          { tx with investments := tx.investments ++
              [NewInvestment env.newID (env.now 1) id inv amount] }
          (fundedLoan env l amount)).1,
        (some (fundedLoan env l amount),
          some (NewInvestment env.newID (env.now 1) id inv amount)), none) := by
  unfold LoanService.AddInvestment.fn at h ⊢
  rcases getByIDForUpdate_cases env.driver tx id with ⟨e, hg⟩ | ⟨l0, hg, hst0⟩
  · rw [hg] at h; simp at h
  · rw [hst] at hst0
    cases hst0
    rw [hg] at h ⊢
    simp only at h ⊢
    rcases addInvestment_cases l amount (env.now 0) with ⟨e, hadd⟩ | ⟨hs, ha, hadd⟩
    · rw [hadd] at h; simp at h
    · rw [hadd] at h ⊢
      simp only at h ⊢
      refine ⟨hs, ha, ?_⟩
      rcases investment_create_cases env.driver tx
        (NewInvestment env.newID (env.now 1) id inv amount) with ⟨e, hc⟩ | hc
      · rw [hc] at h; simp at h
      · rw [hc] at h ⊢
        simp only at h ⊢
        unfold fundedLoan
        simp only
        by_cases hfull : ({ l with
            TotalInvested := l.TotalInvested + amount
            UpdatedAt := env.now 0 } : Loan).IsFullyInvested = true
        · simp only [if_pos hfull] at h ⊢
          rcases transitionTo_cases ({ l with
              TotalInvested := l.TotalInvested + amount
              UpdatedAt := env.now 0 } : Loan) LoanStateInvested (env.now 2)
            with htr | ⟨hnext, htr⟩
          · rw [htr] at h; simp at h
          · rw [htr] at h ⊢
            simp only at h ⊢
            rcases update_cases env.driver
              { tx with investments := tx.investments ++
                  [NewInvestment env.newID (env.now 1) id inv amount] }
              ({ l with
                  TotalInvested := l.TotalInvested + amount
                  State := LoanStateInvested
                  UpdatedAt := env.now 2 } : Loan) with ⟨e, hu⟩ | hu
            · rw [hu] at h; simp at h
            · rw [hu]
        · simp only [if_neg hfull] at h ⊢
          rcases update_cases env.driver
            { tx with investments := tx.investments ++
                [NewInvestment env.newID (env.now 1) id inv amount] }
            ({ l with
                TotalInvested := l.TotalInvested + amount
                UpdatedAt := env.now 0 } : Loan) with ⟨e, hu⟩ | hu
          · rw [hu] at h; simp at h
          · rw [hu]

/-- With the driver succeeding, the closure of `AddInvestment` returns nil on
an approved loan for an amount within the remaining capacity. -/
theorem addInvestment_fn_ok {env : Env} {id : UUID} {inv : String} {amount : Int64}
    {tx : Tables} {v : Option Loan × Option Investment} {l : Loan}
    (hd : env.driver = Driver.ok) (hst : tx.stored id = some l)
    (hs : l.State = LoanStateApproved) (ha : amount ≤ l.PrincipalAmount - l.TotalInvested) :
    (LoanService.AddInvestment.fn env id inv amount tx v).2.2 = none := by
  unfold LoanService.AddInvestment.fn
  rw [hd, getByIDForUpdate_of_stored rfl hst]
  simp only
  rw [addInvestment_accept (env.now 0) hs ha]
  simp only [InvestmentRepository.Create, Driver.ok]
  by_cases hfull : ({ l with
      TotalInvested := l.TotalInvested + amount
      UpdatedAt := env.now 0 } : Loan).IsFullyInvested = true
  · simp only [if_pos hfull]
    have hcan : ({ l with
        TotalInvested := l.TotalInvested + amount
        UpdatedAt := env.now 0 } : Loan).CanTransitionTo LoanStateInvested = true :=
      canTransitionTo_of_next (Or.inr (Or.inl ⟨hs, rfl⟩))
    rw [(transitionTo_eq _ LoanStateInvested (env.now 2)).1 hcan]
    simp only [LoanRepository.Update]
  · simp only [if_neg hfull, LoanRepository.Update]

theorem addInvestment_err (env : Env) (t : Tables) (id : UUID) (inv : String)
    (amount : Int64) (hpos : 0 < amount) :
    (LoanService.AddInvestment env t id inv amount).err =
      (WithTransaction env.driver t (none, none)
        (LoanService.AddInvestment.fn env id inv amount)).2.2 := by
  unfold LoanService.AddInvestment
  have hp : ¬ amount ≤ 0 := by
    rw [Int64.lt_iff] at hpos
    rw [Int64.le_iff]
    exact not_le.mpr hpos
  rw [if_neg hp]
  generalize WithTransaction env.driver t (none, none)
    (LoanService.AddInvestment.fn env id inv amount) = x
  rcases x with ⟨t1, ⟨_ | l, i⟩, _ | e⟩ <;> rfl

/-- A successful `AddInvestment` has committed exactly the closure's writes:
the investment row and `fundedLoan` on the row read. -/
theorem addInvestment_success {env : Env} {t : Tables} {id : UUID} {inv : String}
    {amount : Int64} {l : Loan} (hst : t.stored id = some l)
    (h : (LoanService.AddInvestment env t id inv amount).err = none) :
    0 < amount ∧ l.State = LoanStateApproved ∧
    amount ≤ l.PrincipalAmount - l.TotalInvested ∧
    (LoanService.AddInvestment env t id inv amount).tables =
      (LoanRepository.Update Driver.ok
        { t with investments := t.investments ++
            [NewInvestment env.newID (env.now 1) id inv amount] }
        (fundedLoan env l amount)).1 ∧
    (LoanService.AddInvestment env t id inv amount).loan = some (fundedLoan env l amount) := by
  have hpos : 0 < amount := by
    by_contra hn
    have hp : amount ≤ 0 := by
      rw [Int64.lt_iff] at hn; rw [Int64.le_iff]; omega
    unfold LoanService.AddInvestment at h
    rw [if_pos hp] at h
    simp at h
  have herr := addInvestment_err env t id inv amount hpos
  have htab := addInvestment_tables env t id inv amount hpos
  rcases withTransaction_cases env.driver t (none, none)
      (LoanService.AddInvestment.fn env id inv amount) with ⟨hne, _⟩ | ⟨hfn, _, _, hw⟩
  · rw [herr] at h; exact absurd h hne
  · obtain ⟨hs, ha, hfn2⟩ := addInvestment_fn_none hst hfn
    refine ⟨hpos, hs, ha, ?_, ?_⟩
    · rw [htab, hw, hfn2]
    · unfold LoanService.AddInvestment
      have hp : ¬ amount ≤ 0 := by
        rw [Int64.lt_iff] at hpos
        rw [Int64.le_iff]
        exact not_le.mpr hpos
      rw [if_neg hp, hw, hfn2]

/-- With the driver succeeding, `AddInvestment` of a positive amount within
the remaining capacity of an approved loan succeeds. -/
theorem addInvestment_succeeds {env : Env} {t : Tables} {id : UUID} {inv : String}
    {amount : Int64} {l : Loan} (hd : env.driver = Driver.ok) (hst : t.stored id = some l)
    (hs : l.State = LoanStateApproved) (hpos : 0 < amount)
    (ha : amount ≤ l.PrincipalAmount - l.TotalInvested) :
    (LoanService.AddInvestment env t id inv amount).err = none := by
  rw [addInvestment_err env t id inv amount hpos]
  rw [withTransaction_commits env.driver t (none, none) _ (by rw [hd]; rfl) (by rw [hd]; rfl)
    (addInvestment_fn_ok hd hst hs ha)]

/-- With begin, the locked read and rollback succeeding, a positive
`AddInvestment` that the domain guard rejects returns the guard's error and
commits nothing. -/
theorem addInvestment_rejected {env : Env} {t : Tables} {id : UUID} {inv : String}
    {amount : Int64} {l : Loan} {e : Error}
    (hb : env.driver.beginErr = none) (hsc : env.driver.scanErr = none)
    (hr : env.driver.rollbackErr = none) (hst : t.stored id = some l) (hpos : 0 < amount)
    (hrej : l.AddInvestment amount (env.now 0) = (l, some e)) :
    LoanService.AddInvestment env t id inv amount = ⟨t, none, none, some e, none⟩ := by
  have hfn : LoanService.AddInvestment.fn env id inv amount t (none, none) =
      (t, (some l, none), some e) := by
    unfold LoanService.AddInvestment.fn
    rw [getByIDForUpdate_of_stored hsc hst]
    simp only
    rw [hrej]
  unfold LoanService.AddInvestment
  have hp : ¬ amount ≤ 0 := by
    rw [Int64.lt_iff] at hpos
    rw [Int64.le_iff]
    exact not_le.mpr hpos
  rw [if_neg hp, withTransaction_fails env.driver t (none, none) _ e hb hr (by rw [hfn]), hfn]

theorem fundedLoan_fields (env : Env) (l : Loan) (amount : Int64) :
    (fundedLoan env l amount).ID = l.ID ∧
    (fundedLoan env l amount).CreatedAt = l.CreatedAt ∧
    (fundedLoan env l amount).PrincipalAmount = l.PrincipalAmount ∧
    (fundedLoan env l amount).TotalInvested = l.TotalInvested + amount ∧
    (fundedLoan env l amount).AgreementLetterURL = l.AgreementLetterURL ∧
    (fundedLoan env l amount).State =
      if l.PrincipalAmount ≤ l.TotalInvested + amount then LoanStateInvested else l.State := by
  unfold fundedLoan Loan.IsFullyInvested
  simp only [ge_iff_le, decide_eq_true_eq]
  split <;> simp

theorem stored_after_addInvestment {env : Env} {t : Tables} {id : UUID} {inv : String}
    {amount : Int64} {l : Loan} (hst : t.stored id = some l)
    (h : (LoanService.AddInvestment env t id inv amount).err = none) :
    (LoanService.AddInvestment env t id inv amount).tables.stored id =
      some (fundedLoan env l amount) := by
  obtain ⟨_, _, _, htab, _⟩ := addInvestment_success hst h
  rw [htab]
  have hf := fundedLoan_fields env l amount
  exact stored_update_self
    (t := { t with investments := t.investments ++
      [NewInvestment env.newID (env.now 1) id inv amount] })
    (fundedLoan env l amount) hst hf.1 hf.2.1

/-- Two serialised investments that fit one by one but not together, in one
order. -/
theorem two_investments_ordered (env1 env2 : Env) (t : Tables) (id : UUID)
    (i1 i2 : String) (a b : Int64) (l : Loan)
    (hst : t.stored id = some l) (hs : l.State = LoanStateApproved)
    (h0 : 0 ≤ l.TotalInvested.val)
    (ha0 : 0 < a.val) (ha : a.val ≤ l.PrincipalAmount.val - l.TotalInvested.val)
    (hb0 : 0 < b.val)
    (hab : a.val + b.val > l.PrincipalAmount.val - l.TotalInvested.val) :
    ¬ ((twoInvestments env1 env2 t id i1 a i2 b).1.err = none ∧
        (twoInvestments env1 env2 t id i1 a i2 b).2.err = none) ∧
    (env1.driver = Driver.ok → env2.driver = Driver.ok →
      (twoInvestments env1 env2 t id i1 a i2 b).1.err = none ∧
      (twoInvestments env1 env2 t id i1 a i2 b).2 =
        ⟨(twoInvestments env1 env2 t id i1 a i2 b).1.tables, none, none,
          some (if a.val = l.PrincipalAmount.val - l.TotalInvested.val
            then Error.ErrLoanNotApproved else Error.ErrInvestmentExceedsLimit), none⟩) := by
  have hbd : l.Bounded := ⟨h0, by omega⟩
  have hP := l.PrincipalAmount.hi
  have hsub : (l.PrincipalAmount - l.TotalInvested).val =
      l.PrincipalAmount.val - l.TotalInvested.val := by
    rw [Int64.sub_val]; exact wrap64_id _ (by omega) (by omega)
  have hle : a ≤ l.PrincipalAmount - l.TotalInvested := by
    rw [Int64.le_iff, hsub]; exact ha
  have hadd := (add_val_exact hbd hle).2
  obtain ⟨_, _, fP, fT, _, fS⟩ := fundedLoan_fields env1 l a
  have hrem : ((fundedLoan env1 l a).PrincipalAmount - (fundedLoan env1 l a).TotalInvested).val
      = l.PrincipalAmount.val - l.TotalInvested.val - a.val := by
    rw [Int64.sub_val, fP, fT, hadd]
    rw [wrap64_id (l.PrincipalAmount.val - (l.TotalInvested.val + a.val)) (by omega) (by omega)]
    omega
  have hbpos : 0 < b := by rw [Int64.lt_iff, Int64.zero_val]; exact hb0
  unfold twoInvestments
  simp only
  constructor
  · rintro ⟨h1, h2⟩
    have hst1 := stored_after_addInvestment hst h1
    obtain ⟨_, _, hle2, _, _⟩ := addInvestment_success hst1 h2
    rw [Int64.le_iff, hrem] at hle2
    omega
  · intro hd1 hd2
    have h1 : (LoanService.AddInvestment env1 t id i1 a).err = none :=
      addInvestment_succeeds hd1 hst hs (by rw [Int64.lt_iff, Int64.zero_val]; exact ha0) hle
    have hst1 := stored_after_addInvestment hst h1
    refine ⟨h1, ?_⟩
    by_cases hfull : a.val = l.PrincipalAmount.val - l.TotalInvested.val
    · rw [if_pos hfull]
      have hle3 : l.PrincipalAmount ≤ l.TotalInvested + a := by
        rw [Int64.le_iff, hadd]; omega
      have hstate : (fundedLoan env1 l a).State ≠ LoanStateApproved := by
        rw [fS, if_pos hle3]; decide
      exact addInvestment_rejected (by rw [hd2]; rfl) (by rw [hd2]; rfl) (by rw [hd2]; rfl)
        hst1 hbpos (addInvestment_reject_state b (env2.now 0) hstate)
    · rw [if_neg hfull]
      have hle3 : ¬ l.PrincipalAmount ≤ l.TotalInvested + a := by
        rw [Int64.le_iff, hadd]; omega
      have hstate : (fundedLoan env1 l a).State = LoanStateApproved := by
        rw [fS, if_neg hle3, hs]
      have hgt : b > (fundedLoan env1 l a).PrincipalAmount -
          (fundedLoan env1 l a).TotalInvested := by
        rw [gt_iff_lt, Int64.lt_iff, hrem]; omega
      exact addInvestment_rejected (by rw [hd2]; rfl) (by rw [hd2]; rfl) (by rw [hd2]; rfl)
        hst1 hbpos (addInvestment_reject_limit (env2.now 0) hstate hgt)

theorem approveLoan_err (env : Env) (t : Tables) (id : UUID) (fv pp : String) :
    (LoanService.ApproveLoan env t id fv pp).err =
      (WithTransaction env.driver t none (LoanService.ApproveLoan.fn env id fv pp)).2.2 := by
  unfold LoanService.ApproveLoan
  generalize WithTransaction env.driver t none (LoanService.ApproveLoan.fn env id fv pp) = x
  rcases x with ⟨t1, v1, _ | e⟩ <;> rfl

theorem disburseLoan_err (env : Env) (t : Tables) (id : UUID) (fo url : String) :
    (LoanService.DisburseLoan env t id fo url).err =
      (WithTransaction env.driver t none (LoanService.DisburseLoan.fn env id fo url)).2.2 := by
  unfold LoanService.DisburseLoan
  generalize WithTransaction env.driver t none (LoanService.DisburseLoan.fn env id fo url) = x
  rcases x with ⟨t1, v1, _ | e⟩ <;> rfl

/-- With the driver succeeding, the closure of `ApproveLoan` on a proposed
loan writes the loan back as approved and inserts the approval row. -/
theorem approveLoan_fn_ok (env : Env) (fv pp : String) (v : Option Loan)
    {id : UUID} {t : Tables} {l : Loan} (hd : env.driver = Driver.ok)
    (hst : t.stored id = some l) (hs : l.State = LoanStateProposed) :
    LoanService.ApproveLoan.fn env id fv pp t v =
      ({ (LoanRepository.Update Driver.ok t
            { l with State := LoanStateApproved, UpdatedAt := env.now 0 }).1 with
          approvals := t.approvals ++ [NewApproval env.newID (env.now 1) id fv pp] },
        some { l with State := LoanStateApproved, UpdatedAt := env.now 0 }, none) := by
  have hc : (l.State != LoanStateProposed) = false := by simp [hs]
  have hcan : l.CanTransitionTo LoanStateApproved = true :=
    canTransitionTo_of_next (Or.inl ⟨hs, rfl⟩)
  unfold LoanService.ApproveLoan.fn
  rw [hd, getByIDForUpdate_of_stored rfl hst]
  simp only [hc]
  rw [(transitionTo_eq l LoanStateApproved (env.now 0)).1 hcan]
  simp [LoanRepository.Update, ApprovalRepository.Create, Driver.ok]

/-! ### Which statements a closure that returns nil has passed -/

theorem update_cases_driver (d : Driver) (t : Tables) (loan : Loan) :
    (d.updateErr ≠ none ∧ ∃ e, LoanRepository.Update d t loan = (t, some e)) ∨
    (d.updateErr = none ∧
      LoanRepository.Update d t loan = ((LoanRepository.Update Driver.ok t loan).1, none)) := by
  unfold LoanRepository.Update
  cases h : d.updateErr with
  | some m => left; exact ⟨by simp, _, rfl⟩
  | none => right; exact ⟨rfl, rfl⟩

theorem approval_create_cases_driver (d : Driver) (t : Tables) (a : Approval) :
    (d.insertErr ≠ none ∧ ∃ e, ApprovalRepository.Create d t a = (t, some e)) ∨
    (d.insertErr = none ∧
      ApprovalRepository.Create d t a = ({ t with approvals := t.approvals ++ [a] }, none)) := by
  unfold ApprovalRepository.Create
  cases h : d.insertErr with
  | some m => left; exact ⟨by simp, _, rfl⟩
  | none => right; exact ⟨rfl, rfl⟩

theorem investment_create_cases_driver (d : Driver) (t : Tables) (a : Investment) :
    (d.insertErr ≠ none ∧ ∃ e, InvestmentRepository.Create d t a = (t, some e)) ∨
    (d.insertErr = none ∧
      InvestmentRepository.Create d t a =
        ({ t with investments := t.investments ++ [a] }, none)) := by
  unfold InvestmentRepository.Create
  cases h : d.insertErr with
  | some m => left; exact ⟨by simp, _, rfl⟩
  | none => right; exact ⟨rfl, rfl⟩

theorem disbursement_create_cases_driver (d : Driver) (t : Tables) (a : Disbursement) :
    (d.insertErr ≠ none ∧ ∃ e, DisbursementRepository.Create d t a = (t, some e)) ∨
    (d.insertErr = none ∧
      DisbursementRepository.Create d t a =
        ({ t with disbursements := t.disbursements ++ [a] }, none)) := by
  unfold DisbursementRepository.Create
  cases h : d.insertErr with
  | some m => left; exact ⟨by simp, _, rfl⟩
  | none => right; exact ⟨rfl, rfl⟩

theorem getByIDForUpdate_cases_driver (d : Driver) (t : Tables) (id : UUID) :
    (∃ e, LoanRepository.GetByIDForUpdate d t id = .error e) ∨
    ∃ l, LoanRepository.GetByIDForUpdate d t id = .ok l ∧ t.stored id = some l ∧
      d.scanErr = none := by
  cases h : LoanRepository.GetByIDForUpdate d t id with
  | error e => left; exact ⟨e, rfl⟩
  | ok l => right; exact ⟨l, rfl, (getByIDForUpdate_ok h).2, (getByIDForUpdate_ok h).1⟩

/-- A closure of `ApproveLoan` that returns nil has read a proposed loan, with
the read, the update and the insert succeeding, and has written the loan back
as approved and inserted the approval row. -/
theorem approveLoan_fn_none (env : Env) (id : UUID) (fv pp : String) (tx : Tables)
    (v : Option Loan)
    (h : (LoanService.ApproveLoan.fn env id fv pp tx v).2.2 = none) :
    ∃ l, tx.stored id = some l ∧ l.State = LoanStateProposed ∧
      env.driver.scanErr = none ∧ env.driver.updateErr = none ∧
      env.driver.insertErr = none ∧
      LoanService.ApproveLoan.fn env id fv pp tx v =
        ({ (LoanRepository.Update Driver.ok tx
              { l with State := LoanStateApproved, UpdatedAt := env.now 0 }).1 with
            approvals := tx.approvals ++ [NewApproval env.newID (env.now 1) id fv pp] },
          some { l with State := LoanStateApproved, UpdatedAt := env.now 0 }, none) := by
  unfold LoanService.ApproveLoan.fn at h ⊢
  rcases getByIDForUpdate_cases_driver env.driver tx id with ⟨e, hg⟩ | ⟨l, hg, hst, hsc⟩
  · rw [hg] at h; simp at h
  · rw [hg] at h ⊢
    simp only at h ⊢
    by_cases hs : l.State = LoanStateProposed
    · have hc : (l.State != LoanStateProposed) = false := by simp [hs]
      simp only [hc, Bool.false_eq_true, if_false] at h ⊢
      rcases transitionTo_cases l LoanStateApproved (env.now 0) with htr | ⟨_, htr⟩
      · rw [htr] at h; simp at h
      · rw [htr] at h ⊢
        simp only at h ⊢
        rcases update_cases_driver env.driver tx
          { l with State := LoanStateApproved, UpdatedAt := env.now 0 } with
          ⟨_, e, hu⟩ | ⟨hud, hu⟩
        · rw [hu] at h; simp at h
        · rw [hu] at h ⊢
          simp only at h ⊢
          rcases approval_create_cases_driver env.driver
            (LoanRepository.Update Driver.ok tx
              { l with State := LoanStateApproved, UpdatedAt := env.now 0 }).1
            (NewApproval env.newID (env.now 1) id fv pp) with ⟨_, e, hc2⟩ | ⟨hid, hc2⟩
          · rw [hc2] at h; simp at h
          · rw [hc2]
            refine ⟨l, hst, hs, hsc, hud, hid, ?_⟩
            have hu2 := update_other Driver.ok tx
              { l with State := LoanStateApproved, UpdatedAt := env.now 0 }
            simp only [hu2.1]
    · have hc : (l.State != LoanStateProposed) = true := by simpa using hs
      simp [hc] at h

/-- A closure of `DisburseLoan` that returns nil has read an invested loan,
with the read, the update and the insert succeeding, and has written the loan
back as disbursed with the agreement reference and inserted the disbursement
row. -/
theorem disburseLoan_fn_none (env : Env) (id : UUID) (fo url : String) (tx : Tables)
    (v : Option Loan)
    (h : (LoanService.DisburseLoan.fn env id fo url tx v).2.2 = none) :
    ∃ l, tx.stored id = some l ∧ l.State = LoanStateInvested ∧
      env.driver.scanErr = none ∧ env.driver.updateErr = none ∧
      env.driver.insertErr = none ∧
      LoanService.DisburseLoan.fn env id fo url tx v =
        ({ (LoanRepository.Update Driver.ok tx
              { l with
                State := LoanStateDisbursed
                UpdatedAt := env.now 0
                AgreementLetterURL := some url }).1 with
            disbursements := tx.disbursements ++
              [NewDisbursement env.newID (env.now 1) id fo url] },
          some { l with
            State := LoanStateDisbursed
            UpdatedAt := env.now 0
            AgreementLetterURL := some url }, none) := by
  unfold LoanService.DisburseLoan.fn at h ⊢
  rcases getByIDForUpdate_cases_driver env.driver tx id with ⟨e, hg⟩ | ⟨l, hg, hst, hsc⟩
  · rw [hg] at h; simp at h
  · rw [hg] at h ⊢
    simp only at h ⊢
    by_cases hs : l.State = LoanStateInvested
    · have hc : (l.State != LoanStateInvested) = false := by simp [hs]
      simp only [hc, Bool.false_eq_true, if_false] at h ⊢
      rcases transitionTo_cases l LoanStateDisbursed (env.now 0) with htr | ⟨_, htr⟩
      · rw [htr] at h; simp at h
      · rw [htr] at h ⊢
        simp only at h ⊢
        rcases update_cases_driver env.driver tx
          { l with
            State := LoanStateDisbursed
            UpdatedAt := env.now 0
            AgreementLetterURL := some url } with
          ⟨_, e, hu⟩ | ⟨hud, hu⟩
        · rw [hu] at h; simp at h
        · rw [hu] at h ⊢
          simp only at h ⊢
          rcases disbursement_create_cases_driver env.driver
            (LoanRepository.Update Driver.ok tx
              { l with
                State := LoanStateDisbursed
                UpdatedAt := env.now 0
                AgreementLetterURL := some url }).1
            (NewDisbursement env.newID (env.now 1) id fo url) with ⟨_, e, hc2⟩ | ⟨hid, hc2⟩
          · rw [hc2] at h; simp at h
          · rw [hc2]
            refine ⟨l, hst, hs, hsc, hud, hid, ?_⟩
            have hu2 := update_other Driver.ok tx
              { l with
                State := LoanStateDisbursed
                UpdatedAt := env.now 0
                AgreementLetterURL := some url }
            simp only [hu2.2.2]
    · have hc : (l.State != LoanStateInvested) = true := by simpa using hs
      simp only [hc, if_true] at h
      split at h <;> simp at h

/-- A closure of `AddInvestment` that returns nil has passed the read, the
insert and the update. -/
theorem addInvestment_fn_driver (env : Env) (id : UUID) (inv : String) (amount : Int64)
    (tx : Tables) (v : Option Loan × Option Investment)
    (h : (LoanService.AddInvestment.fn env id inv amount tx v).2.2 = none) :
    env.driver.scanErr = none ∧ env.driver.insertErr = none ∧
    env.driver.updateErr = none := by
  unfold LoanService.AddInvestment.fn at h
  rcases getByIDForUpdate_cases_driver env.driver tx id with ⟨e, hg⟩ | ⟨l, hg, _, hsc⟩
  · rw [hg] at h; simp at h
  · rw [hg] at h
    simp only at h
    rcases addInvestment_cases l amount (env.now 0) with ⟨e, hadd⟩ | ⟨_, _, hadd⟩
    · rw [hadd] at h; simp at h
    · rw [hadd] at h
      simp only at h
      rcases investment_create_cases_driver env.driver tx
        (NewInvestment env.newID (env.now 1) id inv amount) with ⟨_, e, hc⟩ | ⟨hid, hc⟩
      · rw [hc] at h; simp at h
      · rw [hc] at h
        simp only at h
        refine ⟨hsc, hid, ?_⟩
        by_contra hne
        by_cases hfull : ({ l with
            TotalInvested := l.TotalInvested + amount
            UpdatedAt := env.now 0 } : Loan).IsFullyInvested = true
        · simp only [if_pos hfull] at h
          rcases transitionTo_cases ({ l with
              TotalInvested := l.TotalInvested + amount
              UpdatedAt := env.now 0 } : Loan) LoanStateInvested (env.now 2)
            with htr | ⟨_, htr⟩
          · rw [htr] at h; simp at h
          · rw [htr] at h
            simp only at h
            rcases update_cases_driver env.driver
              { tx with investments := tx.investments ++
                  [NewInvestment env.newID (env.now 1) id inv amount] }
              ({ l with
                  TotalInvested := l.TotalInvested + amount
                  State := LoanStateInvested
                  UpdatedAt := env.now 2 } : Loan) with ⟨_, e, hu⟩ | ⟨hud, _⟩
            · rw [hu] at h; simp at h
            · exact hne hud
        · simp only [if_neg hfull] at h
          rcases update_cases_driver env.driver
            { tx with investments := tx.investments ++
                [NewInvestment env.newID (env.now 1) id inv amount] }
            ({ l with
                TotalInvested := l.TotalInvested + amount
                UpdatedAt := env.now 0 } : Loan) with ⟨_, e, hu⟩ | ⟨hud, _⟩
          · rw [hu] at h; simp at h
          · exact hne hud

theorem withTransaction_result {σ : Type} (d : Driver) (t : Tables) (v : σ)
    (fn : Tables → σ → Tables × σ × Option Error) :
    (∃ v1 e, WithTransaction d t v fn = (t, v1, some e)) ∨
    ((fn t v).2.2 = none ∧ d.beginErr = none ∧ d.commitErr = none ∧
      WithTransaction d t v fn = ((fn t v).1, (fn t v).2.1, none)) := by
  rcases withTransaction_cases d t v fn with ⟨h1, h2⟩ | h
  · left
    rcases hw : WithTransaction d t v fn with ⟨t1, v1, e⟩
    rw [hw] at h1 h2
    cases e with
    | none => exact absurd rfl h1
    | some e =>
      simp only at h2
      exact ⟨v1, e, by rw [h2]⟩
  · right; exact h

/-! ### What one call does to the database -/

/-- `CreateLoan` fails and leaves the database as it was, or appends the new
loan row. -/
theorem createLoan_outcome (env : Env) (t : Tables) (b : String) (p : Int64)
    (rate roi : Float64) :
    (∃ e, LoanService.CreateLoan env t b p rate roi = ⟨t, none, none, some e, none⟩) ∨
    (0 < p ∧ env.driver.insertErr = none ∧
      LoanService.CreateLoan env t b p rate roi =
        ⟨{ t with loans := t.loans ++ [NewLoan env.newID (env.now 0) b p rate roi] },
          some (NewLoan env.newID (env.now 0) b p rate roi), none, none, none⟩) := by
  unfold LoanService.CreateLoan
  by_cases hp : p ≤ 0
  · left; rw [if_pos hp]; exact ⟨_, rfl⟩
  · rw [if_neg hp]
    unfold LoanRepository.Create
    cases hi : env.driver.insertErr with
    | some m => left; exact ⟨_, rfl⟩
    | none =>
      right
      refine ⟨?_, rfl, rfl⟩
      rw [Int64.le_iff] at hp
      rw [Int64.lt_iff]
      exact not_le.mp hp

/-- `ApproveLoan` fails and leaves the database as it was, or commits the
loan read, now approved, and one approval row. -/
theorem approveLoan_outcome (env : Env) (t : Tables) (id : UUID) (fv pp : String) :
    (∃ e, LoanService.ApproveLoan env t id fv pp = ⟨t, none, none, some e, none⟩) ∨
    (∃ l, t.stored id = some l ∧ l.State = LoanStateProposed ∧
      env.driver.beginErr = none ∧ env.driver.scanErr = none ∧
      env.driver.updateErr = none ∧ env.driver.insertErr = none ∧
      env.driver.commitErr = none ∧
      LoanService.ApproveLoan env t id fv pp =
        ⟨{ (LoanRepository.Update Driver.ok t
              { l with State := LoanStateApproved, UpdatedAt := env.now 0 }).1 with
            approvals := t.approvals ++ [NewApproval env.newID (env.now 1) id fv pp] },
          some { l with State := LoanStateApproved, UpdatedAt := env.now 0 },
          none, none, none⟩) := by
  unfold LoanService.ApproveLoan
  rcases withTransaction_result env.driver t none (LoanService.ApproveLoan.fn env id fv pp)
    with ⟨v1, e, hw⟩ | ⟨hfn, hb, hc, hw⟩
  · left; rw [hw]; exact ⟨e, rfl⟩
  · right
    obtain ⟨l, hst, hs, hsc, hu, hi, hfn2⟩ := approveLoan_fn_none env id fv pp t none hfn
    refine ⟨l, hst, hs, hb, hsc, hu, hi, hc, ?_⟩
    rw [hw, hfn2]

/-- `DisburseLoan` fails and leaves the database as it was, or commits the
loan read, now disbursed with the agreement reference, and one disbursement
row, and starts the notification. -/
theorem disburseLoan_outcome (env : Env) (t : Tables) (id : UUID) (fo url : String) :
    (∃ e, LoanService.DisburseLoan env t id fo url = ⟨t, none, none, some e, none⟩) ∨
    (∃ l, t.stored id = some l ∧ l.State = LoanStateInvested ∧
      env.driver.beginErr = none ∧ env.driver.scanErr = none ∧
      env.driver.updateErr = none ∧ env.driver.insertErr = none ∧
      env.driver.commitErr = none ∧
      LoanService.DisburseLoan env t id fo url =
        ⟨{ (LoanRepository.Update Driver.ok t
              { l with
                State := LoanStateDisbursed
                UpdatedAt := env.now 0
                AgreementLetterURL := some url }).1 with
            disbursements := t.disbursements ++
              [NewDisbursement env.newID (env.now 1) id fo url] },
          some { l with
            State := LoanStateDisbursed
            UpdatedAt := env.now 0
            AgreementLetterURL := some url },
          none, none, some (id, url)⟩) := by
  unfold LoanService.DisburseLoan
  rcases withTransaction_result env.driver t none (LoanService.DisburseLoan.fn env id fo url)
    with ⟨v1, e, hw⟩ | ⟨hfn, hb, hc, hw⟩
  · left; rw [hw]; exact ⟨e, rfl⟩
  · right
    obtain ⟨l, hst, hs, hsc, hu, hi, hfn2⟩ := disburseLoan_fn_none env id fo url t none hfn
    refine ⟨l, hst, hs, hb, hsc, hu, hi, hc, ?_⟩
    rw [hw, hfn2]

/-- `AddInvestment` fails and leaves the database as it was, or commits one
investment row and `fundedLoan` on the approved loan read; it starts the
notification only when the loan written back has an agreement reference. -/
theorem addInvestment_outcome (env : Env) (t : Tables) (id : UUID) (inv : String)
    (amount : Int64) :
    (∃ e, LoanService.AddInvestment env t id inv amount = ⟨t, none, none, some e, none⟩) ∨
    (∃ l, t.stored id = some l ∧ l.State = LoanStateApproved ∧ 0 < amount ∧
      amount ≤ l.PrincipalAmount - l.TotalInvested ∧
      env.driver.beginErr = none ∧ env.driver.scanErr = none ∧
      env.driver.updateErr = none ∧ env.driver.insertErr = none ∧
      env.driver.commitErr = none ∧
      LoanService.AddInvestment env t id inv amount =
        ⟨(LoanRepository.Update Driver.ok
            { t with investments := t.investments ++
                [NewInvestment env.newID (env.now 1) id inv amount] }
            (fundedLoan env l amount)).1,
          some (fundedLoan env l amount),
          some (NewInvestment env.newID (env.now 1) id inv amount), none,
          if (fundedLoan env l amount).IsFullyInvested then
            (fundedLoan env l amount).AgreementLetterURL.map (fun u => (id, u))
          else none⟩) := by
  unfold LoanService.AddInvestment
  by_cases hp : amount ≤ 0
  · left; rw [if_pos hp]; exact ⟨_, rfl⟩
  · rw [if_neg hp]
    have hpos : 0 < amount := by
      rw [Int64.le_iff] at hp
      rw [Int64.lt_iff]
      exact not_le.mp hp
    rcases withTransaction_result env.driver t (none, none)
      (LoanService.AddInvestment.fn env id inv amount) with ⟨v1, e, hw⟩ | ⟨hfn, hb, hc, hw⟩
    · left; rw [hw]; rcases v1 with ⟨_ | l0, i0⟩ <;> exact ⟨e, rfl⟩
    · right
      obtain ⟨hsc, hi, hu⟩ := addInvestment_fn_driver env id inv amount t (none, none) hfn
      rcases getByIDForUpdate_cases env.driver t id with ⟨e, hg⟩ | ⟨l, _, hst⟩
      · exfalso
        unfold LoanService.AddInvestment.fn at hfn
        rw [hg] at hfn
        simp at hfn
      · obtain ⟨hs, ha, hfn2⟩ := addInvestment_fn_none hst hfn
        refine ⟨l, hst, hs, hpos, ha, hb, hsc, hu, hi, hc, ?_⟩
        rw [hw, hfn2]

/-- With the driver succeeding, the closure of `DisburseLoan` on an invested
loan returns nil. -/
theorem disburseLoan_fn_ok (env : Env) (fo url : String) (v : Option Loan)
    {id : UUID} {t : Tables} {l : Loan} (hd : env.driver = Driver.ok)
    (hst : t.stored id = some l) (hs : l.State = LoanStateInvested) :
    (LoanService.DisburseLoan.fn env id fo url t v).2.2 = none := by
  have hc : (l.State != LoanStateInvested) = false := by simp [hs]
  have hcan : l.CanTransitionTo LoanStateDisbursed = true :=
    canTransitionTo_of_next (Or.inr (Or.inr ⟨hs, rfl⟩))
  unfold LoanService.DisburseLoan.fn
  rw [hd, getByIDForUpdate_of_stored rfl hst]
  simp only [hc, Bool.false_eq_true, if_false]
  rw [(transitionTo_eq l LoanStateDisbursed (env.now 0)).1 hcan]
  simp [LoanRepository.Update, DisbursementRepository.Create, Driver.ok]

/-- With the driver succeeding, `DisburseLoan` on an invested loan
succeeds. -/
theorem disburseLoan_succeeds (env : Env) (fo url : String)
    {id : UUID} {t : Tables} {l : Loan} (hd : env.driver = Driver.ok)
    (hst : t.stored id = some l) (hs : l.State = LoanStateInvested) :
    (LoanService.DisburseLoan env t id fo url).err = none := by
  rw [disburseLoan_err,
    withTransaction_commits env.driver t none _ (by rw [hd]; rfl) (by rw [hd]; rfl)
      (disburseLoan_fn_ok env fo url none hd hst hs)]

/-- One call leaves the committed database as it was, or commits what its
operation writes on success, and then returns no error. -/
theorem exec_cases (env : Env) (t : Tables) (c : Call) :
    (exec env t c).tables = t ∨
    (∃ b p rate roi, c = .CreateLoan b p rate roi ∧ 0 < p ∧ (exec env t c).err = none ∧
      (exec env t c).tables =
        { t with loans := t.loans ++ [NewLoan env.newID (env.now 0) b p rate roi] }) ∨
    (∃ id fv pp l, c = .ApproveLoan id fv pp ∧ t.stored id = some l ∧
      l.State = LoanStateProposed ∧ (exec env t c).err = none ∧
      (exec env t c).tables =
        { (LoanRepository.Update Driver.ok t
              { l with State := LoanStateApproved, UpdatedAt := env.now 0 }).1 with
            approvals := t.approvals ++ [NewApproval env.newID (env.now 1) id fv pp] }) ∨
    (∃ id inv amount l, c = .AddInvestment id inv amount ∧ t.stored id = some l ∧
      l.State = LoanStateApproved ∧ 0 < amount ∧
      amount ≤ l.PrincipalAmount - l.TotalInvested ∧ (exec env t c).err = none ∧
      (exec env t c).tables =
        (LoanRepository.Update Driver.ok
            { t with investments := t.investments ++
                [NewInvestment env.newID (env.now 1) id inv amount] }
            (fundedLoan env l amount)).1) ∨
    (∃ id fo url l, c = .DisburseLoan id fo url ∧ t.stored id = some l ∧
      l.State = LoanStateInvested ∧ (exec env t c).err = none ∧
      (exec env t c).tables =
        { (LoanRepository.Update Driver.ok t
              { l with
                State := LoanStateDisbursed
                UpdatedAt := env.now 0
                AgreementLetterURL := some url }).1 with
            disbursements := t.disbursements ++
              [NewDisbursement env.newID (env.now 1) id fo url] }) := by
  cases c with
  | CreateLoan b p rate roi =>
    simp only [exec]
    rcases createLoan_outcome env t b p rate roi with ⟨e, he⟩ | ⟨hp, _, he⟩
    · left; rw [he]
    · right; left
      exact ⟨b, p, rate, roi, rfl, hp, by rw [he], by rw [he]⟩
  | ApproveLoan id fv pp =>
    simp only [exec]
    rcases approveLoan_outcome env t id fv pp with ⟨e, he⟩ | ⟨l, hst, hs, _, _, _, _, _, he⟩
    · left; rw [he]
    · right; right; left
      exact ⟨id, fv, pp, l, rfl, hst, hs, by rw [he], by rw [he]⟩
  | AddInvestment id inv amount =>
    simp only [exec]
    rcases addInvestment_outcome env t id inv amount with ⟨e, he⟩ |
      ⟨l, hst, hs, hpos, ha, _, _, _, _, _, he⟩
    · left; rw [he]
    · right; right; right; left
      exact ⟨id, inv, amount, l, rfl, hst, hs, hpos, ha, by rw [he], by rw [he]⟩
  | DisburseLoan id fo url =>
    simp only [exec]
    rcases disburseLoan_outcome env t id fo url with ⟨e, he⟩ | ⟨l, hst, hs, _, _, _, _, _, he⟩
    · left; rw [he]
    · right; right; right; right
      exact ⟨id, fo, url, l, rfl, hst, hs, by rw [he], by rw [he]⟩

/-- A row of the loans table after `Update` is a row from before, or a row
from before with the columns of the loan written. -/
theorem update_mem (t : Tables) (l1 r : Loan)
    (h : r ∈ (LoanRepository.Update Driver.ok t l1).1.loans) :
    r ∈ t.loans ∨ ∃ r0, r0 ∈ t.loans ∧ r = LoanRepository.setColumns r0 l1 := by
  simp only [LoanRepository.Update, Driver.ok, List.mem_map] at h
  obtain ⟨r0, hr0, rfl⟩ := h
  split
  · right; exact ⟨r0, hr0, rfl⟩
  · left; exact hr0

/-- The row of a loan after the `UPDATE` of the row `l0` read under the id
`id0`. -/
theorem stored_update_cases {t : Tables} {id0 : UUID} {l0 : Loan} (l1 : Loan)
    (h0 : t.stored id0 = some l0) (hid : l1.ID = l0.ID) {id : UUID} {l : Loan}
    (hst : t.stored id = some l) :
    (id = id0 ∧ l = l0 ∧
      (LoanRepository.Update Driver.ok t l1).1.stored id =
        some (LoanRepository.setColumns l0 l1)) ∨
    (id ≠ id0 ∧ (LoanRepository.Update Driver.ok t l1).1.stored id = some l) := by
  have hl1 : l1.ID = id0 := by rw [hid, stored_id h0]
  rw [stored_update]
  by_cases h : id = id0
  · left
    subst h
    rw [h0] at hst
    cases hst
    refine ⟨rfl, rfl, ?_⟩
    rw [if_pos ⟨rfl, hl1.symm⟩, h0]
    rfl
  · right
    refine ⟨h, ?_⟩
    rw [if_neg (fun hh => h (hh.2.trans hl1)), hst]

theorem stored_append {t : Tables} {id : UUID} {l : Loan} (r : Loan)
    (hst : t.stored id = some l) :
    ({ t with loans := t.loans ++ [r] } : Tables).stored id = some l := by
  unfold Tables.stored at hst ⊢
  simp only [List.find?_append, hst]
  rfl

theorem agreement_setColumns (r0 l1 : Loan) :
    AgreementIffDisbursed (LoanRepository.setColumns r0 l1) ↔ AgreementIffDisbursed l1 :=
  Iff.rfl

theorem agreement_none_of_not_disbursed {l : Loan} (h : AgreementIffDisbursed l)
    (hs : l.State ≠ LoanStateDisbursed) : l.AgreementLetterURL = none := by
  by_contra hne
  exact hs (h.1 hne)

/-- One call keeps "agreement reference present iff disbursed" on every row. -/
theorem exec_agreement (env : Env) (t : Tables) (c : Call)
    (h : ∀ r ∈ t.loans, AgreementIffDisbursed r) :
    ∀ r ∈ (exec env t c).tables.loans, AgreementIffDisbursed r := by
  rcases exec_cases env t c with he | ⟨b, p, rate, roi, _, _, _, he⟩ |
    ⟨id, fv, pp, l, _, hst, hs, _, he⟩ | ⟨id, inv, amount, l, _, hst, hs, _, _, _, he⟩ |
    ⟨id, fo, url, l, _, hst, hs, _, he⟩
  · rw [he]; exact h
  · rw [he]
    intro r hr
    rcases List.mem_append.1 hr with hr | hr
    · exact h r hr
    · rw [List.mem_singleton] at hr
      subst hr
      unfold AgreementIffDisbursed NewLoan
      simp only [ne_eq, not_true_eq_false, false_iff]
      decide
  · rw [he]
    intro r hr
    rcases update_mem t _ r hr with hr | ⟨r0, _, rfl⟩
    · exact h r hr
    · rw [agreement_setColumns]
      have hl := h l (stored_mem hst)
      have hnone := agreement_none_of_not_disbursed hl (by rw [hs]; decide)
      unfold AgreementIffDisbursed
      simp only [hnone, ne_eq, not_true_eq_false, false_iff]
      decide
  · rw [he]
    intro r hr
    rcases update_mem _ _ r hr with hr | ⟨r0, _, rfl⟩
    · exact h r hr
    · rw [agreement_setColumns]
      have hl := h l (stored_mem hst)
      have hnone := agreement_none_of_not_disbursed hl (by rw [hs]; decide)
      obtain ⟨_, _, _, _, fU, fS⟩ := fundedLoan_fields env l amount
      unfold AgreementIffDisbursed
      rw [fU, fS, hnone]
      simp only [ne_eq, not_true_eq_false, false_iff]
      split
      · decide
      · rw [hs]; decide
  · rw [he]
    intro r hr
    rcases update_mem t _ r hr with hr | ⟨r0, _, rfl⟩
    · exact h r hr
    · rw [agreement_setColumns]
      unfold AgreementIffDisbursed
      simp

theorem run_agreement (calls : List (Env × Call)) :
    ∀ t : Tables, (∀ r ∈ t.loans, AgreementIffDisbursed r) →
      ∀ r ∈ (run t calls).loans, AgreementIffDisbursed r := by
  induction calls with
  | nil => intro t h; exact h
  | cons ec rest ih =>
    intro t h
    obtain ⟨env, c⟩ := ec
    exact ih _ (exec_agreement env t c h)

/-- One call leaves the agreement reference of a stored loan as it was, unless
it is a successful `DisburseLoan` of that loan, which sets it. -/
theorem exec_agreement_change (env : Env) (t : Tables) (c : Call) (id : UUID) (l : Loan)
    (hst : t.stored id = some l) :
    ∃ l1, (exec env t c).tables.stored id = some l1 ∧
      (l1.AgreementLetterURL = l.AgreementLetterURL ∨
        ∃ fo url, c = .DisburseLoan id fo url ∧ (exec env t c).err = none ∧
          l1.AgreementLetterURL = some url) := by
  rcases exec_cases env t c with he | ⟨b, p, rate, roi, _, _, _, he⟩ |
    ⟨id0, fv, pp, l0, _, hst0, _, _, he⟩ | ⟨id0, inv, amount, l0, _, hst0, _, _, _, _, he⟩ |
    ⟨id0, fo, url, l0, hc, hst0, _, herr, he⟩
  · exact ⟨l, by rw [he]; exact hst, Or.inl rfl⟩
  · exact ⟨l, by rw [he]; exact stored_append _ hst, Or.inl rfl⟩
  · rw [he]
    rcases stored_update_cases { l0 with State := LoanStateApproved, UpdatedAt := env.now 0 }
      hst0 rfl hst with ⟨_, hl, h1⟩ | ⟨_, h1⟩
    · exact ⟨_, (stored_congr rfl id).trans h1, Or.inl (by rw [hl]; rfl)⟩
    · exact ⟨l, (stored_congr rfl id).trans h1, Or.inl rfl⟩
  · rw [he]
    obtain ⟨fI, _, _, _, fU, _⟩ := fundedLoan_fields env l0 amount
    rcases stored_update_cases (fundedLoan env l0 amount) hst0 fI hst with
      ⟨_, hl, h1⟩ | ⟨_, h1⟩
    · refine ⟨_, (stored_congr rfl id).trans h1, Or.inl ?_⟩
      rw [hl]; exact fU
    · exact ⟨l, (stored_congr rfl id).trans h1, Or.inl rfl⟩
  · rw [he]
    rcases stored_update_cases
      { l0 with
        State := LoanStateDisbursed
        UpdatedAt := env.now 0
        AgreementLetterURL := some url }
      hst0 rfl hst with ⟨hid, _, h1⟩ | ⟨_, h1⟩
    · refine ⟨_, (stored_congr rfl id).trans h1, Or.inr ⟨fo, url, ?_, ?_, rfl⟩⟩
      · rw [hc, hid]
      · exact herr
    · exact ⟨l, (stored_congr rfl id).trans h1, Or.inl rfl⟩

/-- One call leaves the approvals table as it was, or is an `ApproveLoan` of
a stored proposed loan that appends one row for it and commits the loan as
approved. -/
theorem exec_approvals (env : Env) (t : Tables) (c : Call) :
    (exec env t c).tables.approvals = t.approvals ∨
    ∃ id fv pp l, t.stored id = some l ∧ l.State = LoanStateProposed ∧
      (exec env t c).tables.approvals =
        t.approvals ++ [NewApproval env.newID (env.now 1) id fv pp] ∧
      ∃ l1, (exec env t c).tables.stored id = some l1 ∧ l1.State = LoanStateApproved := by
  rcases exec_cases env t c with he | ⟨b, p, rate, roi, _, _, _, he⟩ |
    ⟨id, fv, pp, l, _, hst, hs, _, he⟩ | ⟨id, inv, amount, l, _, hst, hs, _, _, _, he⟩ |
    ⟨id, fo, url, l, _, hst, hs, _, he⟩
  · left; rw [he]
  · left; rw [he]
  · right
    refine ⟨id, fv, pp, l, hst, hs, by rw [he], ?_⟩
    rw [he]
    exact ⟨_, (stored_congr rfl id).trans
      (stored_update_self { l with State := LoanStateApproved, UpdatedAt := env.now 0 }
        hst rfl rfl), rfl⟩
  · left; rw [he]
    exact (update_other Driver.ok
      { t with investments := t.investments ++
        [NewInvestment env.newID (env.now 1) id inv amount] }
      (fundedLoan env l amount)).1
  · left; rw [he]
    exact (update_other Driver.ok t
      { l with
        State := LoanStateDisbursed
        UpdatedAt := env.now 0
        AgreementLetterURL := some url }).1

/-- One call leaves the disbursements table as it was, or is a `DisburseLoan`
of a stored invested loan that appends one row for it and commits the loan as
disbursed. -/
theorem exec_disbursements (env : Env) (t : Tables) (c : Call) :
    (exec env t c).tables.disbursements = t.disbursements ∨
    ∃ id fo url l, t.stored id = some l ∧ l.State = LoanStateInvested ∧
      (exec env t c).tables.disbursements =
        t.disbursements ++ [NewDisbursement env.newID (env.now 1) id fo url] ∧
      ∃ l1, (exec env t c).tables.stored id = some l1 ∧ l1.State = LoanStateDisbursed := by
  rcases exec_cases env t c with he | ⟨b, p, rate, roi, _, _, _, he⟩ |
    ⟨id, fv, pp, l, _, hst, hs, _, he⟩ | ⟨id, inv, amount, l, _, hst, hs, _, _, _, he⟩ |
    ⟨id, fo, url, l, _, hst, hs, _, he⟩
  · left; rw [he]
  · left; rw [he]
  · left; rw [he]
    exact (update_other Driver.ok t
      { l with State := LoanStateApproved, UpdatedAt := env.now 0 }).2.2
  · left; rw [he]
    exact (update_other Driver.ok
      { t with investments := t.investments ++
        [NewInvestment env.newID (env.now 1) id inv amount] }
      (fundedLoan env l amount)).2.2
  · right
    refine ⟨id, fo, url, l, hst, hs, by rw [he], ?_⟩
    rw [he]
    exact ⟨_, (stored_congr rfl id).trans
      (stored_update_self
        { l with
          State := LoanStateDisbursed
          UpdatedAt := env.now 0
          AgreementLetterURL := some url }
        hst rfl rfl), rfl⟩

theorem isNext_ne_proposed {s s1 : LoanState} (h : IsNext s s1) :
    s1 ≠ LoanStateProposed := by
  unfold IsNext at h
  rcases h with ⟨_, h⟩ | ⟨_, h⟩ | ⟨_, h⟩ <;> rw [h] <;> decide

/-- One call keeps a stored loan that is no longer proposed stored and no
longer proposed, and a disbursed one stored and disbursed. -/
theorem exec_keeps_progress (env : Env) (t : Tables) (c : Call) (id : UUID) :
    ((∃ l, t.stored id = some l ∧ l.State ≠ LoanStateProposed) →
      ∃ l, (exec env t c).tables.stored id = some l ∧ l.State ≠ LoanStateProposed) ∧
    ((∃ l, t.stored id = some l ∧ l.State = LoanStateDisbursed) →
      ∃ l, (exec env t c).tables.stored id = some l ∧ l.State = LoanStateDisbursed) := by
  constructor
  · rintro ⟨l, hst, hs⟩
    obtain ⟨l1, h1, h2⟩ := exec_state env t c id l hst
    refine ⟨l1, h1, ?_⟩
    rcases h2 with h2 | h2
    · rw [h2]; exact hs
    · exact isNext_ne_proposed h2
  · rintro ⟨l, hst, hs⟩
    obtain ⟨l1, h1, h2⟩ := exec_state env t c id l hst
    refine ⟨l1, h1, ?_⟩
    rcases h2 with h2 | h2
    · rw [h2]; exact hs
    · rw [hs] at h2; exact absurd h2 (not_isNext_disbursed _)

theorem filter_append_singleton {α : Type} (p : α → Bool) (xs : List α) (a : α) :
    (xs ++ [a]).filter p = xs.filter p ++ (if p a then [a] else []) := by
  rw [List.filter_append]
  congr 1
  by_cases h : p a = true <;> simp [h]

/-- One call keeps `OneRecordEach`. -/
theorem exec_oneRecordEach (env : Env) (t : Tables) (c : Call) (h : OneRecordEach t) :
    OneRecordEach (exec env t c).tables := by
  intro id
  obtain ⟨⟨ha1, ha2⟩, ⟨hd1, hd2⟩⟩ := h id
  obtain ⟨hk1, hk2⟩ := exec_keeps_progress env t c id
  constructor
  · rcases exec_approvals env t c with he | ⟨id0, fv, pp, l, hst, hs, he, l1, hst1, hs1⟩
    · unfold approvalsOf at ha1 ha2 ⊢
      rw [he]
      exact ⟨ha1, fun hne => hk1 (ha2 hne)⟩
    · unfold approvalsOf at ha1 ha2 ⊢
      rw [he, filter_append_singleton]
      by_cases hid : id0 = id
      · subst hid
        have hempty : List.filter (fun a : Approval => a.LoanID == id0) t.approvals = [] := by
          by_contra hne
          obtain ⟨l2, hst2, hs2⟩ := ha2 hne
          rw [hst] at hst2
          cases hst2
          exact hs2 hs
        have hp : ((NewApproval env.newID (env.now 1) id0 fv pp).LoanID == id0) = true := by
          simp [NewApproval]
        rw [hempty, if_pos hp]
        refine ⟨by simp, fun _ => ⟨l1, hst1, ?_⟩⟩
        rw [hs1]; decide
      · have hp : ¬ ((NewApproval env.newID (env.now 1) id0 fv pp).LoanID == id) = true := by
          simpa [NewApproval] using hid
        rw [if_neg hp, List.append_nil]
        exact ⟨ha1, fun hne => hk1 (ha2 hne)⟩
  · rcases exec_disbursements env t c with he | ⟨id0, fo, url, l, hst, hs, he, l1, hst1, hs1⟩
    · unfold disbursementsOf at hd1 hd2 ⊢
      rw [he]
      exact ⟨hd1, fun hne => hk2 (hd2 hne)⟩
    · unfold disbursementsOf at hd1 hd2 ⊢
      rw [he, filter_append_singleton]
      by_cases hid : id0 = id
      · subst hid
        have hempty : List.filter (fun a : Disbursement => a.LoanID == id0)
            t.disbursements = [] := by
          by_contra hne
          obtain ⟨l2, hst2, hs2⟩ := hd2 hne
          rw [hst] at hst2
          cases hst2
          rw [hs] at hs2
          revert hs2
          decide
        have hp : ((NewDisbursement env.newID (env.now 1) id0 fo url).LoanID == id0) =
            true := by
          simp [NewDisbursement]
        rw [hempty, if_pos hp]
        exact ⟨by simp, fun _ => ⟨l1, hst1, hs1⟩⟩
      · have hp : ¬ ((NewDisbursement env.newID (env.now 1) id0 fo url).LoanID == id) =
            true := by
          simpa [NewDisbursement] using hid
        rw [if_neg hp, List.append_nil]
        exact ⟨hd1, fun hne => hk2 (hd2 hne)⟩

theorem run_oneRecordEach (calls : List (Env × Call)) :
    ∀ t : Tables, OneRecordEach t → OneRecordEach (run t calls) := by
  induction calls with
  | nil => intro t h; exact h
  | cons ec rest ih =>
    intro t h
    obtain ⟨env, c⟩ := ec
    exact ih _ (exec_oneRecordEach env t c h)

theorem oneRecordEach_empty : OneRecordEach Tables.empty := by
  intro id
  refine ⟨⟨by simp [approvalsOf, Tables.empty], fun h => absurd rfl h⟩,
    ⟨by simp [disbursementsOf, Tables.empty], fun h => absurd rfl h⟩⟩

/-! ### The transition error is never returned -/

/-- The error of `WithTransaction` does not wrap `ErrInvalidStateTransition`
unless the error of the closure does. -/
theorem withTransaction_no_transition_error {σ : Type} (d : Driver) (t : Tables) (v : σ)
    (fn : Tables → σ → Tables × σ × Option Error)
    (h : ∀ e, (fn t v).2.2 = some e → e.Is Error.ErrInvalidStateTransition = false) :
    ∀ e, (WithTransaction d t v fn).2.2 = some e →
      e.Is Error.ErrInvalidStateTransition = false := by
  intro e he
  unfold WithTransaction at he
  cases hb : d.beginErr with
  | some m =>
    rw [hb] at he
    simp only [Option.some.injEq] at he
    subst he
    simp [Error.Is]
  | none =>
    rw [hb] at he
    rcases hfn : fn t v with ⟨t1, v1, e1⟩
    rw [hfn] at he h
    cases e1 with
    | some err =>
      cases hr : d.rollbackErr with
      | some rb =>
        rw [hr] at he
        simp only [Option.some.injEq] at he
        subst he
        simp [Error.Is]
      | none =>
        rw [hr] at he
        simp only [Option.some.injEq] at he
        subst he
        exact h err rfl
    | none =>
      cases hc : d.commitErr with
      | some m =>
        rw [hc] at he
        simp only [Option.some.injEq] at he
        subst he
        simp [Error.Is]
      | none =>
        rw [hc] at he
        simp at he

theorem getByIDForUpdate_no_transition_error (d : Driver) (t : Tables) (id : UUID) (e : Error)
    (h : LoanRepository.GetByIDForUpdate d t id = .error e) :
    e.Is Error.ErrInvalidStateTransition = false := by
  unfold LoanRepository.GetByIDForUpdate LoanRepository.scanLoan at h
  cases hs : d.scanErr with
  | some m =>
    rw [hs] at h
    simp only [Except.error.injEq] at h
    subst h
    simp [Error.Is]
  | none =>
    rw [hs] at h
    cases hr : t.stored id with
    | none =>
      rw [hr] at h
      simp only [Except.error.injEq] at h
      subst h
      rfl
    | some r => rw [hr] at h; simp at h

theorem update_no_transition_error (d : Driver) (t : Tables) (loan : Loan) (e : Error)
    (h : (LoanRepository.Update d t loan).2 = some e) :
    e.Is Error.ErrInvalidStateTransition = false := by
  unfold LoanRepository.Update at h
  cases hu : d.updateErr with
  | some m =>
    rw [hu] at h
    simp only [Option.some.injEq] at h
    subst h
    simp [Error.Is]
  | none => rw [hu] at h; simp at h

theorem create_no_transition_error (d : Driver) (t : Tables) :
    (∀ a e, (ApprovalRepository.Create d t a).2 = some e →
      e.Is Error.ErrInvalidStateTransition = false) ∧
    (∀ a e, (InvestmentRepository.Create d t a).2 = some e →
      e.Is Error.ErrInvalidStateTransition = false) ∧
    (∀ a e, (DisbursementRepository.Create d t a).2 = some e →
      e.Is Error.ErrInvalidStateTransition = false) := by
  refine ⟨?_, ?_, ?_⟩ <;> intro a e h
  · unfold ApprovalRepository.Create at h
    cases hu : d.insertErr with
    | some m =>
      rw [hu] at h
      simp only [Option.some.injEq] at h
      subst h
      simp [Error.Is]
    | none => rw [hu] at h; simp at h
  · unfold InvestmentRepository.Create at h
    cases hu : d.insertErr with
    | some m =>
      rw [hu] at h
      simp only [Option.some.injEq] at h
      subst h
      simp [Error.Is]
    | none => rw [hu] at h; simp at h
  · unfold DisbursementRepository.Create at h
    cases hu : d.insertErr with
    | some m =>
      rw [hu] at h
      simp only [Option.some.injEq] at h
      subst h
      simp [Error.Is]
    | none => rw [hu] at h; simp at h

/-- The closure of `ApproveLoan` calls `TransitionTo` on a proposed loan only,
so its error is never `ErrInvalidStateTransition`. -/
theorem approveLoan_fn_no_transition_error (env : Env) (id : UUID) (fv pp : String)
    (tx : Tables) (v : Option Loan) :
    ∀ e, (LoanService.ApproveLoan.fn env id fv pp tx v).2.2 = some e →
      e.Is Error.ErrInvalidStateTransition = false := by
  intro e he
  unfold LoanService.ApproveLoan.fn at he
  cases hg : LoanRepository.GetByIDForUpdate env.driver tx id with
  | error err =>
    rw [hg] at he
    simp only [Option.some.injEq] at he
    subst he
    exact getByIDForUpdate_no_transition_error _ _ _ _ hg
  | ok loan =>
    rw [hg] at he
    simp only at he
    by_cases hs : loan.State = LoanStateProposed
    · have hc : (loan.State != LoanStateProposed) = false := by simp [hs]
      have hcan : loan.CanTransitionTo LoanStateApproved = true :=
        canTransitionTo_of_next (Or.inl ⟨hs, rfl⟩)
      simp only [hc, Bool.false_eq_true, if_false] at he
      rw [(transitionTo_eq loan LoanStateApproved (env.now 0)).1 hcan] at he
      simp only at he
      generalize hu : LoanRepository.Update env.driver tx _ = u at he
      rcases u with ⟨tx1, _ | eu⟩
      · simp only at he
        generalize hcr : ApprovalRepository.Create env.driver tx1 _ = u at he
        rcases u with ⟨tx2, _ | ec⟩
        · simp at he
        · simp only [Option.some.injEq] at he
          subst he
          exact (create_no_transition_error env.driver tx1).1 _ _ (by rw [hcr])
      · simp only [Option.some.injEq] at he
        subst he
        exact update_no_transition_error env.driver tx _ _ (by rw [hu])
    · have hc : (loan.State != LoanStateProposed) = true := by simp [hs]
      simp only [hc, if_true, Option.some.injEq] at he
      subst he
      rfl

/-- The closure of `DisburseLoan` calls `TransitionTo` on an invested loan
only, so its error is never `ErrInvalidStateTransition`. -/
theorem disburseLoan_fn_no_transition_error (env : Env) (id : UUID) (fo url : String)
    (tx : Tables) (v : Option Loan) :
    ∀ e, (LoanService.DisburseLoan.fn env id fo url tx v).2.2 = some e →
      e.Is Error.ErrInvalidStateTransition = false := by
  intro e he
  unfold LoanService.DisburseLoan.fn at he
  cases hg : LoanRepository.GetByIDForUpdate env.driver tx id with
  | error err =>
    rw [hg] at he
    simp only [Option.some.injEq] at he
    subst he
    exact getByIDForUpdate_no_transition_error _ _ _ _ hg
  | ok loan =>
    rw [hg] at he
    simp only at he
    by_cases hs : loan.State = LoanStateInvested
    · have hc : (loan.State != LoanStateInvested) = false := by simp [hs]
      have hcan : loan.CanTransitionTo LoanStateDisbursed = true :=
        canTransitionTo_of_next (Or.inr (Or.inr ⟨hs, rfl⟩))
      simp only [hc, Bool.false_eq_true, if_false] at he
      rw [(transitionTo_eq loan LoanStateDisbursed (env.now 0)).1 hcan] at he
      simp only at he
      generalize hu : LoanRepository.Update env.driver tx _ = u at he
      rcases u with ⟨tx1, _ | eu⟩
      · simp only at he
        generalize hcr : DisbursementRepository.Create env.driver tx1 _ = u at he
        rcases u with ⟨tx2, _ | ec⟩
        · simp at he
        · simp only [Option.some.injEq] at he
          subst he
          exact (create_no_transition_error env.driver tx1).2.2 _ _ (by rw [hcr])
      · simp only [Option.some.injEq] at he
        subst he
        exact update_no_transition_error env.driver tx _ _ (by rw [hu])
    · have hc : (loan.State != LoanStateInvested) = true := by simp [hs]
      simp only [hc, if_true] at he
      split at he <;>
      · simp only [Option.some.injEq] at he
        subst he
        rfl

/-- The closure of `AddInvestment` calls `TransitionTo` only on the loan that
`Loan.AddInvestment` has accepted, which is approved, so its error is never
`ErrInvalidStateTransition`. -/
theorem addInvestment_fn_no_transition_error (env : Env) (id : UUID) (inv : String)
    (amount : Int64) (tx : Tables) (v : Option Loan × Option Investment) :
    ∀ e, (LoanService.AddInvestment.fn env id inv amount tx v).2.2 = some e →
      e.Is Error.ErrInvalidStateTransition = false := by
  intro e he
  unfold LoanService.AddInvestment.fn at he
  cases hg : LoanRepository.GetByIDForUpdate env.driver tx id with
  | error err =>
    rw [hg] at he
    simp only [Option.some.injEq] at he
    subst he
    exact getByIDForUpdate_no_transition_error _ _ _ _ hg
  | ok loan =>
    rw [hg] at he
    simp only at he
    by_cases hs : loan.State = LoanStateApproved
    · by_cases ha : amount ≤ loan.PrincipalAmount - loan.TotalInvested
      · rw [addInvestment_accept (env.now 0) hs ha] at he
        simp only at he
        generalize hcr : InvestmentRepository.Create env.driver tx _ = u at he
        rcases u with ⟨tx1, _ | ec⟩
        · simp only at he
          have htr : ∀ l1 : Loan, l1.State = LoanStateApproved →
              (if l1.IsFullyInvested then l1.TransitionTo LoanStateInvested (env.now 2)
                else (l1, none)).2 = none := by
            intro l1 h1
            split
            · rw [(transitionTo_eq l1 LoanStateInvested (env.now 2)).1
                (canTransitionTo_of_next (Or.inr (Or.inl ⟨h1, rfl⟩)))]
            · rfl
          generalize htx : (if Loan.IsFullyInvested _ then _ else _ : Loan × Option Error) = w
            at he
          have hw := htr
            { loan with TotalInvested := loan.TotalInvested + amount, UpdatedAt := env.now 0 } hs
          rw [htx] at hw
          rcases w with ⟨loan2, ew⟩
          simp only at hw
          subst hw
          simp only at he
          generalize hu : LoanRepository.Update env.driver tx1 _ = u at he
          rcases u with ⟨tx2, _ | eu⟩
          · simp at he
          · simp only [Option.some.injEq] at he
            subst he
            exact update_no_transition_error env.driver tx1 _ _ (by rw [hu])
        · simp only [Option.some.injEq] at he
          subst he
          exact (create_no_transition_error env.driver tx).2.1 _ _ (by rw [hcr])
      · have hgt : amount > loan.PrincipalAmount - loan.TotalInvested := by
          rw [gt_iff_lt, Int64.lt_iff]; rw [Int64.le_iff] at ha; omega
        rw [addInvestment_reject_limit (env.now 0) hs hgt] at he
        simp only [Option.some.injEq] at he
        subst he
        rfl
    · rw [addInvestment_reject_state amount (env.now 0) hs] at he
      simp only [Option.some.injEq] at he
      subst he
      rfl

/-! ### Funding level and conservation of funds -/

theorem fundingAgrees_setColumns (r0 l1 : Loan) :
    FundingAgrees (LoanRepository.setColumns r0 l1) ↔ FundingAgrees l1 :=
  Iff.rfl

/-- One call keeps `FundingAgrees` on every row. -/
theorem exec_fundingAgrees (env : Env) (t : Tables) (c : Call)
    (h : ∀ r ∈ t.loans, FundingAgrees r) :
    ∀ r ∈ (exec env t c).tables.loans, FundingAgrees r := by
  rcases exec_cases env t c with he | ⟨b, p, rate, roi, _, hp, _, he⟩ |
    ⟨id, fv, pp, l, _, hst, hs, _, he⟩ | ⟨id, inv, amount, l, _, hst, hs, hpos, ha, _, he⟩ |
    ⟨id, fo, url, l, _, hst, hs, _, he⟩
  · rw [he]; exact h
  · rw [he]
    intro r hr
    rcases List.mem_append.1 hr with hr | hr
    · exact h r hr
    · rw [List.mem_singleton] at hr
      subst hr
      left
      rw [Int64.lt_iff, Int64.zero_val] at hp
      exact ⟨rfl, Int64.zero_val, hp⟩
  · rw [he]
    intro r hr
    rcases update_mem t _ r hr with hr | ⟨r0, _, rfl⟩
    · exact h r hr
    · rw [fundingAgrees_setColumns]
      rcases h l (stored_mem hst) with ⟨_, h0, hP⟩ | ⟨h1, _⟩ | ⟨h1, _⟩
      · right; left
        refine ⟨rfl, ?_, ?_⟩
        · show 0 ≤ l.TotalInvested.val
          omega
        · show l.TotalInvested.val < l.PrincipalAmount.val
          omega
      · rw [hs] at h1; exact absurd h1 (by decide)
      · rw [hs] at h1; exact absurd h1 (by decide)
  · rw [he]
    intro r hr
    rcases update_mem _ _ r hr with hr | ⟨r0, _, rfl⟩
    · exact h r hr
    · rw [fundingAgrees_setColumns]
      obtain ⟨_, _, fP, fT, _, fS⟩ := fundedLoan_fields env l amount
      rcases h l (stored_mem hst) with ⟨h1, _⟩ | ⟨_, h0, hlt⟩ | ⟨h1, _⟩
      · rw [hs] at h1; exact absurd h1 (by decide)
      · obtain ⟨hsub, hadd⟩ := add_val_exact (l := l) ⟨h0, le_of_lt hlt⟩ ha
        rw [Int64.le_iff, hsub] at ha
        rw [Int64.lt_iff, Int64.zero_val] at hpos
        unfold FundingAgrees
        rw [fS, fT, fP, hadd]
        by_cases hfull : l.PrincipalAmount ≤ l.TotalInvested + amount
        · rw [if_pos hfull]
          right; right
          rw [Int64.le_iff, hadd] at hfull
          exact ⟨Or.inl rfl, by omega⟩
        · rw [if_neg hfull]
          right; left
          rw [Int64.le_iff, hadd] at hfull
          exact ⟨hs, by omega, by omega⟩
      · rw [hs] at h1; rcases h1 with h1 | h1 <;> exact absurd h1 (by decide)
  · rw [he]
    intro r hr
    rcases update_mem t _ r hr with hr | ⟨r0, _, rfl⟩
    · exact h r hr
    · rw [fundingAgrees_setColumns]
      rcases h l (stored_mem hst) with ⟨h1, _⟩ | ⟨h1, _⟩ | ⟨_, heq⟩
      · rw [hs] at h1; exact absurd h1 (by decide)
      · rw [hs] at h1; exact absurd h1 (by decide)
      · right; right
        exact ⟨Or.inr rfl, heq⟩

theorem run_fundingAgrees (calls : List (Env × Call)) :
    ∀ t : Tables, (∀ r ∈ t.loans, FundingAgrees r) →
      ∀ r ∈ (run t calls).loans, FundingAgrees r := by
  induction calls with
  | nil => intro t h; exact h
  | cons ec rest ih =>
    intro t h
    obtain ⟨env, c⟩ := ec
    exact ih _ (exec_fundingAgrees env t c h)

/-- The row a later read yields after the `UPDATE` of the row `l0` read under
the id `id0`. -/
theorem stored_update_at {t : Tables} {id0 : UUID} {l0 : Loan} (l1 : Loan)
    (h0 : t.stored id0 = some l0) (hid : l1.ID = l0.ID) (id : UUID) :
    (LoanRepository.Update Driver.ok t l1).1.stored id =
      if id = id0 then some (LoanRepository.setColumns l0 l1) else t.stored id := by
  have hl1 : l1.ID = id0 := by rw [hid, stored_id h0]
  rw [stored_update]
  by_cases h : id = id0
  · subst h
    rw [if_pos ⟨rfl, hl1.symm⟩, if_pos rfl, h0]
    rfl
  · rw [if_neg (fun hh => h (hh.2.trans hl1)), if_neg h]

theorem stored_append_cases (t : Tables) (r : Loan) (id : UUID) :
    ({ t with loans := t.loans ++ [r] } : Tables).stored id =
      match t.stored id with
      | some l => some l
      | none => if r.ID = id then some r else none := by
  unfold Tables.stored
  simp only [List.find?_append]
  cases List.find? (fun r => r.ID == id) t.loans with
  | some l => rfl
  | none =>
    by_cases h : r.ID = id
    · simp [h]
    · simp [h]

theorem investedSum_append (t : Tables) (i : Investment) (id : UUID) :
    investedSum { t with investments := t.investments ++ [i] } id =
      investedSum t id + (if i.LoanID = id then i.Amount.val else 0) := by
  unfold investedSum investmentsOf
  simp only [filter_append_singleton, List.map_append, List.sum_append]
  by_cases h : i.LoanID = id
  · simp [h]
  · simp [h]

theorem investmentsOf_append (t : Tables) (i : Investment) (id : UUID) :
    investmentsOf { t with investments := t.investments ++ [i] } id =
      investmentsOf t id ++ (if i.LoanID = id then [i] else []) := by
  unfold investmentsOf
  simp only [filter_append_singleton]
  by_cases h : i.LoanID = id
  · simp [h]
  · simp [h]

theorem fundsConserved_congr {t t1 : Tables} (h : FundsConserved t)
    (hs : ∀ id, t1.stored id = t.stored id) (hi : t1.investments = t.investments) :
    FundsConserved t1 := by
  obtain ⟨h1, h2, h3⟩ := h
  have hof : ∀ id, investmentsOf t1 id = investmentsOf t id := by
    intro id; unfold investmentsOf; rw [hi]
  refine ⟨?_, ?_, ?_⟩
  · intro id l hst
    rw [hs] at hst
    unfold investedSum
    rw [hof]
    exact h1 id l hst
  · intro id hst
    rw [hs] at hst
    rw [hof]
    exact h2 id hst
  · rw [hi]; exact h3

/-- An `UPDATE` that keeps the total of the row read, with the investment rows
as they were, keeps `FundsConserved`. -/
theorem fundsConserved_update {t : Tables} {id0 : UUID} {l0 : Loan} (l1 : Loan)
    (h : FundsConserved t) (h0 : t.stored id0 = some l0) (hid : l1.ID = l0.ID)
    (hT : l1.TotalInvested = l0.TotalInvested) :
    FundsConserved (LoanRepository.Update Driver.ok t l1).1 := by
  obtain ⟨h1, h2, h3⟩ := h
  have hi : (LoanRepository.Update Driver.ok t l1).1.investments = t.investments :=
    (update_other Driver.ok t l1).2.1
  have hof : ∀ id, investmentsOf (LoanRepository.Update Driver.ok t l1).1 id =
      investmentsOf t id := by
    intro id; unfold investmentsOf; rw [hi]
  refine ⟨?_, ?_, ?_⟩
  · intro id l hst
    rw [stored_update_at l1 h0 hid] at hst
    unfold investedSum
    rw [hof]
    by_cases hh : id = id0
    · rw [if_pos hh] at hst
      cases hst
      subst hh
      show l1.TotalInvested.val = _
      rw [hT]
      exact h1 id l0 h0
    · rw [if_neg hh] at hst
      exact h1 id l hst
  · intro id hst
    rw [stored_update_at l1 h0 hid] at hst
    rw [hof]
    by_cases hh : id = id0
    · rw [if_pos hh] at hst; cases hst
    · rw [if_neg hh] at hst; exact h2 id hst
  · rw [hi]; exact h3

/-- One call keeps `FundsConserved`, given the bounds on every row. -/
theorem exec_fundsConserved (env : Env) (t : Tables) (c : Call)
    (hb : ∀ l ∈ t.loans, l.Bounded) (h : FundsConserved t) :
    FundsConserved (exec env t c).tables := by
  rcases exec_cases env t c with he | ⟨b, p, rate, roi, _, hp, _, he⟩ |
    ⟨id, fv, pp, l, _, hst, hs, _, he⟩ | ⟨id, inv, amount, l, _, hst, hs, hpos, ha, _, he⟩ |
    ⟨id, fo, url, l, _, hst, hs, _, he⟩
  · rw [he]; exact h
  · rw [he]
    obtain ⟨h1, h2, h3⟩ := h
    refine ⟨?_, ?_, h3⟩
    · intro id l hst
      rw [stored_append_cases] at hst
      cases hs : t.stored id with
      | some l0 =>
        rw [hs] at hst
        cases hst
        exact h1 id _ hs
      | none =>
        rw [hs] at hst
        simp only at hst
        split at hst
        · cases hst
          show (0 : Int64).val = investedSum _ id
          have hnil : investmentsOf t id = [] := h2 id hs
          unfold investedSum
          show (0 : Int64).val = ((investmentsOf t id).map _).sum
          rw [hnil, Int64.zero_val]
          rfl
        · cases hst
    · intro id hst
      rw [stored_append_cases] at hst
      cases hs : t.stored id with
      | some l0 => rw [hs] at hst; cases hst
      | none => exact h2 id hs
  · rw [he]
    exact fundsConserved_congr
      (fundsConserved_update { l with State := LoanStateApproved, UpdatedAt := env.now 0 }
        h hst rfl rfl) (fun _ => rfl) rfl
  · rw [he]
    obtain ⟨fI, _, _, fT, _, _⟩ := fundedLoan_fields env l amount
    obtain ⟨_, hadd⟩ := add_val_exact (hb l (stored_mem hst)) ha
    obtain ⟨h1, h2, h3⟩ := h
    have hst1 : ({ t with investments := t.investments ++
        [NewInvestment env.newID (env.now 1) id inv amount] } : Tables).stored id = some l := hst
    have hi : (LoanRepository.Update Driver.ok
        { t with investments := t.investments ++
            [NewInvestment env.newID (env.now 1) id inv amount] }
        (fundedLoan env l amount)).1.investments =
        t.investments ++ [NewInvestment env.newID (env.now 1) id inv amount] :=
      (update_other Driver.ok _ _).2.1
    have hof : ∀ id1, investmentsOf (LoanRepository.Update Driver.ok
        { t with investments := t.investments ++
            [NewInvestment env.newID (env.now 1) id inv amount] }
        (fundedLoan env l amount)).1 id1 =
        investmentsOf { t with investments := t.investments ++
            [NewInvestment env.newID (env.now 1) id inv amount] } id1 := by
      intro id1; unfold investmentsOf; rw [hi]
    have hL : (NewInvestment env.newID (env.now 1) id inv amount).LoanID = id := rfl
    refine ⟨?_, ?_, ?_⟩
    · intro id1 l1 hst2
      rw [stored_update_at _ hst1 fI] at hst2
      unfold investedSum
      rw [hof]
      have hsum := investedSum_append t (NewInvestment env.newID (env.now 1) id inv amount) id1
      unfold investedSum at hsum
      rw [hsum, hL]
      by_cases hh : id1 = id
      · rw [if_pos hh] at hst2
        cases hst2
        subst hh
        show (fundedLoan env l amount).TotalInvested.val = _
        rw [fT, hadd, if_pos rfl]
        have := h1 id1 l hst
        unfold investedSum at this
        rw [this]
        rfl
      · rw [if_neg hh] at hst2
        rw [if_neg (fun h => hh h.symm), add_zero]
        exact h1 id1 l1 hst2
    · intro id1 hst2
      rw [stored_update_at _ hst1 fI] at hst2
      rw [hof, investmentsOf_append, hL]
      by_cases hh : id1 = id
      · rw [if_pos hh] at hst2; cases hst2
      · rw [if_neg hh] at hst2
        rw [if_neg (fun h => hh h.symm), List.append_nil]
        exact h2 id1 hst2
    · rw [hi]
      intro i hmem
      rcases List.mem_append.1 hmem with hmem | hmem
      · exact h3 i hmem
      · rw [List.mem_singleton] at hmem
        subst hmem
        exact hpos
  · rw [he]
    exact fundsConserved_congr
      (fundsConserved_update
        { l with
          State := LoanStateDisbursed
          UpdatedAt := env.now 0
          AgreementLetterURL := some url }
        h hst rfl rfl) (fun _ => rfl) rfl

theorem run_fundsConserved (calls : List (Env × Call)) :
    ∀ t : Tables, (∀ l ∈ t.loans, l.Bounded) → FundsConserved t →
      FundsConserved (run t calls) := by
  induction calls with
  | nil => intro t _ h; exact h
  | cons ec rest ih =>
    intro t hb h
    obtain ⟨env, c⟩ := ec
    exact ih _ (exec_bounded env t c hb) (exec_fundsConserved env t c hb h)

theorem fundsConserved_empty : FundsConserved Tables.empty :=
  ⟨fun _ _ h => by simp [Tables.stored, Tables.empty] at h,
   fun _ _ => rfl,
   fun _ h => absurd h (List.not_mem_nil _)⟩

/-- With pairwise distinct ids every row of the loans table is the row a read
of its id yields. -/
theorem stored_of_nodup (t : Tables) (hn : (t.loans.map (fun r => r.ID)).Nodup)
    (l : Loan) (hl : l ∈ t.loans) : t.stored l.ID = some l := by
  unfold Tables.stored
  generalize t.loans = ls at hn hl
  induction ls with
  | nil => exact absurd hl (List.not_mem_nil _)
  | cons r rest ih =>
    rw [List.map_cons, List.nodup_cons] at hn
    rcases List.mem_cons.1 hl with hl | hl
    · subst hl
      simp
    · have hne : r.ID ≠ l.ID := by
        intro heq
        exact hn.1 (heq ▸ List.mem_map_of_mem (fun r => r.ID) hl)
      rw [List.find?_cons_of_neg _ (by simpa using hne)]
      exact ih hn.2 hl

/-! ### Notification -/

theorem sends_loop (email : EmailService) (loanID : UUID) (agreementURL : String)
    (investors : List String) :
    ∀ k : Nat, sends (LoanService.notifyInvestors.loop email loanID agreementURL k investors) =
      investors.map (fun i => (i, UUID.String loanID, agreementURL)) := by
  induction investors with
  | nil => intro k; rfl
  | cons i rest ih =>
    intro k
    unfold LoanService.notifyInvestors.loop sends
    rw [List.filterMap_cons_some (by rfl), List.filterMap_append, List.map_cons]
    congr 1
    have hlog : List.filterMap (fun e =>
        match e with
        | Effect.send i l u => some (i, l, u)
        | Effect.logError _ _ => none)
        (match email k i (UUID.String loanID) agreementURL with
        | some err => [Effect.logError "failed to send email to investor" err]
        | none => []) = [] := by
      cases email k i (UUID.String loanID) agreementURL <;> rfl
    rw [hlog, List.nil_append]
    exact ih (k + 1)

end service

/-! ## Facts about the gateway calls and the returned errors -/

namespace postgres

open domain

theorem withTransaction_logged_fst {σ : Type} (d : Driver) (t : Tables) (v : σ)
    (fn : Tables → σ → (Tables × σ × Option Error) × List GatewayCall) :
    (WithTransaction.logged d t v fn).1 = WithTransaction d t v (fun tx w => (fn tx w).1) := by
  unfold WithTransaction.logged WithTransaction
  cases d.beginErr with
  | some m => rfl
  | none =>
    simp only
    rcases fn t v with ⟨⟨t1, v1, _ | err⟩, calls⟩
    · simp only
      cases d.commitErr <;> rfl
    · simp only
      cases d.rollbackErr <;> rfl

theorem withTransaction_logged_snd {σ : Type} (d : Driver) (t : Tables) (v : σ)
    (fn : Tables → σ → (Tables × σ × Option Error) × List GatewayCall) :
    (WithTransaction.logged d t v fn).2.head? = some GatewayCall.begin := by
  unfold WithTransaction.logged
  cases d.beginErr with
  | some m => rfl
  | none =>
    simp only
    rcases fn t v with ⟨⟨t1, v1, _ | err⟩, calls⟩
    · simp only
      cases d.commitErr <;> rfl
    · simp only
      cases d.rollbackErr <;> rfl

end postgres

namespace service

open domain postgres

theorem addInvestment_fn_logged_fst (env : Env) (loanID : UUID) (investorID : String)
    (amount : Int64) (tx : Tables) (v : Option Loan × Option Investment) :
    (LoanService.AddInvestment.fn.logged env loanID investorID amount tx v).1 =
      LoanService.AddInvestment.fn env loanID investorID amount tx v := by
  unfold LoanService.AddInvestment.fn.logged LoanService.AddInvestment.fn
  cases LoanRepository.GetByIDForUpdate env.driver tx loanID with
  | error err => rfl
  | ok loan =>
    simp only
    rcases Loan.AddInvestment loan amount (env.now 0) with ⟨loan1, _ | err⟩
    · simp only
      rcases InvestmentRepository.Create env.driver tx
        (NewInvestment env.newID (env.now 1) loanID investorID amount) with ⟨tx1, _ | err⟩
      · simp only
        rcases (if loan1.IsFullyInvested then loan1.TransitionTo LoanStateInvested (env.now 2)
          else (loan1, none)) with ⟨loan2, _ | err⟩
        · simp only
          rcases LoanRepository.Update env.driver tx1 loan2 with ⟨tx2, _ | err⟩ <;> rfl
        · rfl
      · rfl
    · rfl

theorem createLoan_logged_fst (env : Env) (t : Tables) (b : String) (p : Int64)
    (rate roi : Float64) :
    (LoanService.CreateLoan.logged env t b p rate roi).1 =
      LoanService.CreateLoan env t b p rate roi := by
  unfold LoanService.CreateLoan.logged LoanService.CreateLoan
  by_cases hp : p ≤ 0
  · rw [if_pos hp, if_pos hp]
  · rw [if_neg hp, if_neg hp]
    simp only
    rcases LoanRepository.Create env.driver t (NewLoan env.newID (env.now 0) b p rate roi)
      with ⟨t1, _ | err⟩ <;> rfl

theorem addInvestment_logged_fst (env : Env) (t : Tables) (id : UUID) (inv : String)
    (amount : Int64) :
    (LoanService.AddInvestment.logged env t id inv amount).1 =
      LoanService.AddInvestment env t id inv amount := by
  unfold LoanService.AddInvestment.logged LoanService.AddInvestment
  by_cases hp : amount ≤ 0
  · rw [if_pos hp, if_pos hp]
  · rw [if_neg hp, if_neg hp]
    have hfn : (fun tx w => (LoanService.AddInvestment.fn.logged env id inv amount tx w).1) =
        LoanService.AddInvestment.fn env id inv amount := by
      funext tx w
      exact addInvestment_fn_logged_fst env id inv amount tx w
    have h := withTransaction_logged_fst env.driver t (none, none)
      (LoanService.AddInvestment.fn.logged env id inv amount)
    rw [hfn] at h
    rw [← h]
    rcases WithTransaction.logged env.driver t (none, none)
      (LoanService.AddInvestment.fn.logged env id inv amount) with
      ⟨⟨t1, ⟨_ | loan, investment⟩, _ | err⟩, calls⟩ <;> rfl

theorem addInvestment_logged_begins (env : Env) (t : Tables) (id : UUID) (inv : String)
    (amount : Int64) (hpos : 0 < amount) :
    (LoanService.AddInvestment.logged env t id inv amount).2.head? =
      some GatewayCall.begin := by
  unfold LoanService.AddInvestment.logged
  have hp : ¬ amount ≤ 0 := by
    rw [Int64.lt_iff] at hpos
    rw [Int64.le_iff]
    exact not_le.mpr hpos
  rw [if_neg hp]
  have h := withTransaction_logged_snd env.driver t (none, none)
    (LoanService.AddInvestment.fn.logged env id inv amount)
  generalize WithTransaction.logged env.driver t (none, none)
    (LoanService.AddInvestment.fn.logged env id inv amount) = x at h ⊢
  rcases x with ⟨⟨t1, ⟨_ | loan, investment⟩, _ | err⟩, calls⟩ <;> exact h

theorem createLoan_logged_calls (env : Env) (t : Tables) (b : String) (p : Int64)
    (rate roi : Float64) (hpos : 0 < p) :
    (LoanService.CreateLoan.logged env t b p rate roi).2 =
      [GatewayCall.loanCreate (NewLoan env.newID (env.now 0) b p rate roi)] := by
  unfold LoanService.CreateLoan.logged
  have hp : ¬ p ≤ 0 := by
    rw [Int64.lt_iff] at hpos
    rw [Int64.le_iff]
    exact not_le.mpr hpos
  rw [if_neg hp]
  simp only
  rcases LoanRepository.Create env.driver t (NewLoan env.newID (env.now 0) b p rate roi)
    with ⟨t1, _ | err⟩ <;> rfl

end service

/-! ## Facts about the handlers -/

namespace handler

open domain postgres repository service

theorem handleServiceError_wrapf (pfx : String) (cause : Error) :
    handleServiceError (Error.wrapf pfx cause) = handleServiceError cause := by
  unfold handleServiceError
  simp [Error.Is]

/-- An error that is or wraps `ErrApprovalNotFound` or
`ErrDisbursementNotFound` falls to the default case of the switch. -/
theorem handleServiceError_default (err : Error)
    (h : err.Is Error.ErrApprovalNotFound = true ∨
      err.Is Error.ErrDisbursementNotFound = true) :
    handleServiceError err = WriteError 500 "INTERNAL_ERROR" "An internal error occurred" := by
  induction err with
  | wrapf pfx cause ih =>
    rw [handleServiceError_wrapf]
    apply ih
    simpa [Error.Is] using h
  | ErrApprovalNotFound => rfl
  | ErrDisbursementNotFound => rfl
  | driver m => simp [Error.Is] at h
  | errorf m => simp [Error.Is] at h
  | _ => revert h; decide

theorem service_filter_limit (f : LoanFilter) :
    (LoanService.ListLoans.filter f).Limit =
      if f.Limit ≤ 0 then 10 else if f.Limit > 100 then 100 else f.Limit := by
  rcases f with ⟨s, limit, offset⟩
  unfold LoanService.ListLoans.filter
  simp only
  by_cases h0 : limit ≤ 0
  · simp only [if_pos h0]
    have h : ¬ ((10 : Int64) > 100) := by decide
    rw [if_neg h]
  · simp only [if_neg h0]
    by_cases h2 : limit > 100
    · simp only [if_pos h2]
    · simp only [if_neg h2]

theorem listLoans_filter_limit (q : ListLoansQuery) :
    (ListLoans.filter q).Limit =
      match q.limit with
      | .value n => if n > 0 then n else 10
      | _ => 10 := by
  rcases q with ⟨limit, offset, state⟩
  unfold ListLoans.filter
  cases limit <;> cases offset <;> simp only <;> split_ifs <;> rfl

end handler

/-! ## Exact arithmetic under the bounds -/

namespace domain

theorem remainingAmount_exact {l : Loan} (hb : l.Bounded) :
    l.RemainingAmount.val = l.PrincipalAmount.val - l.TotalInvested.val := by
  obtain ⟨h0, h1⟩ := hb
  have hP := l.PrincipalAmount.hi
  unfold Loan.RemainingAmount
  rw [Int64.sub_val]
  exact wrap64_id _ (by omega) (by omega)

end domain

/-! ## The lifecycle engine (package domain) -/

section DomainClaims

open domain domain.Loan

/-- C5: `CanTransitionTo target` is true exactly when (current, target) is one
of (proposed, approved), (approved, invested), (invested, disbursed). It is
false for every self-transition and for every target once the loan is
disbursed. -/
theorem C5_canTransitionTo_chain (l : Loan) (target : LoanState) :
    (l.CanTransitionTo target = true ↔
      (l.State = LoanStateProposed ∧ target = LoanStateApproved) ∨
      (l.State = LoanStateApproved ∧ target = LoanStateInvested) ∨
      (l.State = LoanStateInvested ∧ target = LoanStateDisbursed)) ∧
    l.CanTransitionTo l.State = false ∧
    ({ l with State := LoanStateDisbursed } : Loan).CanTransitionTo target = false := by
  refine ⟨canTransitionTo_iff l target, ?_, ?_⟩
  · rw [← Bool.not_eq_true, canTransitionTo_iff]
    unfold IsNext
    rintro (⟨h1, h2⟩ | ⟨h1, h2⟩ | ⟨h1, h2⟩) <;> rw [h1] at h2 <;> revert h2 <;> decide
  · rw [← Bool.not_eq_true, canTransitionTo_iff]
    unfold IsNext
    rintro (⟨h1, _⟩ | ⟨h1, _⟩ | ⟨h1, _⟩)
    · exact absurd (show LoanStateDisbursed = LoanStateProposed from h1) (by decide)
    · exact absurd (show LoanStateDisbursed = LoanStateApproved from h1) (by decide)
    · exact absurd (show LoanStateDisbursed = LoanStateInvested from h1) (by decide)

/-- C6: `TransitionTo target` succeeds exactly when `CanTransitionTo target`
holds and then sets `State` to `target` (and `UpdatedAt`); otherwise it returns
`ErrInvalidStateTransition` and leaves the loan as it was. In both cases
`PrincipalAmount`, `TotalInvested` and `AgreementLetterURL` keep their
values. -/
theorem C6_transitionTo (l : Loan) (target : LoanState) (now : Time) :
    ((l.TransitionTo target now).2 = none ↔ l.CanTransitionTo target = true) ∧
    (l.CanTransitionTo target = true →
      l.TransitionTo target now = ({ l with State := target, UpdatedAt := now }, none)) ∧
    (l.CanTransitionTo target = false →
      l.TransitionTo target now = (l, some Error.ErrInvalidStateTransition)) ∧
    (l.TransitionTo target now).1.PrincipalAmount = l.PrincipalAmount ∧
    (l.TransitionTo target now).1.TotalInvested = l.TotalInvested ∧
    (l.TransitionTo target now).1.AgreementLetterURL = l.AgreementLetterURL := by
  unfold TransitionTo
  cases h : l.CanTransitionTo target <;> simp

/-- Witness of C6: an approved loan moves to invested, and a proposed loan
asked to move to invested is rejected and unchanged. -/
theorem C6_transitionTo_witness :
    ({ NewLoan 1 0 "b" 100 0 0 with State := LoanStateApproved } : Loan).TransitionTo
        LoanStateInvested 7 =
      ({ NewLoan 1 0 "b" 100 0 0 with State := LoanStateInvested, UpdatedAt := 7 }, none) ∧
    (NewLoan 1 0 "b" 100 0 0).TransitionTo LoanStateInvested 7 =
      (NewLoan 1 0 "b" 100 0 0, some Error.ErrInvalidStateTransition) :=
  ⟨(C6_transitionTo _ LoanStateInvested 7).2.1 (by decide),
   (C6_transitionTo _ LoanStateInvested 7).2.2.1 (by decide)⟩

/-- C4: `AddInvestment amount` fails with `ErrLoanNotApproved` whenever the
state is not approved, whatever the amount; otherwise it fails with
`ErrInvestmentExceedsLimit` when `amount > PrincipalAmount - TotalInvested`;
otherwise it succeeds and `TotalInvested` becomes `TotalInvested + amount`.
A failure leaves the loan unchanged; a success changes `TotalInvested` and
`UpdatedAt` only, so `State` and `PrincipalAmount` keep their values. The
subtraction and the addition are the `int64` operations of the source; on a
loan with `0 ≤ TotalInvested ≤ PrincipalAmount` they are the exact integer
difference and, for an accepted amount, the exact integer sum. -/
theorem C4_addInvestment (l : Loan) (amount : Int64) (now : Time) :
    (l.State ≠ LoanStateApproved →
      l.AddInvestment amount now = (l, some Error.ErrLoanNotApproved)) ∧
    (l.State = LoanStateApproved → amount > l.PrincipalAmount - l.TotalInvested →
      l.AddInvestment amount now = (l, some Error.ErrInvestmentExceedsLimit)) ∧
    (l.State = LoanStateApproved → ¬ amount > l.PrincipalAmount - l.TotalInvested →
      l.AddInvestment amount now =
        ({ l with TotalInvested := l.TotalInvested + amount, UpdatedAt := now }, none)) ∧
    ((l.AddInvestment amount now).2 ≠ none → (l.AddInvestment amount now).1 = l) ∧
    (l.AddInvestment amount now).1.State = l.State ∧
    (l.AddInvestment amount now).1.PrincipalAmount = l.PrincipalAmount ∧
    (0 ≤ l.TotalInvested.val → l.TotalInvested.val ≤ l.PrincipalAmount.val →
      (l.PrincipalAmount - l.TotalInvested).val =
        l.PrincipalAmount.val - l.TotalInvested.val ∧
      (¬ amount > l.PrincipalAmount - l.TotalInvested →
        (l.TotalInvested + amount).val = l.TotalInvested.val + amount.val)) := by
  refine ⟨?_, ?_, ?_, ?_, ?_, ?_, ?_⟩
  · intro hs; exact addInvestment_reject_state amount now hs
  · intro hs ha; exact addInvestment_reject_limit now hs ha
  · intro hs ha
    exact addInvestment_accept now hs
      (by rw [Int64.le_iff]; rw [gt_iff_lt, Int64.lt_iff] at ha; omega)
  · exact addInvestment_aux l amount now
  · rcases addInvestment_cases l amount now with ⟨e, h⟩ | ⟨_, _, h⟩ <;> rw [h]
  · rcases addInvestment_cases l amount now with ⟨e, h⟩ | ⟨_, _, h⟩ <;> rw [h]
  · intro h0 h1
    have hle : ∀ {x : Int64}, x ≤ l.PrincipalAmount - l.TotalInvested →
        (l.PrincipalAmount - l.TotalInvested).val =
          l.PrincipalAmount.val - l.TotalInvested.val ∧
        (l.TotalInvested + x).val = l.TotalInvested.val + x.val :=
      fun hx => add_val_exact ⟨h0, h1⟩ hx
    refine ⟨(hle (le_refl (l.PrincipalAmount - l.TotalInvested).val)).1, fun ha => ?_⟩
    exact (hle (by rw [Int64.le_iff]; rw [gt_iff_lt, Int64.lt_iff] at ha; omega)).2

/-- Witness of C4 on the three paths: wrong state (with an amount that also
exceeds the capacity), amount above the capacity, and an accepted amount. -/
theorem C4_addInvestment_witness :
    (NewLoan 1 0 "b" 100 0 0).AddInvestment 500 7 =
      (NewLoan 1 0 "b" 100 0 0, some Error.ErrLoanNotApproved) ∧
    ({ NewLoan 1 0 "b" 100 0 0 with State := LoanStateApproved } : Loan).AddInvestment 101 7 =
      ({ NewLoan 1 0 "b" 100 0 0 with State := LoanStateApproved },
        some Error.ErrInvestmentExceedsLimit) ∧
    ({ NewLoan 1 0 "b" 100 0 0 with State := LoanStateApproved } : Loan).AddInvestment 40 7 =
      ({ NewLoan 1 0 "b" 100 0 0 with
          State := LoanStateApproved, TotalInvested := 0 + 40, UpdatedAt := 7 }, none) :=
  ⟨(C4_addInvestment _ 500 7).1 (by decide),
   (C4_addInvestment _ 101 7).2.1 (by decide) (by decide),
   (C4_addInvestment _ 40 7).2.2.1 (by decide) (by decide)⟩

end DomainClaims

/-! ## The orchestration service (package service) -/

section ServiceClaims

open domain postgres service

/-- C1: in the database reached from the empty one by any finite sequence of
`LoanService` calls (`CreateLoan`, `ApproveLoan`, `AddInvestment`,
`DisburseLoan`, with any arguments and any behaviour of the driver, each
succeeding or failing), every committed loan satisfies
`0 ≤ TotalInvested ≤ PrincipalAmount`. Every prefix of a sequence is a
sequence, so the bounds hold after every call. -/
theorem C1_totalInvested_within_principal (calls : List (Env × Call)) (l : Loan)
    (h : l ∈ (run Tables.empty calls).loans) :
    0 ≤ l.TotalInvested.val ∧ l.TotalInvested.val ≤ l.PrincipalAmount.val :=
  run_bounded calls Tables.empty (fun _ hl => absurd hl (List.not_mem_nil _)) l h

/-- Witness of C1: the loan created with principal 100, approved, and funded
with 60, then (rejected) 50, then 40, is stored with 100 invested of 100. -/
theorem C1_totalInvested_within_principal_witness :
    sampleFunded ∈ (run Tables.empty sampleCalls).loans ∧
    0 ≤ sampleFunded.TotalInvested.val ∧
    sampleFunded.TotalInvested.val ≤ sampleFunded.PrincipalAmount.val :=
  ⟨by decide, C1_totalInvested_within_principal sampleCalls sampleFunded (by decide)⟩

/-- C7: one `LoanService` call, whatever its arguments and outcome, leaves the
committed state of a stored loan as it was or moves it to its successor in
the chain proposed, approved, invested, disbursed; and a disbursed loan is
disbursed after every sequence of calls. -/
theorem C7_state_never_regresses (t : Tables) (id : UUID) (l : Loan)
    (h : t.stored id = some l) :
    (∀ (env : Env) (c : Call), ∃ l1, (exec env t c).tables.stored id = some l1 ∧
      (l1.State = l.State ∨
        (l.State = LoanStateProposed ∧ l1.State = LoanStateApproved) ∨
        (l.State = LoanStateApproved ∧ l1.State = LoanStateInvested) ∨
        (l.State = LoanStateInvested ∧ l1.State = LoanStateDisbursed))) ∧
    (l.State = LoanStateDisbursed → ∀ calls : List (Env × Call),
      ∃ l1, (run t calls).stored id = some l1 ∧ l1.State = LoanStateDisbursed) :=
  ⟨fun env c => exec_state env t c id l h, fun hs calls => run_disbursed calls t id l h hs⟩

/-- Witness of C7: the fully funded loan 1 is disbursed by `DisburseLoan`, a
step from invested to its successor, and stays disbursed under a further
`ApproveLoan`. -/
theorem C7_state_never_regresses_witness :
    sampleInvested.stored 1 = some sampleFunded32 ∧
    (∃ l1, (exec (sampleEnv 4) sampleInvested
        (.DisburseLoan 1 "officer" "agreement.pdf")).tables.stored 1 = some l1 ∧
      (l1.State = sampleFunded32.State ∨
        (sampleFunded32.State = LoanStateProposed ∧ l1.State = LoanStateApproved) ∨
        (sampleFunded32.State = LoanStateApproved ∧ l1.State = LoanStateInvested) ∨
        (sampleFunded32.State = LoanStateInvested ∧ l1.State = LoanStateDisbursed))) :=
  ⟨by decide,
   (C7_state_never_regresses sampleInvested 1 sampleFunded32 (by decide)).1 (sampleEnv 4)
     (.DisburseLoan 1 "officer" "agreement.pdf")⟩

/-- C3: on an approved loan with `0 ≤ TotalInvested < PrincipalAmount` and an
amount with `0 < amount ≤ PrincipalAmount - TotalInvested`, `AddInvestment`
succeeds when the driver does, and whenever it succeeds the committed loan
has the amount added and is invested when the new total equals the
principal, approved when the new total is below it. -/
theorem C3_full_funding_moves_to_invested (env : Env) (t : Tables) (id : UUID)
    (inv : String) (amount : Int64) (l : Loan)
    (hst : t.stored id = some l) (hs : l.State = LoanStateApproved)
    (h0 : 0 ≤ l.TotalInvested.val) (h1 : l.TotalInvested.val < l.PrincipalAmount.val)
    (hpos : 0 < amount.val)
    (ha : amount.val ≤ l.PrincipalAmount.val - l.TotalInvested.val) :
    (env.driver = Driver.ok → (LoanService.AddInvestment env t id inv amount).err = none) ∧
    ((LoanService.AddInvestment env t id inv amount).err = none →
      ∃ l1, (LoanService.AddInvestment env t id inv amount).tables.stored id = some l1 ∧
        (LoanService.AddInvestment env t id inv amount).loan = some l1 ∧
        l1.PrincipalAmount = l.PrincipalAmount ∧
        l1.TotalInvested.val = l.TotalInvested.val + amount.val ∧
        (l1.TotalInvested.val = l1.PrincipalAmount.val → l1.State = LoanStateInvested) ∧
        (l1.TotalInvested.val < l1.PrincipalAmount.val → l1.State = LoanStateApproved)) := by
  have hb : l.Bounded := ⟨h0, by omega⟩
  have hP := l.PrincipalAmount.hi
  have hsub : (l.PrincipalAmount - l.TotalInvested).val =
      l.PrincipalAmount.val - l.TotalInvested.val := by
    rw [Int64.sub_val]; exact wrap64_id _ (by omega) (by omega)
  have hle : amount ≤ l.PrincipalAmount - l.TotalInvested := by
    rw [Int64.le_iff, hsub]; exact ha
  have hadd := (add_val_exact hb hle).2
  constructor
  · intro hd
    exact addInvestment_succeeds hd hst hs (by rw [Int64.lt_iff, Int64.zero_val]; exact hpos) hle
  · intro hok
    obtain ⟨_, _, _, _, hloan⟩ := addInvestment_success hst hok
    obtain ⟨_, _, fP, fT, _, fS⟩ := fundedLoan_fields env l amount
    refine ⟨fundedLoan env l amount, stored_after_addInvestment hst hok, hloan, fP, ?_, ?_, ?_⟩
    · rw [fT, hadd]
    · intro heq
      rw [fT, fP, hadd] at heq
      have : l.PrincipalAmount ≤ l.TotalInvested + amount := by
        rw [Int64.le_iff, hadd]; omega
      rw [fS, if_pos this]
    · intro hlt
      rw [fT, fP, hadd] at hlt
      have : ¬ l.PrincipalAmount ≤ l.TotalInvested + amount := by
        rw [Int64.le_iff, hadd]; omega
      rw [fS, if_neg this, hs]

/-- Witness of C3: investing 100 in the approved loan 1 of principal 100
succeeds. -/
theorem C3_full_funding_moves_to_invested_witness :
    sampleApproved.stored 1 = some sampleApprovedLoan ∧
    (LoanService.AddInvestment (sampleEnv 3) sampleApproved 1 "investor" 100).err = none :=
  ⟨by decide,
   (C3_full_funding_moves_to_invested (sampleEnv 3) sampleApproved 1 "investor" 100
      sampleApprovedLoan (by decide) (by decide) (by decide) (by decide) (by decide)
      (by decide)).1 rfl⟩

/-- C2, as the code has it: on an approved loan with `0 ≤ TotalInvested` and
remaining capacity `R = PrincipalAmount - TotalInvested`, for amounts `a`,
`b` with `0 < a ≤ R`, `0 < b ≤ R` and `a + b > R`, two `AddInvestment` calls
performed one after the other, in either order, never both succeed, whatever
the driver does. With the driver succeeding the first call succeeds and the
second fails and commits nothing: with `ErrInvestmentExceedsLimit` when the
first amount is below `R`, and with `ErrLoanNotApproved` when the first
amount equals `R`, the first call having moved the loan to invested. -/
theorem C2_two_investments_one_success (env1 env2 : Env) (t : Tables) (id : UUID)
    (i1 i2 : String) (a b : Int64) (l : Loan)
    (hst : t.stored id = some l) (hs : l.State = LoanStateApproved)
    (h0 : 0 ≤ l.TotalInvested.val)
    (ha0 : 0 < a.val) (ha : a.val ≤ l.PrincipalAmount.val - l.TotalInvested.val)
    (hb0 : 0 < b.val) (hb : b.val ≤ l.PrincipalAmount.val - l.TotalInvested.val)
    (hab : a.val + b.val > l.PrincipalAmount.val - l.TotalInvested.val) :
    (¬ ((twoInvestments env1 env2 t id i1 a i2 b).1.err = none ∧
        (twoInvestments env1 env2 t id i1 a i2 b).2.err = none) ∧
     (env1.driver = Driver.ok → env2.driver = Driver.ok →
      (twoInvestments env1 env2 t id i1 a i2 b).1.err = none ∧
      (twoInvestments env1 env2 t id i1 a i2 b).2 =
        ⟨(twoInvestments env1 env2 t id i1 a i2 b).1.tables, none, none,
          some (if a.val = l.PrincipalAmount.val - l.TotalInvested.val
            then Error.ErrLoanNotApproved else Error.ErrInvestmentExceedsLimit), none⟩)) ∧
    (¬ ((twoInvestments env1 env2 t id i2 b i1 a).1.err = none ∧
        (twoInvestments env1 env2 t id i2 b i1 a).2.err = none) ∧
     (env1.driver = Driver.ok → env2.driver = Driver.ok →
      (twoInvestments env1 env2 t id i2 b i1 a).1.err = none ∧
      (twoInvestments env1 env2 t id i2 b i1 a).2 =
        ⟨(twoInvestments env1 env2 t id i2 b i1 a).1.tables, none, none,
          some (if b.val = l.PrincipalAmount.val - l.TotalInvested.val
            then Error.ErrLoanNotApproved else Error.ErrInvestmentExceedsLimit), none⟩)) :=
  ⟨two_investments_ordered env1 env2 t id i1 i2 a b l hst hs h0 ha0 ha hb0 hab,
   two_investments_ordered env1 env2 t id i2 i1 b a l hst hs h0 hb0 hb ha0 (by omega)⟩

/-- Witness of C2 as amended: 60 and 50 on the approved loan 1 of principal
100; the first is accepted, the second exceeds the limit. -/
theorem C2_two_investments_one_success_witness :
    sampleApproved.stored 1 = some sampleApprovedLoan ∧
    (twoInvestments (sampleEnv 3) (sampleEnv 4) sampleApproved 1 "x" 60 "y" 50).1.err = none ∧
    (twoInvestments (sampleEnv 3) (sampleEnv 4) sampleApproved 1 "x" 60 "y" 50).2.err =
      some Error.ErrInvestmentExceedsLimit :=
  ⟨by decide,
   ((C2_two_investments_one_success (sampleEnv 3) (sampleEnv 4) sampleApproved 1 "x" "y" 60 50
      sampleApprovedLoan (by decide) (by decide) (by decide) (by decide) (by decide)
      (by decide) (by decide) (by decide)).1.2 rfl rfl).1,
   by decide⟩

/-- Counterexample to C2 as stated: the approved loan 1 has remaining capacity
100; the amounts 100 and 50 each fit and together exceed it. `AddInvestment`
of 100 succeeds and moves the loan to invested, and the following
`AddInvestment` of 50 fails with `ErrLoanNotApproved`, not with
`ErrInvestmentExceedsLimit`. -/
theorem C2_counterexample :
    sampleApproved.stored 1 = some sampleApprovedLoan ∧
    sampleApprovedLoan.State = LoanStateApproved ∧
    sampleApprovedLoan.PrincipalAmount.val - sampleApprovedLoan.TotalInvested.val = 100 ∧
    (0 < (100 : Int64).val ∧ (100 : Int64).val ≤ 100) ∧
    (0 < (50 : Int64).val ∧ (50 : Int64).val ≤ 100) ∧
    (100 : Int64).val + (50 : Int64).val > 100 ∧
    (twoInvestments (sampleEnv 3) (sampleEnv 4) sampleApproved 1 "x" 100 "y" 50).1.err = none ∧
    (twoInvestments (sampleEnv 3) (sampleEnv 4) sampleApproved 1 "x" 100 "y" 50).2.err =
      some Error.ErrLoanNotApproved ∧
    (twoInvestments (sampleEnv 3) (sampleEnv 4) sampleApproved 1 "x" 100 "y" 50).2.err ≠
      some Error.ErrInvestmentExceedsLimit := by
  decide

/-- C9: with the driver succeeding, `ApproveLoan` on a stored proposed loan
succeeds; the committed loan is the one read with `State` approved (and
`UpdatedAt` set), so `TotalInvested`, `PrincipalAmount` and
`AgreementLetterURL` are unchanged; the approvals table gains exactly one
row, carrying the loan id, the validator id and the proof reference; the
other tables are unchanged. -/
theorem C9_approve_proposed (env : Env) (t : Tables) (id : UUID) (fv pp : String) (l : Loan)
    (hd : env.driver = Driver.ok) (hst : t.stored id = some l)
    (hs : l.State = LoanStateProposed) :
    (LoanService.ApproveLoan env t id fv pp).err = none ∧
    (∃ l1, (LoanService.ApproveLoan env t id fv pp).tables.stored id = some l1 ∧
      (LoanService.ApproveLoan env t id fv pp).loan = some l1 ∧
      l1 = { l with State := LoanStateApproved, UpdatedAt := env.now 0 } ∧
      l1.State = LoanStateApproved ∧ l1.TotalInvested = l.TotalInvested ∧
      l1.PrincipalAmount = l.PrincipalAmount ∧
      l1.AgreementLetterURL = l.AgreementLetterURL) ∧
    (LoanService.ApproveLoan env t id fv pp).tables.approvals =
      t.approvals ++ [⟨env.newID, id, fv, pp, env.now 1⟩] ∧
    (LoanService.ApproveLoan env t id fv pp).tables.investments = t.investments ∧
    (LoanService.ApproveLoan env t id fv pp).tables.disbursements = t.disbursements := by
  have hfn := approveLoan_fn_ok env fv pp none hd hst hs
  have hout : LoanService.ApproveLoan env t id fv pp =
      ⟨{ (LoanRepository.Update Driver.ok t
            { l with State := LoanStateApproved, UpdatedAt := env.now 0 }).1 with
          approvals := t.approvals ++ [NewApproval env.newID (env.now 1) id fv pp] },
        some { l with State := LoanStateApproved, UpdatedAt := env.now 0 },
        none, none, none⟩ := by
    unfold LoanService.ApproveLoan
    rw [withTransaction_commits env.driver t none _ (by rw [hd]; rfl) (by rw [hd]; rfl)
      (by rw [hfn]), hfn]
  have hu := update_other Driver.ok t
    { l with State := LoanStateApproved, UpdatedAt := env.now 0 }
  rw [hout]
  refine ⟨rfl, ⟨_, ?_, rfl, rfl, rfl, rfl, rfl, rfl⟩, rfl, ?_, ?_⟩
  · exact stored_update_self { l with State := LoanStateApproved, UpdatedAt := env.now 0 }
      hst rfl rfl
  · exact hu.2.1
  · exact hu.2.2

/-- Witness of C9: approving the proposed loan 1. -/
theorem C9_approve_proposed_witness :
    sampleProposed.stored 1 = some (NewLoan 1 10 "borrower" 100 0 0) ∧
    (LoanService.ApproveLoan (sampleEnv 2) sampleProposed 1 "validator" "proof.jpg").err = none ∧
    (LoanService.ApproveLoan (sampleEnv 2) sampleProposed 1 "validator"
        "proof.jpg").tables.approvals = [⟨2, 1, "validator", "proof.jpg", 21⟩] :=
  ⟨by decide,
   (C9_approve_proposed (sampleEnv 2) sampleProposed 1 "validator" "proof.jpg"
      (NewLoan 1 10 "borrower" 100 0 0) rfl (by decide) (by decide)).1,
   (C9_approve_proposed (sampleEnv 2) sampleProposed 1 "validator" "proof.jpg"
      (NewLoan 1 10 "borrower" 100 0 0) rfl (by decide) (by decide)).2.2.1⟩

/-- C11: with the driver succeeding, `DisburseLoan` on a stored invested loan
succeeds; the committed loan is the one read with `State` disbursed,
`AgreementLetterURL` the signed agreement reference (and `UpdatedAt` set), so
`TotalInvested` and `PrincipalAmount` are unchanged; the disbursements table
gains exactly one row, carrying the loan id, the officer id and the signed
agreement reference; the other tables are unchanged. -/
theorem C11_disburse_invested (env : Env) (t : Tables) (id : UUID) (fo url : String)
    (l : Loan) (hd : env.driver = Driver.ok) (hst : t.stored id = some l)
    (hs : l.State = LoanStateInvested) :
    (LoanService.DisburseLoan env t id fo url).err = none ∧
    (∃ l1, (LoanService.DisburseLoan env t id fo url).tables.stored id = some l1 ∧
      (LoanService.DisburseLoan env t id fo url).loan = some l1 ∧
      l1 = { l with
        State := LoanStateDisbursed
        UpdatedAt := env.now 0
        AgreementLetterURL := some url } ∧
      l1.State = LoanStateDisbursed ∧ l1.AgreementLetterURL = some url ∧
      l1.TotalInvested = l.TotalInvested ∧ l1.PrincipalAmount = l.PrincipalAmount) ∧
    (LoanService.DisburseLoan env t id fo url).tables.disbursements =
      t.disbursements ++ [⟨env.newID, id, fo, url, env.now 1⟩] ∧
    (LoanService.DisburseLoan env t id fo url).tables.approvals = t.approvals ∧
    (LoanService.DisburseLoan env t id fo url).tables.investments = t.investments := by
  have hok := disburseLoan_succeeds env fo url hd hst hs
  rcases disburseLoan_outcome env t id fo url with ⟨e, he⟩ | ⟨l0, hst0, _, _, _, _, _, _, hout⟩
  · rw [he] at hok; simp at hok
  · rw [hst] at hst0
    cases hst0
    have hu := update_other Driver.ok t
      { l with
        State := LoanStateDisbursed
        UpdatedAt := env.now 0
        AgreementLetterURL := some url }
    rw [hout]
    refine ⟨rfl, ⟨_, ?_, rfl, rfl, rfl, rfl, rfl, rfl⟩, rfl, hu.1, hu.2.1⟩
    exact stored_update_self
      { l with
        State := LoanStateDisbursed
        UpdatedAt := env.now 0
        AgreementLetterURL := some url }
      hst rfl rfl

/-- Witness of C11: disbursing the fully funded loan 1. -/
theorem C11_disburse_invested_witness :
    sampleInvested.stored 1 = some sampleFunded32 ∧
    (LoanService.DisburseLoan (sampleEnv 4) sampleInvested 1 "officer"
        "agreement.pdf").err = none ∧
    (LoanService.DisburseLoan (sampleEnv 4) sampleInvested 1 "officer"
        "agreement.pdf").tables.disbursements =
      [⟨4, 1, "officer", "agreement.pdf", 41⟩] :=
  ⟨by decide,
   (C11_disburse_invested (sampleEnv 4) sampleInvested 1 "officer" "agreement.pdf"
      sampleFunded32 rfl (by decide) (by decide)).1,
   (C11_disburse_invested (sampleEnv 4) sampleInvested 1 "officer" "agreement.pdf"
      sampleFunded32 rfl (by decide) (by decide)).2.2.1⟩

/-- C12: for every amount `≤ 0`, `AddInvestment` returns `ErrInvalidAmount`
and makes no gateway call, and for every principal `≤ 0`, `CreateLoan`
returns `ErrInvalidAmount` and makes no gateway call: no transaction is
begun, nothing is read, locked or written, the database is the one before the
call, in every environment and on every database, whatever the loan id and
whether the loan exists. The functions with the call log return what
`AddInvestment` and `CreateLoan` return, and the log is not idle: with a
positive amount `AddInvestment` first begins a transaction, with a positive
principal `CreateLoan` makes the one insert. -/
theorem C12_non_positive_rejected_first (env : Env) (t : Tables) :
    (∀ (id : UUID) (inv : String) (amount : Int64), amount ≤ 0 →
      LoanService.AddInvestment.logged env t id inv amount =
        (⟨t, none, none, some Error.ErrInvalidAmount, none⟩, [])) ∧
    (∀ (b : String) (p : Int64) (rate roi : Float64), p ≤ 0 →
      LoanService.CreateLoan.logged env t b p rate roi =
        (⟨t, none, none, some Error.ErrInvalidAmount, none⟩, [])) ∧
    (∀ (id : UUID) (inv : String) (amount : Int64),
      (LoanService.AddInvestment.logged env t id inv amount).1 =
        LoanService.AddInvestment env t id inv amount) ∧
    (∀ (b : String) (p : Int64) (rate roi : Float64),
      (LoanService.CreateLoan.logged env t b p rate roi).1 =
        LoanService.CreateLoan env t b p rate roi) ∧
    (∀ (id : UUID) (inv : String) (amount : Int64), 0 < amount →
      (LoanService.AddInvestment.logged env t id inv amount).2.head? =
        some GatewayCall.begin) ∧
    (∀ (b : String) (p : Int64) (rate roi : Float64), 0 < p →
      (LoanService.CreateLoan.logged env t b p rate roi).2 =
        [GatewayCall.loanCreate (NewLoan env.newID (env.now 0) b p rate roi)]) ∧
    (∀ (id : UUID) (inv : String) (amount : Int64), amount ≤ 0 →
      LoanService.AddInvestment env t id inv amount =
        ⟨t, none, none, some Error.ErrInvalidAmount, none⟩) ∧
    (∀ (b : String) (p : Int64) (rate roi : Float64), p ≤ 0 →
      LoanService.CreateLoan env t b p rate roi =
        ⟨t, none, none, some Error.ErrInvalidAmount, none⟩) := by
  refine ⟨?_, ?_, addInvestment_logged_fst env t, createLoan_logged_fst env t,
    addInvestment_logged_begins env t, createLoan_logged_calls env t, ?_, ?_⟩
  · intro id inv amount h
    unfold LoanService.AddInvestment.logged
    rw [if_pos h]
  · intro b p rate roi h
    unfold LoanService.CreateLoan.logged
    rw [if_pos h]
  · intro id inv amount h
    unfold LoanService.AddInvestment
    rw [if_pos h]
  · intro b p rate roi h
    unfold LoanService.CreateLoan
    rw [if_pos h]

/-- Witness of C12: investing 0 in the approved loan 1 and creating a loan of
principal 0 make no gateway call, with a driver that fails every statement as
with one that succeeds; investing 40 in the approved loan 1 begins a
transaction, reads the loan under lock, inserts the investment, updates the
loan and commits. -/
theorem C12_non_positive_rejected_first_witness :
    LoanService.AddInvestment.logged failingEnv sampleApproved 1 "x" 0 =
      (⟨sampleApproved, none, none, some Error.ErrInvalidAmount, none⟩, []) ∧
    LoanService.CreateLoan.logged failingEnv sampleApproved "borrower" 0 0 0 =
      (⟨sampleApproved, none, none, some Error.ErrInvalidAmount, none⟩, []) ∧
    (LoanService.AddInvestment.logged (sampleEnv 3) sampleApproved 1 "x" 0).2 = [] ∧
    (LoanService.AddInvestment.logged (sampleEnv 3) sampleApproved 1 "x" 40).2 =
      [ GatewayCall.begin, GatewayCall.loanGetByIDForUpdate 1,
        GatewayCall.investmentCreate (NewInvestment 3 31 1 "x" 40),
        GatewayCall.loanUpdate
          { sampleApprovedLoan with
            TotalInvested := 40
            UpdatedAt := 30 },
        GatewayCall.commit ] :=
  ⟨(C12_non_positive_rejected_first failingEnv sampleApproved).1 1 "x" 0 (by decide),
   (C12_non_positive_rejected_first failingEnv sampleApproved).2.1 "borrower" 0 0 0
     (by decide),
   by decide, by decide⟩

/-- C13: for a principal above zero and an insert that succeeds, `CreateLoan`
returns the new loan and appends it, and nothing else, to the loans table; the
loan is proposed, has `TotalInvested` 0 and no agreement reference, and its
`BorrowerID`, `PrincipalAmount`, `Rate` and `ROI` are the arguments. When no
row had the new id before, `GetLoan` with that id afterwards, its read
succeeding, returns that same loan. -/
theorem C13_create_then_fetch (env : Env) (t : Tables) (b : String) (p : Int64)
    (rate roi : Float64) (hp : 0 < p) (hi : env.driver.insertErr = none) :
    (LoanService.CreateLoan env t b p rate roi).err = none ∧
    (∃ l, (LoanService.CreateLoan env t b p rate roi).loan = some l ∧
      (LoanService.CreateLoan env t b p rate roi).tables =
        { t with loans := t.loans ++ [l] } ∧
      l.ID = env.newID ∧ l.State = LoanStateProposed ∧ l.TotalInvested.val = 0 ∧
      l.AgreementLetterURL = none ∧ l.BorrowerID = b ∧ l.PrincipalAmount = p ∧
      l.Rate = rate ∧ l.ROI = roi ∧
      (t.stored env.newID = none → ∀ env2 : Env, env2.driver.scanErr = none →
        LoanService.GetLoan env2 (LoanService.CreateLoan env t b p rate roi).tables
          env.newID = .ok l)) := by
  rcases createLoan_outcome env t b p rate roi with ⟨e, he⟩ | ⟨_, _, hout⟩
  · exfalso
    unfold LoanService.CreateLoan LoanRepository.Create at he
    have hp2 : ¬ p ≤ 0 := by
      rw [Int64.lt_iff] at hp; rw [Int64.le_iff]; omega
    rw [if_neg hp2, hi] at he
    simp at he
  · rw [hout]
    refine ⟨rfl, NewLoan env.newID (env.now 0) b p rate roi, rfl, rfl, rfl, rfl,
      Int64.zero_val, rfl, rfl, rfl, rfl, rfl, ?_⟩
    intro hfresh env2 hsc
    unfold LoanService.GetLoan LoanRepository.GetByID LoanRepository.scanLoan
    rw [hsc]
    have hst : ({ t with loans := t.loans ++
        [NewLoan env.newID (env.now 0) b p rate roi] } : Tables).stored env.newID =
        some (NewLoan env.newID (env.now 0) b p rate roi) := by
      unfold Tables.stored at hfresh ⊢
      simp only [List.find?_append, hfresh]
      simp [NewLoan]
    rw [hst]

/-- Witness of C13: creating the loan of principal 100 in the empty database
and fetching it. -/
theorem C13_create_then_fetch_witness :
    (LoanService.CreateLoan (sampleEnv 1) Tables.empty "borrower" 100 0 0).err = none ∧
    LoanService.GetLoan (sampleEnv 2)
      (LoanService.CreateLoan (sampleEnv 1) Tables.empty "borrower" 100 0 0).tables 1 =
      .ok (NewLoan 1 10 "borrower" 100 0 0) :=
  ⟨(C13_create_then_fetch (sampleEnv 1) Tables.empty "borrower" 100 0 0 (by decide) rfl).1,
   rfl⟩

/-- C14, as the code has it: a create request with principal 100 and
`rate < 0` or `roi < 0` is rejected by the boundary layer,
`LoanHandler.CreateLoan`, with status 400 and code `VALIDATION_ERROR`, in
every environment and with the database unchanged, before the service is
called. `LoanService.CreateLoan` itself checks the principal only: called
with such a rate or roi, and its insert succeeding, it persists and returns
the loan with the rate and roi as given. -/
theorem C14_negative_rate_rejected_at_boundary (env : Env) (t : Tables) (b : String)
    (rate roi : Float64) (h : rate < 0 ∨ roi < 0) :
    (∃ msg, handler.CreateLoan env t (some ⟨b, 100, rate, roi⟩) =
      (handler.WriteError 400 "VALIDATION_ERROR" msg, t)) ∧
    (env.driver.insertErr = none →
      LoanService.CreateLoan env t b 100 rate roi =
        ⟨{ t with loans := t.loans ++ [NewLoan env.newID (env.now 0) b 100 rate roi] },
          some (NewLoan env.newID (env.now 0) b 100 rate roi), none, none, none⟩) := by
  constructor
  · have hne : handler.validateCreateLoanRequest ⟨b, 100, rate, roi⟩ ≠ [] := by
      unfold handler.validateCreateLoanRequest
      rcases h with h | h
      · simp only [ne_eq, List.append_eq_nil, not_and]
        intro h1 _
        have h3 := h1.2
        rw [if_pos (Or.inr (not_le.mpr h))] at h3
        exact absurd h3 (by simp)
      · simp only [ne_eq, List.append_eq_nil, not_and]
        intro _ h4
        rw [if_pos (Or.inr (not_le.mpr h))] at h4
        exact absurd h4 (by simp)
    unfold handler.CreateLoan
    simp only
    rw [if_pos hne]
    exact ⟨_, rfl⟩
  · intro hi
    rcases createLoan_outcome env t b 100 rate roi with ⟨e, he⟩ | ⟨_, _, hout⟩
    · exfalso
      unfold LoanService.CreateLoan LoanRepository.Create at he
      have hp2 : ¬ (100 : Int64) ≤ 0 := by decide
      rw [if_neg hp2, hi] at he
      simp at he
    · exact hout

/-- Witness of C14 as amended: the request with rate -1 is answered with 400
and the database stays empty. -/
theorem C14_negative_rate_rejected_at_boundary_witness :
    ((-1 : Float64) < 0 ∨ (5 : Float64) < 0) ∧
    ∃ msg, handler.CreateLoan (sampleEnv 1) Tables.empty (some ⟨"borrower", 100, -1, 5⟩) =
      (handler.WriteError 400 "VALIDATION_ERROR" msg, Tables.empty) :=
  ⟨Or.inl (by decide),
   (C14_negative_rate_rejected_at_boundary (sampleEnv 1) Tables.empty "borrower" (-1) 5
      (Or.inl (by decide))).1⟩

/-- Counterexample to C14 as stated: `LoanService.CreateLoan` with principal
100, rate -1 and roi -1 on the empty database succeeds and writes the loan,
with rate -1 and roi -1, to the loans table. -/
theorem C14_counterexample :
    ((-1 : Float64) < 0) ∧
    (LoanService.CreateLoan (sampleEnv 1) Tables.empty "borrower" 100 (-1) (-1)).err = none ∧
    (LoanService.CreateLoan (sampleEnv 1) Tables.empty "borrower" 100 (-1) (-1)).tables.loans =
      [NewLoan 1 10 "borrower" 100 (-1) (-1)] := by
  decide

/-- C16, as the code has it: when the transaction has begun and the unit of
work fails with `e`, `WithTransaction` returns `e` itself if the rollback
succeeds; if the rollback fails it returns a new error, formatted from the
messages of `e` and of the rollback error, which does not wrap `e`, so that
`errors.Is` no longer finds `e` in it (for every `e` not itself built by
`fmt.Errorf` without `%w`). It returns nil exactly when the transaction
began, the unit of work returned nil and the commit succeeded; whenever it
returns an error the committed database is the one before the call. -/
theorem C16_withTransaction_error (σ : Type) (d : Driver) (t : Tables) (v : σ)
    (fn : Tables → σ → Tables × σ × Option Error) :
    (∀ e, d.beginErr = none → (fn t v).2.2 = some e → d.rollbackErr = none →
      (WithTransaction d t v fn).2.2 = some e) ∧
    (∀ e rb, d.beginErr = none → (fn t v).2.2 = some e → d.rollbackErr = some rb →
      (WithTransaction d t v fn).2.2 =
        some (Error.errorf ("tx err: " ++ e.message ++ ", rollback err: " ++ rb)) ∧
      ((∀ m, e ≠ Error.errorf m) →
        (Error.errorf ("tx err: " ++ e.message ++ ", rollback err: " ++ rb)).Is e = false)) ∧
    ((WithTransaction d t v fn).2.2 = none ↔
      d.beginErr = none ∧ (fn t v).2.2 = none ∧ d.commitErr = none) ∧
    ((WithTransaction d t v fn).2.2 ≠ none → (WithTransaction d t v fn).1 = t) := by
  refine ⟨?_, ?_, ?_, ?_⟩
  · intro e hb hf hr
    rw [withTransaction_fails d t v fn e hb hr hf]
  · intro e rb hb hf hr
    constructor
    · unfold WithTransaction
      rcases hfn : fn t v with ⟨t1, v1, e1⟩
      rw [hfn] at hf
      simp only at hf
      subst hf
      simp [hb, hr]
    · intro hne
      unfold Error.Is
      simpa using fun h => hne _ h.symm
  · constructor
    · intro h
      rcases withTransaction_cases d t v fn with ⟨hne, _⟩ | ⟨hf, hb, hc, _⟩
      · exact absurd h hne
      · exact ⟨hb, hf, hc⟩
    · rintro ⟨hb, hf, hc⟩
      rw [withTransaction_commits d t v fn hb hc hf]
  · intro hne
    rcases withTransaction_cases d t v fn with ⟨_, ht⟩ | ⟨_, _, _, hw⟩
    · exact ht
    · rw [hw] at hne; exact absurd rfl hne

/-- Witness of C16 as amended: with the rollback succeeding, the closure of
`AddInvestment` for 101 on the approved loan 1 fails with
`ErrInvestmentExceedsLimit` and `WithTransaction` returns that error. -/
theorem C16_withTransaction_error_witness :
    (WithTransaction Driver.ok sampleApproved (none, none)
      (LoanService.AddInvestment.fn (sampleEnv 3) 1 "x" 101)).2.2 =
        some Error.ErrInvestmentExceedsLimit :=
  (C16_withTransaction_error (Option Loan × Option Investment) Driver.ok sampleApproved
    (none, none) (LoanService.AddInvestment.fn (sampleEnv 3) 1 "x" 101)).1
    Error.ErrInvestmentExceedsLimit rfl (by decide) rfl

/-- Counterexample to C16 as stated: the closure of `AddInvestment` for 101 on
the approved loan 1 fails with `ErrInvestmentExceedsLimit`; with a rollback
that fails, `WithTransaction` returns another error, in which `errors.Is` does
not find `ErrInvestmentExceedsLimit`. -/
theorem C16_counterexample :
    (LoanService.AddInvestment.fn (sampleEnvWith rollbackFailingDriver 3) 1 "x" 101
      sampleApproved (none, none)).2.2 = some Error.ErrInvestmentExceedsLimit ∧
    (WithTransaction rollbackFailingDriver sampleApproved (none, none)
      (LoanService.AddInvestment.fn (sampleEnvWith rollbackFailingDriver 3) 1 "x" 101)).2.2 =
        some (Error.errorf
          "tx err: investment amount exceeds remaining principal, rollback err: connection lost") ∧
    (WithTransaction rollbackFailingDriver sampleApproved (none, none)
      (LoanService.AddInvestment.fn (sampleEnvWith rollbackFailingDriver 3) 1 "x" 101)).2.2 ≠
        some Error.ErrInvestmentExceedsLimit ∧
    (Error.errorf
      "tx err: investment amount exceeds remaining principal, rollback err: connection lost").Is
        Error.ErrInvestmentExceedsLimit = false := by
  decide

/-- C15: for `ApproveLoan`, `AddInvestment` and `DisburseLoan` alike: a
failing locked read, loan update or insert makes the closure run in the
transaction return an error, as a rejecting domain guard does; whenever the
closure returns an error the operation returns an error; and whenever the
operation returns an error, from whichever step, the committed database
(loans, approvals, investments, disbursements) is exactly the one before the
call. -/
theorem C15_unit_of_work_atomic (env : Env) (t : Tables) :
    (∀ (id : UUID) (fv pp : String),
      ((env.driver.scanErr ≠ none ∨ env.driver.updateErr ≠ none ∨
          env.driver.insertErr ≠ none) →
        (LoanService.ApproveLoan.fn env id fv pp t none).2.2 ≠ none) ∧
      ((LoanService.ApproveLoan.fn env id fv pp t none).2.2 ≠ none →
        (LoanService.ApproveLoan env t id fv pp).err ≠ none) ∧
      ((LoanService.ApproveLoan env t id fv pp).err ≠ none →
        (LoanService.ApproveLoan env t id fv pp).tables = t)) ∧
    (∀ (id : UUID) (inv : String) (amount : Int64),
      ((env.driver.scanErr ≠ none ∨ env.driver.updateErr ≠ none ∨
          env.driver.insertErr ≠ none) →
        (LoanService.AddInvestment.fn env id inv amount t (none, none)).2.2 ≠ none) ∧
      ((LoanService.AddInvestment.fn env id inv amount t (none, none)).2.2 ≠ none →
        (LoanService.AddInvestment env t id inv amount).err ≠ none) ∧
      ((LoanService.AddInvestment env t id inv amount).err ≠ none →
        (LoanService.AddInvestment env t id inv amount).tables = t)) ∧
    (∀ (id : UUID) (fo url : String),
      ((env.driver.scanErr ≠ none ∨ env.driver.updateErr ≠ none ∨
          env.driver.insertErr ≠ none) →
        (LoanService.DisburseLoan.fn env id fo url t none).2.2 ≠ none) ∧
      ((LoanService.DisburseLoan.fn env id fo url t none).2.2 ≠ none →
        (LoanService.DisburseLoan env t id fo url).err ≠ none) ∧
      ((LoanService.DisburseLoan env t id fo url).err ≠ none →
        (LoanService.DisburseLoan env t id fo url).tables = t)) := by
  refine ⟨fun id fv pp => ⟨?_, ?_, ?_⟩, fun id inv amount => ⟨?_, ?_, ?_⟩,
    fun id fo url => ⟨?_, ?_, ?_⟩⟩
  · intro hd hnone
    obtain ⟨_, _, _, h1, h2, h3, _⟩ := approveLoan_fn_none env id fv pp t none hnone
    rcases hd with h | h | h
    · exact h h1
    · exact h h2
    · exact h h3
  · intro hfn
    rw [approveLoan_err]
    rcases withTransaction_cases env.driver t none (LoanService.ApproveLoan.fn env id fv pp)
      with ⟨h, _⟩ | ⟨h, _⟩
    · exact h
    · exact absurd h hfn
  · intro herr
    rcases approveLoan_outcome env t id fv pp with ⟨e, he⟩ | ⟨_, _, _, _, _, _, _, _, he⟩
    · rw [he]
    · rw [he] at herr; exact absurd rfl herr
  · intro hd hnone
    obtain ⟨h1, h3, h2⟩ := addInvestment_fn_driver env id inv amount t (none, none) hnone
    rcases hd with h | h | h
    · exact h h1
    · exact h h2
    · exact h h3
  · intro hfn
    by_cases hp : amount ≤ 0
    · unfold LoanService.AddInvestment
      rw [if_pos hp]
      simp
    · have hpos : 0 < amount := by
        rw [Int64.le_iff] at hp
        rw [Int64.lt_iff]
        exact not_le.mp hp
      rw [addInvestment_err env t id inv amount hpos]
      rcases withTransaction_cases env.driver t (none, none)
        (LoanService.AddInvestment.fn env id inv amount) with ⟨h, _⟩ | ⟨h, _⟩
      · exact h
      · exact absurd h hfn
  · intro herr
    rcases addInvestment_outcome env t id inv amount with ⟨e, he⟩ |
      ⟨_, _, _, _, _, _, _, _, _, _, he⟩
    · rw [he]
    · rw [he] at herr; exact absurd rfl herr
  · intro hd hnone
    obtain ⟨_, _, _, h1, h2, h3, _⟩ := disburseLoan_fn_none env id fo url t none hnone
    rcases hd with h | h | h
    · exact h h1
    · exact h h2
    · exact h h3
  · intro hfn
    rw [disburseLoan_err]
    rcases withTransaction_cases env.driver t none (LoanService.DisburseLoan.fn env id fo url)
      with ⟨h, _⟩ | ⟨h, _⟩
    · exact h
    · exact absurd h hfn
  · intro herr
    rcases disburseLoan_outcome env t id fo url with ⟨e, he⟩ | ⟨_, _, _, _, _, _, _, _, he⟩
    · rw [he]
    · rw [he] at herr; exact absurd rfl herr

/-- Witness of C15: `AddInvestment` of 40 in the approved loan 1 with a driver
whose `UPDATE` fails: the closure has inserted the investment in the
transaction, the operation returns an error, and the committed database, its
empty investments table included, is the one before the call. -/
theorem C15_unit_of_work_atomic_witness :
    (LoanService.AddInvestment.fn (sampleEnvWith updateFailingDriver 3) 1 "x" 40
      sampleApproved (none, none)).1.investments = [NewInvestment 3 31 1 "x" 40] ∧
    (LoanService.AddInvestment (sampleEnvWith updateFailingDriver 3) sampleApproved 1 "x"
      40).err ≠ none ∧
    (LoanService.AddInvestment (sampleEnvWith updateFailingDriver 3) sampleApproved 1 "x"
      40).tables = sampleApproved ∧
    sampleApproved.investments = [] :=
  ⟨by decide,
   ((C15_unit_of_work_atomic (sampleEnvWith updateFailingDriver 3) sampleApproved).2.1
      1 "x" 40).2.1
     (((C15_unit_of_work_atomic (sampleEnvWith updateFailingDriver 3) sampleApproved).2.1
      1 "x" 40).1 (Or.inr (Or.inl (by decide)))),
   ((C15_unit_of_work_atomic (sampleEnvWith updateFailingDriver 3) sampleApproved).2.1
      1 "x" 40).2.2 (by decide),
   by decide⟩

/-- C17, as the code has it: on a loan with `TotalInvested ≤ PrincipalAmount`,
a successful `AddInvestment` of an amount `≥ 0` leaves `TotalInvested` at the
old value plus the amount, hence not below the old value. -/
theorem C17_totalInvested_monotone (l : Loan) (amount : Int64) (now : Time)
    (h1 : l.TotalInvested.val ≤ l.PrincipalAmount.val)
    (ha : 0 ≤ amount.val) (hok : (l.AddInvestment amount now).2 = none) :
    (l.AddInvestment amount now).1.TotalInvested.val = l.TotalInvested.val + amount.val ∧
    l.TotalInvested.val ≤ (l.AddInvestment amount now).1.TotalInvested.val := by
  rcases addInvestment_cases l amount now with ⟨e, h⟩ | ⟨_, hle, h⟩
  · rw [h] at hok; simp at hok
  · rw [h]
    have hP := l.PrincipalAmount.hi
    have hP0 := l.PrincipalAmount.lo
    have hT := l.TotalInvested.lo
    have hT1 := l.TotalInvested.hi
    have hA := amount.hi
    rw [Int64.le_iff, Int64.sub_val] at hle
    have hadd : (l.TotalInvested + amount).val = l.TotalInvested.val + amount.val := by
      rw [Int64.add_val]
      unfold wrap64 at hle ⊢
      omega
    constructor
    · exact hadd
    · show l.TotalInvested.val ≤ (l.TotalInvested + amount).val
      rw [hadd]
      omega

/-- Witness of C17 as amended: adding 40 to the approved loan with 50 of 100
invested. -/
theorem C17_totalInvested_monotone_witness :
    (sampleHalfFunded.AddInvestment 40 7).2 = none ∧
    sampleHalfFunded.TotalInvested.val ≤
      (sampleHalfFunded.AddInvestment 40 7).1.TotalInvested.val :=
  ⟨by decide,
   (C17_totalInvested_monotone sampleHalfFunded 40 7 (by decide) (by decide)
      (by decide)).2⟩

/-- Counterexample to C17 as stated. On the approved loan with 50 of 100
invested, `AddInvestment` of -10 succeeds and leaves 40 invested: the method
does not look at the sign of the amount. And on an approved loan whose total
exceeds its principal, with the least `int64` as principal and the greatest
as total invested, `AddInvestment` of 1 succeeds, both `int64` operations wrapping,
and leaves the least `int64` invested. -/
theorem C17_counterexample :
    ((sampleHalfFunded.AddInvestment (Int64.ofInt (-10)) 7).2 = none ∧
      (sampleHalfFunded.AddInvestment (Int64.ofInt (-10)) 7).1.TotalInvested.val = 40 ∧
      sampleHalfFunded.TotalInvested.val = 50 ∧
      ¬ (sampleHalfFunded.AddInvestment (Int64.ofInt (-10)) 7).1.TotalInvested ≥
        sampleHalfFunded.TotalInvested) ∧
    ((sampleOutOfBounds.AddInvestment 1 7).2 = none ∧
      (sampleOutOfBounds.AddInvestment 1 7).1.TotalInvested.val = -9223372036854775808 ∧
      sampleOutOfBounds.TotalInvested.val = 9223372036854775807 ∧
      ¬ (sampleOutOfBounds.AddInvestment 1 7).1.TotalInvested ≥
        sampleOutOfBounds.TotalInvested) := by
  decide

/-- C18: in every database reached from the empty one by `LoanService` calls
(`CreateLoan`, `ApproveLoan`, `AddInvestment`, `DisburseLoan`, in any order,
with any arguments and any behaviour of the driver), every loan id, hence
every loan, has at most one approval row and at most one disbursement
row. -/
theorem C18_one_approval_one_disbursement (calls : List (Env × Call)) (id : UUID) :
    ((run Tables.empty calls).approvals.filter (fun a => a.LoanID == id)).length ≤ 1 ∧
    ((run Tables.empty calls).disbursements.filter (fun a => a.LoanID == id)).length ≤ 1 :=
  ⟨((run_oneRecordEach calls Tables.empty oneRecordEach_empty) id).1.1,
   ((run_oneRecordEach calls Tables.empty oneRecordEach_empty) id).2.1⟩

/-- C19: in every database reached from the empty one by `LoanService` calls,
a loan row has an agreement reference exactly when its state is disbursed;
and one further call leaves the agreement reference of a stored loan as it
was, unless the call is a `DisburseLoan` of that loan that succeeds, which
sets it to the signed agreement reference. -/
theorem C19_agreement_only_at_disbursement (calls : List (Env × Call)) :
    (∀ l ∈ (run Tables.empty calls).loans,
      (l.AgreementLetterURL ≠ none ↔ l.State = LoanStateDisbursed)) ∧
    (∀ (env : Env) (c : Call) (id : UUID) (l : Loan),
      (run Tables.empty calls).stored id = some l →
      ∃ l1, (exec env (run Tables.empty calls) c).tables.stored id = some l1 ∧
        (l1.AgreementLetterURL = l.AgreementLetterURL ∨
          ∃ fo url, c = .DisburseLoan id fo url ∧
            (exec env (run Tables.empty calls) c).err = none ∧
            l1.AgreementLetterURL = some url)) :=
  ⟨run_agreement calls Tables.empty (fun _ hl => absurd hl (List.not_mem_nil _)),
   fun env c id l hst => exec_agreement_change env (run Tables.empty calls) c id l hst⟩

/-- Witness of C19: after the calls that create, approve and fund the loan 1,
its row is invested and has no agreement reference. -/
theorem C19_agreement_only_at_disbursement_witness :
    sampleFunded ∈ (run Tables.empty sampleCalls).loans ∧
    (sampleFunded.AgreementLetterURL ≠ none ↔ sampleFunded.State = LoanStateDisbursed) :=
  ⟨by decide,
   (C19_agreement_only_at_disbursement sampleCalls).1 sampleFunded (by decide)⟩

/-- C20, as the code has it: a successful `AddInvestment` returns the loan it
committed and starts `notifyInvestors` for the loan id exactly when that loan
is fully funded and has an agreement reference, passing that reference. On a
database reached from the empty one by `LoanService` calls, a loan that
accepts investments has no agreement reference, so there no `AddInvestment`
starts the notification. -/
theorem C20_notification_on_full_funding (env : Env) (t : Tables) (id : UUID)
    (inv : String) (amount : Int64)
    (hok : (LoanService.AddInvestment env t id inv amount).err = none) :
    (∃ loan, (LoanService.AddInvestment env t id inv amount).loan = some loan ∧
      (LoanService.AddInvestment env t id inv amount).spawned =
        if loan.IsFullyInvested then loan.AgreementLetterURL.map (fun url => (id, url))
        else none) ∧
    (∀ calls : List (Env × Call), t = run Tables.empty calls →
      (LoanService.AddInvestment env t id inv amount).spawned = none) := by
  rcases addInvestment_outcome env t id inv amount with ⟨e, he⟩ |
    ⟨l, hst, hs, _, _, _, _, _, _, _, he⟩
  · rw [he] at hok; cases hok
  · refine ⟨⟨fundedLoan env l amount, by rw [he], by rw [he]⟩, ?_⟩
    intro calls ht
    subst ht
    rw [he]
    have hl := run_agreement calls Tables.empty
      (fun _ hl => absurd hl (List.not_mem_nil _)) l (stored_mem hst)
    have hnone := agreement_none_of_not_disbursed hl (by rw [hs]; decide)
    obtain ⟨_, _, _, _, fU, _⟩ := fundedLoan_fields env l amount
    simp only [fU, hnone, Option.map_none', ite_self]

/-- Witness of C20 as amended: on a database whose approved loan 1 already has
an agreement reference, investing the whole principal succeeds and starts
the notification with that reference. -/
theorem C20_notification_on_full_funding_witness :
    (LoanService.AddInvestment (sampleEnv 3) sampleWithAgreement 1 "investor" 100).err =
      none ∧
    (LoanService.AddInvestment (sampleEnv 3) sampleWithAgreement 1 "investor" 100).spawned =
      some (1, "early.pdf") ∧
    (∃ loan,
      (LoanService.AddInvestment (sampleEnv 3) sampleWithAgreement 1 "investor" 100).loan =
        some loan ∧
      (LoanService.AddInvestment (sampleEnv 3) sampleWithAgreement 1 "investor" 100).spawned =
        if loan.IsFullyInvested then loan.AgreementLetterURL.map (fun url => (1, url))
        else none) :=
  ⟨by decide, by decide,
   (C20_notification_on_full_funding (sampleEnv 3) sampleWithAgreement 1 "investor" 100
      (by decide)).1⟩

/-- Counterexample to C20 as stated: the loan 1 is created with principal 100
and approved through `LoanService`; `AddInvestment` of 100 succeeds, commits
the loan as invested with the total equal to the principal, and starts no
notification. -/
theorem C20_counterexample :
    sampleApproved = run Tables.empty
      [ (sampleEnv 1, .CreateLoan "borrower" 100 0 0),
        (sampleEnv 2, .ApproveLoan 1 "validator" "proof.jpg") ] ∧
    (LoanService.AddInvestment (sampleEnv 3) sampleApproved 1 "investor" 100).err = none ∧
    (LoanService.AddInvestment (sampleEnv 3) sampleApproved 1 "investor" 100).loan =
      some sampleFunded32 ∧
    sampleFunded32.State = LoanStateInvested ∧
    sampleFunded32.TotalInvested = sampleFunded32.PrincipalAmount ∧
    (LoanService.AddInvestment (sampleEnv 3) sampleApproved 1 "investor" 100).spawned =
      none := by
  decide

/-- C21: for every list of investor ids that `GetInvestorsByLoanID` returns and
every behaviour of the email service (each send failing or not), the calls
of `SendAgreementEmail` that `notifyInvestors` makes are, in order, one for
each entry of the list, with that investor, the text of the loan id and the
given agreement reference: a send that fails is logged and the loop goes on.
When `GetInvestorsByLoanID` fails, `notifyInvestors` logs that error and
makes no send. -/
theorem C21_recipient_failures_isolated (investors : List String) (email : EmailService)
    (loanID : UUID) (agreementURL : String) :
    sends (LoanService.notifyInvestors (.ok investors) email loanID agreementURL) =
      investors.map (fun i => (i, UUID.String loanID, agreementURL)) ∧
    (∀ err : Error,
      LoanService.notifyInvestors (.error err) email loanID agreementURL =
        [Effect.logError "failed to get investors for notification" err]) ∧
    (∀ err : Error,
      sends (LoanService.notifyInvestors (.error err) email loanID agreementURL) = []) :=
  ⟨sends_loop email loanID agreementURL investors 0, fun _ => rfl, fun _ => rfl⟩

/-- Witness of C21: with three investors and an email service whose first two
sends fail, all three sends are made, in order, and the two failures are
logged in between. -/
theorem C21_recipient_failures_isolated_witness :
    LoanService.notifyInvestors (.ok ["a", "b", "c"]) failingFirstTwo 7 "agreement.pdf" =
      [ Effect.send "a" "7" "agreement.pdf",
        Effect.logError "failed to send email to investor" (Error.driver "smtp down"),
        Effect.send "b" "7" "agreement.pdf",
        Effect.logError "failed to send email to investor" (Error.driver "smtp down"),
        Effect.send "c" "7" "agreement.pdf" ] ∧
    sends (LoanService.notifyInvestors (.ok ["a", "b", "c"]) failingFirstTwo 7
        "agreement.pdf") =
      [("a", "7", "agreement.pdf"), ("b", "7", "agreement.pdf"), ("c", "7", "agreement.pdf")] :=
  ⟨by decide,
   (C21_recipient_failures_isolated ["a", "b", "c"] failingFirstTwo 7 "agreement.pdf").1⟩

/-- C22, as the code has it: `handleServiceError` answers 404 for every error
that is or wraps `ErrLoanNotFound`. Its switch has no case for
`ErrApprovalNotFound` and `ErrDisbursementNotFound`: every error that is or
wraps one of them falls to the default case and is answered with status 500
and the code `INTERNAL_ERROR`. -/
theorem C22_not_found_mapping (err : Error) :
    (err.Is Error.ErrLoanNotFound = true →
      handler.handleServiceError err = handler.WriteError 404 "NOT_FOUND" "Loan not found") ∧
    (err.Is Error.ErrApprovalNotFound = true ∨ err.Is Error.ErrDisbursementNotFound = true →
      handler.handleServiceError err =
        handler.WriteError 500 "INTERNAL_ERROR" "An internal error occurred") := by
  refine ⟨?_, handler.handleServiceError_default err⟩
  intro h
  unfold handler.handleServiceError
  rw [if_pos h]

/-- Witness of C22 as amended: the error of a read that found no loan,
wrapped once, is answered 404. -/
theorem C22_not_found_mapping_witness :
    (Error.wrapf "failed to load: " Error.ErrLoanNotFound).Is Error.ErrLoanNotFound = true ∧
    handler.handleServiceError (Error.wrapf "failed to load: " Error.ErrLoanNotFound) =
      handler.WriteError 404 "NOT_FOUND" "Loan not found" :=
  ⟨by decide,
   (C22_not_found_mapping (Error.wrapf "failed to load: " Error.ErrLoanNotFound)).1
     (by decide)⟩

/-- Counterexample to C22 as stated: `ErrApprovalNotFound`, the error
`GetApproval` returns for a loan with no approval row, and
`ErrDisbursementNotFound`, the error `GetDisbursement` returns for a loan
with no disbursement row, are answered with status 500, also when wrapped. -/
theorem C22_counterexample :
    LoanService.GetApproval (sampleEnv 5) sampleProposed 1 =
      .error Error.ErrApprovalNotFound ∧
    LoanService.GetDisbursement (sampleEnv 5) sampleProposed 1 =
      .error Error.ErrDisbursementNotFound ∧
    handler.handleServiceError Error.ErrApprovalNotFound =
      handler.WriteError 500 "INTERNAL_ERROR" "An internal error occurred" ∧
    handler.handleServiceError Error.ErrDisbursementNotFound =
      handler.WriteError 500 "INTERNAL_ERROR" "An internal error occurred" ∧
    (handler.handleServiceError
      (Error.wrapf "failed to get approval: " Error.ErrApprovalNotFound)).status = 500 :=
  ⟨rfl, rfl, by decide, by decide, by decide⟩

/-- C23, what the code does: the page of a list request is queried with the
filter of the service, whose limit is the requested one when it lies in
1..100, 10 when it is absent, malformed or not positive, and 100 when it is
above 100; the pagination metadata is written from the filter of the handler,
whose limit is the requested one whenever it is positive. For `limit=500` on a
table of 101 loans the response holds the 100 newest loans, the limit of the
query, and reports the limit 500. -/
theorem C23_reported_limit_above_100_is_not_the_applied_limit :
    (∀ (d : ListDriver) (t : Tables) (q : handler.ListLoansQuery),
      handler.ListLoans d t q =
        match LoanRepository.List d t
            (LoanService.ListLoans.filter (handler.ListLoans.filter q)) with
        | .error err => .inl (handler.handleServiceError err)
        | .ok (loans, total) =>
          .inr ⟨200, true, loans,
            ⟨total, (handler.ListLoans.filter q).Limit, (handler.ListLoans.filter q).Offset⟩⟩) ∧
    (∀ q : handler.ListLoansQuery,
      (LoanService.ListLoans.filter (handler.ListLoans.filter q)).Limit =
        match q.limit with
        | .value n => if n ≤ 0 then 10 else if n > 100 then 100 else n
        | _ => 10) ∧
    (∀ q : handler.ListLoansQuery,
      (handler.ListLoans.filter q).Limit =
        match q.limit with
        | .value n => if n > 0 then n else 10
        | _ => 10) ∧
    handler.ListLoans ListDriver.ok manyLoans ⟨.value 500, .absent, ""⟩ =
      .inr ⟨200, true,
        ((List.range 101).reverse.take 100).map (fun i => NewLoan i i "borrower" 100 0 0),
        ⟨101, 500, 0⟩⟩ ∧
    (LoanService.ListLoans.filter (handler.ListLoans.filter ⟨.value 500, .absent, ""⟩)).Limit =
      100 := by
  refine ⟨fun d t q => rfl, ?_, handler.listLoans_filter_limit, ?_, by decide⟩
  · intro q
    rw [handler.service_filter_limit, handler.listLoans_filter_limit]
    rcases q with ⟨limit, offset, state⟩
    cases limit with
    | absent => simp only; decide
    | malformed => simp only; decide
    | value n =>
      simp only
      by_cases h0 : n > 0
      · have h1 : ¬ n ≤ 0 := by
          rw [gt_iff_lt, Int64.lt_iff] at h0; rw [Int64.le_iff]; omega
        rw [if_pos h0, if_neg h1]
      · have h1 : n ≤ 0 := by
          rw [gt_iff_lt, Int64.lt_iff] at h0; rw [Int64.le_iff]; omega
        rw [if_neg h0, if_pos h1]
        decide
  · set_option maxRecDepth 100000 in decide

/-- C24: in every database reached from the empty one by a sequence of
`LoanService` calls (in any order, with any arguments and any behaviour of
the driver, each call committing all of its writes or none), the
`TotalInvested` of the loan stored under an id is the exact sum of the
`Amount` fields of the investment rows recorded for that id; when the ids in
the loans table are pairwise distinct, as with identifiers that never repeat,
that holds for every row of the table; and every investment row has
`Amount > 0`. -/
theorem C24_conservation_of_funds (calls : List (Env × Call)) :
    (∀ (id : UUID) (l : Loan), (run Tables.empty calls).stored id = some l →
      l.TotalInvested.val = investedSum (run Tables.empty calls) id) ∧
    (((run Tables.empty calls).loans.map (fun r => r.ID)).Nodup →
      ∀ l ∈ (run Tables.empty calls).loans,
        l.TotalInvested.val = investedSum (run Tables.empty calls) l.ID) ∧
    (∀ i ∈ (run Tables.empty calls).investments, 0 < i.Amount) := by
  have h := run_fundsConserved calls Tables.empty
    (fun _ hl => absurd hl (List.not_mem_nil _)) fundsConserved_empty
  exact ⟨h.1, fun hn l hl => h.1 l.ID l (stored_of_nodup _ hn l hl), h.2.2⟩

/-- Witness of C24: after the calls that create the loan 1 with principal
100, approve it and invest 60, then (rejected) 50, then 40, the loan is the
only row, its total is 100, and the two investment rows recorded for it sum
to 100. -/
theorem C24_conservation_of_funds_witness :
    (run Tables.empty sampleCalls).stored 1 = some sampleFunded ∧
    ((run Tables.empty sampleCalls).loans.map (fun r => r.ID)).Nodup ∧
    sampleFunded ∈ (run Tables.empty sampleCalls).loans ∧
    (investmentsOf (run Tables.empty sampleCalls) 1).length = 2 ∧
    sampleFunded.TotalInvested.val = investedSum (run Tables.empty sampleCalls) 1 :=
  ⟨by decide, by decide, by decide, by decide,
   (C24_conservation_of_funds sampleCalls).1 1 sampleFunded (by decide)⟩

/-- C25: in every database reached from the empty one by a sequence of
`LoanService` calls, a loan row in state proposed has `TotalInvested = 0`, a
row in state approved has `TotalInvested < PrincipalAmount`, and a row in
state invested or disbursed has `TotalInvested = PrincipalAmount`; hence
`IsFullyInvested` is true of a row exactly when its state is invested or
disbursed. -/
theorem C25_state_and_funding_agree (calls : List (Env × Call)) (l : Loan)
    (hl : l ∈ (run Tables.empty calls).loans) :
    (l.State = LoanStateProposed → l.TotalInvested = 0) ∧
    (l.State = LoanStateApproved → l.TotalInvested < l.PrincipalAmount) ∧
    (l.State = LoanStateInvested ∨ l.State = LoanStateDisbursed →
      l.TotalInvested = l.PrincipalAmount) ∧
    (l.IsFullyInvested = true ↔
      l.State = LoanStateInvested ∨ l.State = LoanStateDisbursed) := by
  have h := run_fundingAgrees calls Tables.empty
    (fun _ hl => absurd hl (List.not_mem_nil _)) l hl
  have hPA : LoanStateProposed ≠ LoanStateApproved := by decide
  have hPI : LoanStateProposed ≠ LoanStateInvested := by decide
  have hPD : LoanStateProposed ≠ LoanStateDisbursed := by decide
  have hAI : LoanStateApproved ≠ LoanStateInvested := by decide
  have hAD : LoanStateApproved ≠ LoanStateDisbursed := by decide
  unfold Loan.IsFullyInvested
  rw [decide_eq_true_eq, ge_iff_le, Int64.le_iff, Int64.lt_iff]
  rcases h with ⟨hs, h0, hP⟩ | ⟨hs, h0, hlt⟩ | ⟨hs, heq⟩
  · refine ⟨fun _ => Int64.eq_of_val_eq (by rw [h0, Int64.zero_val]), ?_, ?_, ?_⟩
    · intro h1; rw [hs] at h1; exact absurd h1 hPA
    · intro h1; rw [hs] at h1
      rcases h1 with h1 | h1
      · exact absurd h1 hPI
      · exact absurd h1 hPD
    · constructor
      · intro hle; omega
      · intro h1; rw [hs] at h1
        rcases h1 with h1 | h1
        · exact absurd h1 hPI
        · exact absurd h1 hPD
  · refine ⟨?_, fun _ => hlt, ?_, ?_⟩
    · intro h1; rw [hs] at h1; exact absurd h1.symm hPA
    · intro h1; rw [hs] at h1
      rcases h1 with h1 | h1
      · exact absurd h1 hAI
      · exact absurd h1 hAD
    · constructor
      · intro hle; omega
      · intro h1; rw [hs] at h1
        rcases h1 with h1 | h1
        · exact absurd h1 hAI
        · exact absurd h1 hAD
  · refine ⟨?_, ?_, fun _ => Int64.eq_of_val_eq heq, ?_⟩
    · intro h1; rw [h1] at hs
      rcases hs with h2 | h2
      · exact absurd h2 hPI
      · exact absurd h2 hPD
    · intro h1; rw [h1] at hs
      rcases hs with h2 | h2
      · exact absurd h2 hAI
      · exact absurd h2 hAD
    · exact ⟨fun _ => hs, fun _ => by omega⟩

/-- Witness of C25: the row of the loan 1 after it was created with principal
100, approved and funded with 60 and 40 is invested, funded in full, and
`IsFullyInvested` is true of it. -/
theorem C25_state_and_funding_agree_witness :
    sampleFunded ∈ (run Tables.empty sampleCalls).loans ∧
    sampleFunded.State = LoanStateInvested ∧
    sampleFunded.TotalInvested = sampleFunded.PrincipalAmount ∧
    sampleFunded.IsFullyInvested = true :=
  ⟨by decide, by decide,
   (C25_state_and_funding_agree sampleCalls sampleFunded (by decide)).2.2.1
     (Or.inl (by decide)),
   (C25_state_and_funding_agree sampleCalls sampleFunded (by decide)).2.2.2.2
     (Or.inl (by decide))⟩

/-- C26: whatever the database holds under the loan id, whatever the
arguments and the behaviour of the driver, the error that
`LoanService.ApproveLoan`, `AddInvestment` or `DisburseLoan` returns is not
`ErrInvalidStateTransition` and does not wrap it. The reason is the guard
before each call of `Loan.TransitionTo`: on a proposed loan the transition to
approved succeeds, on the loan `Loan.AddInvestment` has accepted (an approved
one) the transition to invested succeeds, and on an invested loan the
transition to disbursed succeeds. -/
theorem C26_transition_error_unreachable (env : Env) (t : Tables) (id : UUID) :
    (∀ (fv pp : String) (e : Error),
      (LoanService.ApproveLoan env t id fv pp).err = some e →
        e ≠ Error.ErrInvalidStateTransition ∧
        e.Is Error.ErrInvalidStateTransition = false) ∧
    (∀ (inv : String) (amount : Int64) (e : Error),
      (LoanService.AddInvestment env t id inv amount).err = some e →
        e ≠ Error.ErrInvalidStateTransition ∧
        e.Is Error.ErrInvalidStateTransition = false) ∧
    (∀ (fo url : String) (e : Error),
      (LoanService.DisburseLoan env t id fo url).err = some e →
        e ≠ Error.ErrInvalidStateTransition ∧
        e.Is Error.ErrInvalidStateTransition = false) ∧
    (∀ (l : Loan) (now : Time), l.State = LoanStateProposed →
      (l.TransitionTo LoanStateApproved now).2 = none) ∧
    (∀ (l : Loan) (amount : Int64) (now now2 : Time), (l.AddInvestment amount now).2 = none →
      ((l.AddInvestment amount now).1.TransitionTo LoanStateInvested now2).2 = none) ∧
    (∀ (l : Loan) (now : Time), l.State = LoanStateInvested →
      (l.TransitionTo LoanStateDisbursed now).2 = none) := by
  have hne : ∀ e : Error, e.Is Error.ErrInvalidStateTransition = false →
      e ≠ Error.ErrInvalidStateTransition ∧
      e.Is Error.ErrInvalidStateTransition = false := by
    intro e h
    refine ⟨?_, h⟩
    intro heq
    rw [heq] at h
    revert h
    decide
  refine ⟨?_, ?_, ?_, ?_, ?_, ?_⟩
  · intro fv pp e he
    rw [approveLoan_err] at he
    exact hne e (withTransaction_no_transition_error _ _ _ _
      (approveLoan_fn_no_transition_error env id fv pp t none) e he)
  · intro inv amount e he
    by_cases hp : amount ≤ 0
    · unfold LoanService.AddInvestment at he
      rw [if_pos hp] at he
      simp only [Option.some.injEq] at he
      subst he
      exact hne _ rfl
    · have hpos : 0 < amount := by
        rw [Int64.le_iff] at hp
        rw [Int64.lt_iff]
        exact not_le.mp hp
      rw [addInvestment_err env t id inv amount hpos] at he
      exact hne e (withTransaction_no_transition_error _ _ _ _
        (addInvestment_fn_no_transition_error env id inv amount t (none, none)) e he)
  · intro fo url e he
    rw [disburseLoan_err] at he
    exact hne e (withTransaction_no_transition_error _ _ _ _
      (disburseLoan_fn_no_transition_error env id fo url t none) e he)
  · intro l now hs
    rw [(transitionTo_eq l LoanStateApproved now).1
      (canTransitionTo_of_next (Or.inl ⟨hs, rfl⟩))]
  · intro l amount now now2 hnone
    rcases addInvestment_cases l amount now with ⟨e, he⟩ | ⟨hs, _, he⟩
    · rw [he] at hnone; cases hnone
    · rw [he]
      show (Loan.TransitionTo
        { l with TotalInvested := l.TotalInvested + amount, UpdatedAt := now }
        LoanStateInvested now2).2 = none
      have hcan : Loan.CanTransitionTo
          { l with TotalInvested := l.TotalInvested + amount, UpdatedAt := now }
          LoanStateInvested = true :=
        canTransitionTo_of_next (Or.inr (Or.inl ⟨hs, rfl⟩))
      rw [(transitionTo_eq _ LoanStateInvested now2).1 hcan]
  · intro l now hs
    rw [(transitionTo_eq l LoanStateDisbursed now).1
      (canTransitionTo_of_next (Or.inr (Or.inr ⟨hs, rfl⟩)))]

/-- C27: on a loan whose fields satisfy `0 ≤ TotalInvested ≤ PrincipalAmount`
the `int64` arithmetic of the source, which wraps modulo `2^64`, is exact: the
subtraction in `RemainingAmount` yields `PrincipalAmount - TotalInvested` as
integers, and the addition in an `AddInvestment` that succeeds, for every
`int64` amount, yields `TotalInvested + amount`. `RemainingAmount` then lies
between 0 and `PrincipalAmount`, and `IsFullyInvested` is true exactly when
`RemainingAmount` is 0. -/
theorem C27_no_wraparound_under_invariant (l : Loan) (amount : Int64) (now : Time)
    (hb : 0 ≤ l.TotalInvested.val ∧ l.TotalInvested.val ≤ l.PrincipalAmount.val) :
    l.RemainingAmount.val = l.PrincipalAmount.val - l.TotalInvested.val ∧
    ((l.AddInvestment amount now).2 = none →
      (l.AddInvestment amount now).1.TotalInvested.val =
        l.TotalInvested.val + amount.val) ∧
    (0 ≤ l.RemainingAmount.val ∧ l.RemainingAmount.val ≤ l.PrincipalAmount.val) ∧
    (l.IsFullyInvested = true ↔ l.RemainingAmount = 0) := by
  have hrem := remainingAmount_exact (l := l) hb
  refine ⟨hrem, ?_, ?_, ?_⟩
  · intro hnone
    rcases addInvestment_cases l amount now with ⟨e, he⟩ | ⟨_, ha, he⟩
    · rw [he] at hnone; cases hnone
    · rw [he]
      exact (add_val_exact hb ha).2
  · rw [hrem]
    obtain ⟨h0, h1⟩ := hb
    omega
  · unfold Loan.IsFullyInvested
    rw [decide_eq_true_eq, ge_iff_le, Int64.le_iff]
    obtain ⟨h0, h1⟩ := hb
    constructor
    · intro h
      apply Int64.eq_of_val_eq
      rw [hrem, Int64.zero_val]
      omega
    · intro h
      have hv : l.RemainingAmount.val = 0 := by rw [h, Int64.zero_val]
      rw [hrem] at hv
      omega

/-- Witness of C27: the approved loan with 50 of 100 invested and the amount
30. -/
theorem C27_no_wraparound_under_invariant_witness :
    (0 ≤ sampleHalfFunded.TotalInvested.val ∧
      sampleHalfFunded.TotalInvested.val ≤ sampleHalfFunded.PrincipalAmount.val) ∧
    sampleHalfFunded.RemainingAmount.val = 50 ∧
    (sampleHalfFunded.AddInvestment 30 7).2 = none ∧
    (sampleHalfFunded.AddInvestment 30 7).1.TotalInvested.val = 80 :=
  ⟨by decide,
   (C27_no_wraparound_under_invariant sampleHalfFunded 30 7 (by decide)).1,
   by decide,
   (C27_no_wraparound_under_invariant sampleHalfFunded 30 7 (by decide)).2.1 (by decide)⟩

end ServiceClaims
